import Mathlib

/-!
# Verification of the gemini-leetcode-assist core

A shallow embedding, in Lean 4, of the DOM-scraping test-result parser
(`src/scripts/content-script/parser.ts`), the update coalescer
(`src/scripts/content-script/content-script.tsx`), the streaming chat
client (`src/utils/gemini.ts`) and the chat store loader (`src/utils/db.ts`,
modelled from its specification and tests), together with proofs and
refutations of the specification's claims about them.

The DOM is embedded as a flat, pre-order list of nodes, each carrying its
tree path (list of child indices).  All DOM operations used by the source
(querySelector / querySelectorAll scoped to an element or to the document,
textContent, nextElementSibling, parentElement, className inspection and
attribute matching) become structural list functions, so every embedded
function is executable and reduces inside the kernel.

JavaScript string operations used by the source (`trim`, `split`,
`includes`, one-shot `replace`, `join`) are embedded as character-list
functions with the same semantics on the inputs that occur; `JSON.parse`
is embedded as a fuel-bounded recursive-descent parser of the JSON value
grammar, and `JSON.stringify` as the corresponding printer.
-/

/-! ## JavaScript-style string primitives -/

/-- Whitespace recognised by JavaScript `String.prototype.trim`
(the characters that occur in this development). -/
def isJsWs (c : Char) : Bool :=
  c = ' ' || c = '\t' || c = '\n' || c = '\r' || c = '\x0b' || c = '\x0c'

/-- `trim` on character lists: drop JS whitespace from both ends. -/
def jsTrimL (l : List Char) : List Char :=
  ((l.dropWhile isJsWs).reverse.dropWhile isJsWs).reverse

/-- JavaScript `String.prototype.trim`. -/
def jsTrim (s : String) : String := ⟨jsTrimL s.data⟩

/-- Split a character list at every occurrence of `c`
(JavaScript `split` with a one-character separator keeps empty pieces). -/
def splitCharL (c : Char) : List Char → List (List Char)
  | [] => [[]]
  | x :: xs =>
    match splitCharL c xs with
    | [] => [[x]]
    | y :: ys => if x = c then [] :: y :: ys else (x :: y) :: ys

/-- JavaScript `String.prototype.split` with a one-character separator. -/
def jsSplit (c : Char) (s : String) : List String :=
  (splitCharL c s.data).map fun l => ⟨l⟩

/-- Is `p` a prefix of `l`? (Boolean, structural.) -/
def hasPrefixCL : List Char → List Char → Bool
  | [], _ => true
  | _ :: _, [] => false
  | a :: as, b :: bs => a = b && hasPrefixCL as bs

/-- Does `p` occur contiguously inside `l`? (Boolean, structural.) -/
def hasInfixCL (p : List Char) : List Char → Bool
  | [] => p.isEmpty
  | l@(_ :: rest) => hasPrefixCL p l || hasInfixCL p rest

/-- JavaScript `String.prototype.includes`. -/
def strHas (s pat : String) : Bool := hasInfixCL pat.data s.data

/-- Remove the first occurrence of `c`
(JavaScript `replace(c, "")` with a one-character string pattern). -/
def removeFirstChar (c : Char) : List Char → List Char
  | [] => []
  | x :: xs => if x = c then xs else x :: removeFirstChar c xs

/-- JavaScript `replace("=", "")`: drop the first `=`. -/
def jsDropFirstEq (s : String) : String := ⟨removeFirstChar '=' s.data⟩

/-- JavaScript `Array.prototype.join` with separator `sep`. -/
def joinWith (sep : String) : List String → String
  | [] => ""
  | [s] => s
  | s :: rest => s ++ sep ++ joinWith sep rest

/-! ## JSON values, `JSON.parse` and `JSON.stringify` -/

/-- JSON values as produced by `JSON.parse`.  Numbers are kept as a
decimal mantissa/exponent pair, which is exact for every literal that
occurs on a test-result page. -/
inductive JVal where
  | jnull
  | jbool (b : Bool)
  | jnum (mant : Int) (exp10 : Int)
  | jstr (s : String)
  | jarr (elems : List JVal)
  | jobj (fields : List (String × JVal))

/-- JSON whitespace (as accepted by `JSON.parse`). -/
def isJsonWs (c : Char) : Bool :=
  c = ' ' || c = '\t' || c = '\n' || c = '\r'

/-- Skip JSON whitespace. -/
def skipWs (l : List Char) : List Char := l.dropWhile isJsonWs

/-- Hex digit value. -/
def hexVal (c : Char) : Option Nat :=
  if '0' ≤ c ∧ c ≤ '9' then some (c.toNat - '0'.toNat)
  else if 'a' ≤ c ∧ c ≤ 'f' then some (c.toNat - 'a'.toNat + 10)
  else if 'A' ≤ c ∧ c ≤ 'F' then some (c.toNat - 'A'.toNat + 10)
  else none

/-- Parse the body of a JSON string literal (the opening quote already
consumed); returns the decoded characters and the rest of the input. -/
def strLitF : List Char → Option (List Char × List Char)
  | [] => none
  | '"' :: rest => some ([], rest)
  | '\\' :: e :: rest =>
    match e with
    | '"' => (strLitF rest).map fun p => ('"' :: p.1, p.2)
    | '\\' => (strLitF rest).map fun p => ('\\' :: p.1, p.2)
    | '/' => (strLitF rest).map fun p => ('/' :: p.1, p.2)
    | 'b' => (strLitF rest).map fun p => ('\x08' :: p.1, p.2)
    | 'f' => (strLitF rest).map fun p => ('\x0c' :: p.1, p.2)
    | 'n' => (strLitF rest).map fun p => ('\n' :: p.1, p.2)
    | 'r' => (strLitF rest).map fun p => ('\r' :: p.1, p.2)
    | 't' => (strLitF rest).map fun p => ('\t' :: p.1, p.2)
    | 'u' =>
      match rest with
      | h1 :: h2 :: h3 :: h4 :: rest2 =>
        match hexVal h1, hexVal h2, hexVal h3, hexVal h4 with
        | some a, some b, some c, some d =>
          (strLitF rest2).map fun p =>
            (Char.ofNat (((a * 16 + b) * 16 + c) * 16 + d) :: p.1, p.2)
        | _, _, _, _ => none
      | _ => none
    | _ => none
  | c :: rest =>
    if c.toNat < 32 then none
    else (strLitF rest).map fun p => (c :: p.1, p.2)

/-- Digits-to-nat accumulator. -/
def digitsToNat (l : List Char) : Nat :=
  l.foldl (fun acc c => acc * 10 + (c.toNat - '0'.toNat)) 0

/-- Parse a JSON number (grammar `-? int frac? exp?` with the JSON
leading-zero restriction); returns mantissa, decimal exponent and rest. -/
def parseJsonNum (cs : List Char) : Option (JVal × List Char) :=
  let (neg, cs1) :=
    match cs with
    | '-' :: r => (true, r)
    | _ => (false, cs)
  let intDigits := cs1.takeWhile Char.isDigit
  let cs2 := cs1.dropWhile Char.isDigit
  if intDigits.isEmpty then none
  else if intDigits.length > 1 ∧ intDigits.headD '0' = '0' then none
  else
    let (fracDigits, cs3) :=
      match cs2 with
      | '.' :: r => (r.takeWhile Char.isDigit, r.dropWhile Char.isDigit)
      | _ => ([], cs2)
    if cs2.headD ' ' = '.' ∧ fracDigits.isEmpty then none
    else
      let (expOk, expNeg, expDigits, cs4) :=
        match cs3 with
        | 'e' :: '+' :: r => (!(r.takeWhile Char.isDigit).isEmpty, false, r.takeWhile Char.isDigit, r.dropWhile Char.isDigit)
        | 'e' :: '-' :: r => (!(r.takeWhile Char.isDigit).isEmpty, true, r.takeWhile Char.isDigit, r.dropWhile Char.isDigit)
        | 'e' :: r => (!(r.takeWhile Char.isDigit).isEmpty, false, r.takeWhile Char.isDigit, r.dropWhile Char.isDigit)
        | 'E' :: '+' :: r => (!(r.takeWhile Char.isDigit).isEmpty, false, r.takeWhile Char.isDigit, r.dropWhile Char.isDigit)
        | 'E' :: '-' :: r => (!(r.takeWhile Char.isDigit).isEmpty, true, r.takeWhile Char.isDigit, r.dropWhile Char.isDigit)
        | 'E' :: r => (!(r.takeWhile Char.isDigit).isEmpty, false, r.takeWhile Char.isDigit, r.dropWhile Char.isDigit)
        | _ => (true, false, [], cs3)
      if !expOk then none
      else
        let mantNat : Nat := digitsToNat (intDigits ++ fracDigits)
        let mant : Int := if neg then -(mantNat : Int) else (mantNat : Int)
        let expBase : Int := if expNeg then -(digitsToNat expDigits : Int) else (digitsToNat expDigits : Int)
        some (.jnum mant (expBase - fracDigits.length), cs4)

/-- Parse the items of a JSON array after the first `[` (non-empty case):
`value (, value)* ]`.  `step` parses one value. -/
def arrItemsF (step : List Char → Option (JVal × List Char)) :
    Nat → List Char → Option (List JVal × List Char)
  | 0, _ => none
  | fuel + 1, cs =>
    match step cs with
    | none => none
    | some (v, rest) =>
      match skipWs rest with
      | ',' :: r2 =>
        match arrItemsF step fuel r2 with
        | some (vs, r3) => some (v :: vs, r3)
        | none => none
      | ']' :: r2 => some ([v], r2)
      | _ => none

/-- Parse the fields of a JSON object after the first `{` (non-empty
case): `"key" : value (, "key" : value)* }`. -/
def objFieldsF (step : List Char → Option (JVal × List Char)) :
    Nat → List Char → Option (List (String × JVal) × List Char)
  | 0, _ => none
  | fuel + 1, cs =>
    match skipWs cs with
    | '"' :: r1 =>
      match strLitF r1 with
      | none => none
      | some (key, r2) =>
        match skipWs r2 with
        | ':' :: r3 =>
          match step r3 with
          | none => none
          | some (v, r4) =>
            match skipWs r4 with
            | ',' :: r5 =>
              match objFieldsF step fuel r5 with
              | some (fs, r6) => some ((⟨key⟩, v) :: fs, r6)
              | none => none
            | '}' :: r5 => some ([(⟨key⟩, v)], r5)
            | _ => none
        | _ => none
    | _ => none

/-- Fuel-bounded JSON value parser. -/
def pJF : Nat → List Char → Option (JVal × List Char)
  | 0, _ => none
  | fuel + 1, cs =>
    match skipWs cs with
    | 'n' :: 'u' :: 'l' :: 'l' :: rest => some (.jnull, rest)
    | 't' :: 'r' :: 'u' :: 'e' :: rest => some (.jbool true, rest)
    | 'f' :: 'a' :: 'l' :: 's' :: 'e' :: rest => some (.jbool false, rest)
    | '"' :: rest => (strLitF rest).map fun p => (.jstr ⟨p.1⟩, p.2)
    | '[' :: rest =>
      (match skipWs rest with
       | ']' :: r2 => some (.jarr [], r2)
       | _ => (arrItemsF (pJF fuel) fuel rest).map fun p => (.jarr p.1, p.2))
    | '{' :: rest =>
      (match skipWs rest with
       | '}' :: r2 => some (.jobj [], r2)
       | _ => (objFieldsF (pJF fuel) fuel rest).map fun p => (.jobj p.1, p.2))
    | rest => parseJsonNum rest

/-- `JSON.parse`: parse a complete JSON document, requiring the whole
input to be consumed (up to trailing whitespace); `none` models a thrown
`SyntaxError`. -/
def jsonParse (s : String) : Option JVal :=
  match pJF (s.data.length + 1) s.data with
  | some (v, rest) => if skipWs rest = [] then some v else none
  | none => none

/-- `try { JSON.parse(s) } catch { s }`: decode a scraped value with
fallback to the literal string. -/
def decodeVal (s : String) : JVal := (jsonParse s).getD (.jstr s)

/-- Quote a string as a JSON string literal (the escapes needed here). -/
def jquoteL : List Char → List Char
  | [] => []
  | c :: rest =>
    if c = '"' then '\\' :: '"' :: jquoteL rest
    else if c = '\\' then '\\' :: '\\' :: jquoteL rest
    else if c = '\n' then '\\' :: 'n' :: jquoteL rest
    else if c = '\t' then '\\' :: 't' :: jquoteL rest
    else if c = '\r' then '\\' :: 'r' :: jquoteL rest
    else c :: jquoteL rest

/-- JSON string literal for `s`. -/
def jquote (s : String) : String := "\"" ++ ⟨jquoteL s.data⟩ ++ "\""

/-- `JSON.stringify` on embedded JSON values. -/
def jstringify : JVal → String
  | .jnull => "null"
  | .jbool b => if b then "true" else "false"
  | .jnum m e => toString m ++ (if e = 0 then "" else "e" ++ toString e)
  | .jstr s => jquote s
  | .jarr l =>
    "[" ++ joinWith "," (l.attach.map fun x => jstringify x.1) ++ "]"
  | .jobj l =>
    "\x7b" ++ joinWith ","
      (l.attach.map fun x => jquote x.1.1 ++ ":" ++ jstringify x.1.2) ++ "\x7d"
termination_by v => sizeOf v
decreasing_by
  · have := List.sizeOf_lt_of_mem x.2
    simp only [JVal.jarr.sizeOf_spec]
    omega
  · have h1 := List.sizeOf_lt_of_mem x.2
    have h2 : sizeOf x.1.2 < sizeOf x.1 := by
      obtain ⟨a, b⟩ := x.1
      simp only [Prod.mk.sizeOf_spec]
      omega
    simp only [JVal.jobj.sizeOf_spec]
    omega

/-! ## The DOM, embedded as a flat pre-order list of path-tagged nodes -/

/-- A DOM node: either a text node, or an element with tag name, raw
`className` string and attribute list. -/
inductive NodeKind where
  | textNode (s : String)
  | elemNode (tag : String) (className : String) (attrs : List (String × String))

/-- A node of a document, located by its tree path (the list of child
indices from the root). -/
structure DomNode where
  path : List Nat
  kind : NodeKind

/-- A document: its nodes listed in pre-order (document order).  The root
has path `[]` and plays the role of `document.body`. -/
abbrev Dom := List DomNode

/-- Is the node an element? -/
def DomNode.isElem (n : DomNode) : Bool :=
  match n.kind with
  | .elemNode _ _ _ => true
  | .textNode _ => false

/-- The text of a text node (`""` for elements). -/
def DomNode.textData (n : DomNode) : String :=
  match n.kind with
  | .textNode s => s
  | .elemNode _ _ _ => ""

/-- The raw `className` of an element (`""` for text nodes). -/
def DomNode.classNameOf (n : DomNode) : String :=
  match n.kind with
  | .elemNode _ c _ => c
  | .textNode _ => ""

/-- Boolean path-prefix test. -/
def pathPre : List Nat → List Nat → Bool
  | [], _ => true
  | _ :: _, [] => false
  | a :: as, b :: bs => a = b && pathPre as bs

/-- A simple CSS selector: optional tag, required class tokens, optional
attribute equality. -/
structure SimpleSel where
  tag : Option String
  classes : List String
  attr : Option (String × String)

/-- A selector list (comma-separated alternatives). -/
abbrev Sel := List SimpleSel

/-- The class tokens of an element (its `className` split on spaces). -/
def classTokens (className : String) : List String := jsSplit ' ' className

/-- Does a node kind match one simple selector?  Text nodes never match. -/
def kindMatches (k : NodeKind) (s : SimpleSel) : Bool :=
  match k with
  | .textNode _ => false
  | .elemNode tag className attrs =>
    (match s.tag with
     | some t => t = tag
     | none => true)
    && s.classes.all (fun c => (classTokens className).contains c)
    && (match s.attr with
        | some (a, v) => attrs.contains (a, v)
        | none => true)

/-- Does a node match any alternative of a selector list? -/
def nodeSelMatch (n : DomNode) (sel : Sel) : Bool :=
  sel.any (kindMatches n.kind)

/-- `element.querySelectorAll(sel)` scoped to the element at `base`:
matching strict descendants, in document order. -/
def qsaFrom (d : Dom) (base : List Nat) (sel : Sel) : List DomNode :=
  d.filter fun n =>
    n.isElem && pathPre base n.path && !(n.path = base) && nodeSelMatch n sel

/-- `element.querySelector(sel)` scoped to the element at `base`. -/
def qsFrom (d : Dom) (base : List Nat) (sel : Sel) : Option DomNode :=
  (qsaFrom d base sel).head?

/-- `document.querySelectorAll(sel)` (every element, root included). -/
def docQsa (d : Dom) (sel : Sel) : List DomNode :=
  d.filter fun n => n.isElem && nodeSelMatch n sel

/-- `document.querySelector(sel)`. -/
def docQs (d : Dom) (sel : Sel) : Option DomNode :=
  (docQsa d sel).head?

/-- `textContent`: the concatenated text of every text node at or below
`p`, in document order. -/
def textContentAt (d : Dom) (p : List Nat) : String :=
  joinWith "" ((d.filter fun n => pathPre p n.path && !n.isElem).map DomNode.textData)

/-- The node stored at path `p`, if any. -/
def nodeAt (d : Dom) (p : List Nat) : Option DomNode :=
  d.find? fun n => n.path = p

/-- `element.nextElementSibling` of the node at `p`: the first element
whose path is a sibling path of `p` with a larger final index.  (In a
pre-order document that is the sibling with the smallest such index.) -/
def nextElemSib (d : Dom) (p : List Nat) : Option DomNode :=
  match p.getLast? with
  | none => none
  | some i =>
    (d.filter fun n =>
      n.isElem && n.path.dropLast = p.dropLast
        && (match n.path.getLast? with
            | some j => i < j
            | none => false)).head?

/-- `element.parentElement` of the node at `p` (none at the root). -/
def parentPathOf (p : List Nat) : Option (List Nat) :=
  match p with
  | [] => none
  | _ :: _ => some p.dropLast

/-! ## Embedding of `parser.ts` (the test-result parser) -/

/-- A parsed test case (`interface TestCase` of `parser.ts`):
`expected` is `none` for the runtime-error sentinel (`expected: null`). -/
structure TestCase where
  input : List (String × JVal)
  output : String
  expected : Option String

/-- JavaScript object-key assignment `obj[k] = v`: overwrite in place if
the key exists, else append. -/
def setKey (obj : List (String × JVal)) (k : String) (v : JVal) : List (String × JVal) :=
  match obj with
  | [] => [(k, v)]
  | (k', v') :: rest => if k' = k then (k, v) :: rest else (k', v') :: setKey rest k v

/-- `.flex-1.overflow-y-auto` (the test-result container). -/
def selFlex1 : Sel := [⟨none, ["flex-1", "overflow-y-auto"], none⟩]

/-- `[data-e2e-locator="console-result"]` (the result indicator). -/
def selConsole : Sel := [⟨none, [], some ("data-e2e-locator", "console-result")⟩]

/-- `.font-menlo.whitespace-pre-wrap.break-all.text-xs.text-red-60.dark\:text-red-60`
(the red error-detail element). -/
def selErrDetail : Sel :=
  [⟨none, ["font-menlo", "whitespace-pre-wrap", "break-all", "text-xs",
           "text-red-60", "dark:text-red-60"], none⟩]

/-- `.group.relative.rounded-lg.bg-fill-4.dark\:bg-dark-fill-4`
(a "Last Executed Input" group). -/
def selRtGroup : Sel :=
  [⟨none, ["group", "relative", "rounded-lg", "bg-fill-4", "dark:bg-dark-fill-4"], none⟩]

/-- `.mx-3.mb-2.text-xs.text-label-3.dark\:text-dark-label-3` (its label). -/
def selRtLabel : Sel :=
  [⟨none, ["mx-3", "mb-2", "text-xs", "text-label-3", "dark:text-dark-label-3"], none⟩]

/-- `.font-menlo.mx-3.whitespace-pre-wrap.break-all.leading-5.text-label-1.dark\:text-dark-label-1`
(its value). -/
def selRtValue : Sel :=
  [⟨none, ["font-menlo", "mx-3", "whitespace-pre-wrap", "break-all",
           "leading-5", "text-label-1", "dark:text-dark-label-1"], none⟩]

/-- `div.mb-2, div.text-sd-muted-foreground, div.flex.text-xs`
(candidate Input/Output/Expected headers). -/
def selHeader : Sel :=
  [⟨some "div", ["mb-2"], none⟩,
   ⟨some "div", ["text-sd-muted-foreground"], none⟩,
   ⟨some "div", ["flex", "text-xs"], none⟩]

/-- `.cm-content` (a CodeMirror content block). -/
def selCm : Sel := [⟨none, ["cm-content"], none⟩]

/-- `.cm-line` (one CodeMirror line). -/
def selCmLine : Sel := [⟨none, ["cm-line"], none⟩]

/-- `.group.relative` (a visible labelled input group). -/
def selGroupRel : Sel := [⟨none, ["group", "relative"], none⟩]

/-- `.mx-3.mb-2` (a visible group's label). -/
def selLabel : Sel := [⟨none, ["mx-3", "mb-2"], none⟩]

/-- `.font-menlo.mx-3` (a visible group's value). -/
def selValue : Sel := [⟨none, ["font-menlo", "mx-3"], none⟩]

/-- `.font-menlo` (a plain value node). -/
def selFontMenlo : Sel := [⟨none, ["font-menlo"], none⟩]

/-- The trimmed CodeMirror lines under a content block:
`Array.from(cm.querySelectorAll(".cm-line")).map(el => el.textContent?.trim() || "")`. -/
def cmLines (d : Dom) (cmPath : List Nat) : List String :=
  (qsaFrom d cmPath selCmLine).map fun n => jsTrim (textContentAt d n.path)

/-- `parseValue(contentDiv, index)` of `parser.ts`: a line-indexed value
from a CodeMirror block, else the single `.font-menlo` text. -/
def parseValue (d : Dom) (contentPath : List Nat) (index : Nat) : String :=
  match qsFrom d contentPath selCm with
  | some cm =>
    let lines := cmLines d cm.path
    if index < lines.length then lines.getD index "" else ""
  | none =>
    match qsFrom d contentPath selFontMenlo with
    | some v => jsTrim (textContentAt d v.path)
    | none => ""

/-- `parseInput(contentDiv)` of `parser.ts`: returns the parsed record and
the ordered key list discovered in the first Input block. -/
def parseInput (d : Dom) (contentPath : List Nat) :
    List (String × JVal) × List String :=
  match qsFrom d contentPath selCm with
  | some cm =>
    let lines := cmLines d cm.path
    if lines.any (fun l => strHas l "=") then
      lines.foldl
        (fun acc l =>
          let parts := jsSplit '=' l
          if 2 ≤ parts.length then
            let key := jsTrim (parts.headD "")
            let valueStr := jsTrim (joinWith "=" parts.tail)
            (setKey acc.1 key (decodeVal valueStr), acc.2 ++ [key])
          else acc)
        ([], [])
    else ([], [])
  | none =>
    (qsaFrom d contentPath selGroupRel).foldl
      (fun acc g =>
        match qsFrom d g.path selLabel, qsFrom d g.path selValue with
        | some labelDiv, some valueDiv =>
          let key := jsTrim (jsDropFirstEq (textContentAt d labelDiv.path))
          let valueStr := jsTrim (textContentAt d valueDiv.path)
          if key ≠ "" ∧ valueStr ≠ "" then
            (setKey acc.1 key (decodeVal valueStr), acc.2 ++ [key])
          else acc
        | _, _ => acc)
      ([], [])

/-- The structurally-adjacent content block of a header: its next element
sibling if that carries one of the expected class markers (a substring
test on `className`), else the parent's next element sibling. -/
def sectionContent (d : Dom) (headerPath : List Nat) : Option DomNode :=
  let classOk : DomNode → Bool := fun n =>
    strHas n.classNameOf "space-y-2" || strHas n.classNameOf "px-4"
      || strHas n.classNameOf "group" || strHas n.classNameOf "relative"
  let fallback : Option DomNode :=
    match parentPathOf headerPath with
    | some pp => nextElemSib d pp
    | none => none
  match nextElemSib d headerPath with
  | some c => if classOk c then some c else fallback
  | none => fallback

/-- The `{type, content}` sections of the normal parse: each header whose
trimmed text is exactly `Input`, `Output` or `Expected`, paired with its
content block. -/
def parsedSections (d : Dom) (containerPath : List Nat) : List (String × DomNode) :=
  let allDivs := qsaFrom d containerPath selHeader
  let headers := allDivs.filter fun n =>
    let t := jsTrim (textContentAt d n.path)
    t = "Input" || t = "Output" || t = "Expected"
  headers.filterMap fun h =>
    (sectionContent d h.path).map fun c => (jsTrim (textContentAt d h.path), c)

/-- The collapsed multi-case loop body: the test cases built from the
collapsed lines, the discovered keys and the collapsed Output/Expected
blocks.  `input[globalKeys[k]] = JSON.parse(lines[k]) catch lines[k]`. -/
def buildCollapsedCases (d : Dom) (globalKeys lines : List String)
    (outPath expPath : List Nat) : List TestCase :=
  (List.range (lines.length / globalKeys.length)).map fun j =>
    let tcl := (lines.drop (j * globalKeys.length)).take globalKeys.length
    let input := (List.range globalKeys.length).foldl
      (fun acc k => setKey acc (globalKeys.getD k "") (decodeVal (tcl.getD k ""))) []
    ⟨input, parseValue d outPath j, some (parseValue d expPath j)⟩

/-- The error details text used by the compile-error branch scoped to the
document (`errorElement?.textContent?.trim() || "Unknown compile error"`). -/
def compileDetailsDoc (d : Dom) : String :=
  match docQs d selErrDetail with
  | some n =>
    let t := jsTrim (textContentAt d n.path)
    if t = "" then "Unknown compile error" else t
  | none => "Unknown compile error"

/-- The error details text of the runtime-error branch. -/
def runtimeDetailsDoc (d : Dom) : String :=
  match docQs d selErrDetail with
  | some n =>
    let t := jsTrim (textContentAt d n.path)
    if t = "" then "Unknown runtime error" else t
  | none => "Unknown runtime error"

/-- The error details text of the compile-error branch scoped to the
test-result container (the non-body mode). -/
def compileDetailsEl (d : Dom) (containerPath : List Nat) : String :=
  match qsFrom d containerPath selErrDetail with
  | some n =>
    let t := jsTrim (textContentAt d n.path)
    if t = "" then "Unknown compile error" else t
  | none => "Unknown compile error"

/-- The compile-error sentinel case built in the `container === document.body`
branch. -/
def compileCaseDoc (d : Dom) : TestCase :=
  ⟨[("NA (compile error)", .jstr "NA (compile error)")],
   "Compile Error: " ++ compileDetailsDoc d,
   some "NA (compile error)"⟩

/-- The key/value pairs scraped from the "Last Executed Input" groups of
the runtime-error branch. -/
def runtimeInput (d : Dom) : List (String × JVal) :=
  (docQsa d selRtGroup).foldl
    (fun acc g =>
      match qsFrom d g.path selRtLabel, qsFrom d g.path selRtValue with
      | some labelDiv, some valueDiv =>
        let key := jsTrim (jsDropFirstEq (textContentAt d labelDiv.path))
        let valueStr := jsTrim (textContentAt d valueDiv.path)
        if key ≠ "" ∧ valueStr ≠ "" then setKey acc key (decodeVal valueStr)
        else acc
      | _, _ => acc)
    []

/-- The runtime-error sentinel case (`expected: null`). -/
def runtimeCaseDoc (d : Dom) : TestCase :=
  ⟨runtimeInput d, "Runtime Error: " ++ runtimeDetailsDoc d, none⟩

/-- The compile-error sentinel case of the non-body mode. -/
def compileCaseEl (d : Dom) (containerPath : List Nat) : TestCase :=
  ⟨[("NA (compile error)", .jstr "NA (compile error)")],
   "Compile Error: " ++ compileDetailsEl d containerPath,
   some "NA (compile error)"⟩

/-- The normal test-case parsing of `parseLeetCodetestResult` (everything
after the error branches).  The `Except.error` value embeds the uncaught
`TypeError` thrown when `inputs` has exactly one entry: the source reads
`inputs[1].content` under the vacuous guard `inputs.length > 0`. -/
def normalParse (d : Dom) (containerPath : List Nat) : Except String (List TestCase) :=
  let sections := parsedSections d containerPath
  let inputs := sections.filter fun s => s.1 = "Input"
  let outputs := sections.filter fun s => s.1 = "Output"
  let expecteds := sections.filter fun s => s.1 = "Expected"
  match inputs, outputs, expecteds with
  | i0 :: irest, o0 :: _, e0 :: _ =>
    let globalKeys := (parseInput d i0.2.path).2
    match irest with
    | [] => .error "TypeError: Cannot read properties of undefined (reading 'content')"
    | i1 :: _ =>
      let collapsedOutput := if 1 < outputs.length then outputs.getD 1 o0 else o0
      let collapsedExpected := if 1 < expecteds.length then expecteds.getD 1 e0 else e0
      match qsFrom d i1.2.path selCm with
      | some cm =>
        let lines := cmLines d cm.path
        if 0 < lines.length ∧ 0 < globalKeys.length ∧ lines.length % globalKeys.length = 0 then
          .ok (buildCollapsedCases d globalKeys lines collapsedOutput.2.path collapsedExpected.2.path)
        else .ok []
      | none => .ok []
  | _, _, _ => .ok []

/-- The container actually parsed:
`container || document.querySelector(".flex-1.overflow-y-auto")`. -/
def trcOf (d : Dom) (container : Option (List Nat)) : Option (List Nat) :=
  match container with
  | some p => some p
  | none => (docQs d selFlex1).map DomNode.path

/-- `parseLeetCodetestResult(container)` of `parser.ts`.  The document
root (path `[]`) plays the role of `document.body`; `container = some []`
is the `container === document.body` error mode.  A rejected promise
(uncaught exception) is `Except.error`. -/
def parseLeetCodetestResult (d : Dom) (container : Option (List Nat)) :
    Except String (List TestCase) :=
  match trcOf d container with
  | none => .ok []
  | some tc =>
    if container = some [] then
      match docQs d selConsole with
      | some r =>
        if strHas (textContentAt d r.path) "Compile Error" then .ok [compileCaseDoc d]
        else if strHas (textContentAt d r.path) "Runtime Error" then .ok [runtimeCaseDoc d]
        else normalParse d tc
      | none => normalParse d tc
    else
      match qsFrom d tc selConsole with
      | some r =>
        if strHas (textContentAt d r.path) "Compile Error" then .ok [compileCaseEl d tc]
        else normalParse d tc
      | none => normalParse d tc

/-! ## Embedding of `content-script.tsx` (the update coalescer) -/

/-- The parsed problem details (`parseLeetCodeProblem`'s result shape). -/
structure ProblemDetails where
  title : String
  description : String
  examples : List String
  constraints : String

/-- The content script's module-level state: last parsed problem, last
sent code, last parsed test result and last sent test result. -/
structure CSState where
  problemDetails : Option ProblemDetails
  lastSentCode : Option String
  lastTestResult : Option (List TestCase)
  lastSentTestResult : Option (List TestCase)

/-- A `TestCase` as a JSON value (for `JSON.stringify`). -/
def testCaseToJVal (tc : TestCase) : JVal :=
  .jobj [("input", .jobj tc.input), ("output", .jstr tc.output),
         ("expected", match tc.expected with
                      | some s => .jstr s
                      | none => .jnull)]

/-- `JSON.stringify` of a (possibly null) test-result snapshot. -/
def stringifyTR (tr : Option (List TestCase)) : String :=
  match tr with
  | none => "null"
  | some l => jstringify (.jarr (l.map testCaseToJVal))

/-- The `PROBLEM_UPDATE` payload (`problemSlug` plus the spread problem
details, code, test result and timestamp). -/
structure UnifiedUpdate where
  problemSlug : String
  details : ProblemDetails
  code : String
  testResult : Option (List TestCase)
  timestamp : String

/-- `sendUnifiedUpdate(code)` of `content-script.tsx`: suppress when no
problem is parsed, no slug is extractable from `location.pathname`, or
neither the code nor the stringified test result changed; otherwise emit
the payload and record the last-sent code and test result. -/
def sendUnifiedUpdate (pathname ts : String) (code : String) (st : CSState) :
    CSState × Option UnifiedUpdate :=
  match st.problemDetails with
  | none => (st, none)
  | some pd =>
    let slug := (jsSplit '/' pathname).getD 2 ""
    if slug = "" then (st, none)
    else
      let codeChanged := some code ≠ st.lastSentCode
      let testResultChanged := stringifyTR st.lastTestResult ≠ stringifyTR st.lastSentTestResult
      if ¬codeChanged ∧ ¬testResultChanged then (st, none)
      else
        ({ st with lastSentCode := some code, lastSentTestResult := st.lastTestResult },
         some ⟨slug, pd, code, st.lastTestResult, ts⟩)

/-- `handleProblemChange()` of `content-script.tsx`, parameterised by the
(awaited) result of `parseLeetCodeProblem`.  Returns the new state, the
emitted unified update if any, and the dispatched `setProblemSlug`
argument if any (`some none` is a dispatch of `null`). -/
def handleProblemChange (pathname ts : String)
    (parsed : Except String ProblemDetails) (st : CSState) :
    CSState × Option UnifiedUpdate × Option (Option String) :=
  let segs := jsSplit '/' pathname
  if 2 < segs.length ∧ segs.getD 1 "" = "problems" then
    let slug := segs.getD 2 ""
    match parsed with
    | .ok details =>
      if some details.title ≠ st.problemDetails.map ProblemDetails.title then
        let st1 : CSState :=
          { st with problemDetails := some details,
                    lastTestResult := none, lastSentTestResult := none }
        match st.lastSentCode with
        | some c =>
          let r := sendUnifiedUpdate pathname ts c st1
          (r.1, r.2, some (some slug))
        | none => (st1, none, some (some slug))
      else (st, none, none)
    | .error _ => (st, none, some none)
  else
    if st.problemDetails.isSome then
      ({ st with problemDetails := none }, none, some none)
    else (st, none, none)

/-! ## Embedding of `gemini.ts` (the streaming chat client) -/

/-- One content part of a provider chunk: `text` may be absent, and
`thought` is the truthiness of the part's thought flag. -/
structure GPart where
  text : Option String
  thought : Bool

/-- One provider chunk: `none` models a chunk without
`candidates[0].content.parts` (skipped by the `continue`). -/
abbrev GChunk := Option (List GPart)

/-- One yielded `StreamEvent`. -/
structure StreamEvent where
  text : Option String := none
  thought : Option String := none
  thinkingStartTime : Option Nat := none
  thinkingEndTime : Option Nat := none

/-- The loop state of `callGeminiApi`'s streaming section: the recorded
times, the `hasThinking` flag and a logical clock for `Date.now()`. -/
structure GenState where
  hasThinking : Bool
  startT : Option Nat
  endT : Option Nat
  clock : Nat

/-- Process one content part, yielding at most one event.  Parts whose
text is absent or empty are skipped (`if (!part.text) continue`). -/
def stepPart (s : GenState) (p : GPart) : GenState × List StreamEvent :=
  match p.text with
  | none => (s, [])
  | some t =>
    if t = "" then (s, [])
    else if p.thought then
      if s.hasThinking then (s, [{ thought := some t }])
      else
        ({ s with hasThinking := true, startT := some s.clock, clock := s.clock + 1 },
         [{ thought := some t, thinkingStartTime := some s.clock }])
    else
      if s.hasThinking ∧ s.endT = none then
        ({ s with endT := some s.clock, clock := s.clock + 1 },
         [{ text := some t, thinkingEndTime := some s.clock }])
      else (s, [{ text := some t }])

/-- Process the parts of one chunk in order. -/
def stepParts (s : GenState) : List GPart → GenState × List StreamEvent
  | [] => (s, [])
  | p :: ps =>
    let r1 := stepPart s p
    let r2 := stepParts r1.1 ps
    (r2.1, r1.2 ++ r2.2)

/-- Process one chunk (`continue` when it has no parts). -/
def stepChunk (s : GenState) (c : GChunk) : GenState × List StreamEvent :=
  match c with
  | none => (s, [])
  | some ps => stepParts s ps

/-- Process all chunks of one stream. -/
def stepChunks (s : GenState) : List GChunk → GenState × List StreamEvent
  | [] => (s, [])
  | c :: cs =>
    let r1 := stepChunk s c
    let r2 := stepChunks r1.1 cs
    (r2.1, r1.2 ++ r2.2)

/-- The events yielded by one `callGeminiApi` invocation over a given
chunk sequence, starting the `Date.now()` clock at `t0`. -/
def streamEvents (chunks : List GChunk) (t0 : Nat) : List StreamEvent :=
  (stepChunks ⟨false, none, none, t0⟩ chunks).2

/-- The catch-block error mapping of `callGeminiApi`: substring checks on
the error message, in source order. -/
def mapApiError (msg : String) : String :=
  if strHas msg "400" then "Invalid request. Please check your prompt and try again."
  else if strHas msg "401" then "Authentication failed. Please check your API key."
  else if strHas msg "403" then "Permission denied. You do not have permission to call the API."
  else if strHas msg "404" then "The requested resource was not found."
  else if strHas msg "429" then "Rate limit exceeded. Please try again later."
  else if strHas msg "500" ∨ strHas msg "503" then
    "The service is temporarily unavailable. Please try again later."
  else "An unexpected error occurred: " ++ msg

/-- `callGeminiApi` as a function of the provider's behaviour: the chunks
it delivered before finishing or failing, and the error it raised, if
any, while the call was made or iterated.  Returns the yielded events and
the error the generator ends with (`none` = normal completion). -/
def callGeminiApi (apiKey : String) (chunks : List GChunk)
    (streamErr : Option String) (t0 : Nat) : List StreamEvent × Option String :=
  if apiKey = "" then ([], some "Invalid API key provided.")
  else (streamEvents chunks t0, streamErr.map mapApiError)

/-! ## `loadChats` of `src/utils/db.ts` -/

/-- A stored chat entry (`Chat` of the chats store): `lastUpdated` is
optional because legacy entries lack it. -/
structure StoredChat where
  id : String
  messages : List String
  lastUpdated : Option Nat

/-- Modelled from the spec: `src/utils/db.ts` is not part of the provided
sources (only its tests are).  Per the spec, `loadChats` reads the chat
list stored under a problem slug (empty when absent) and "must backfill a
`lastUpdated` timestamp (current time) for any entry lacking one, without
altering entries that already have it". -/
def loadChats (stored : Option (List StoredChat)) (now : Nat) : List StoredChat :=
  (stored.getD []).map fun c =>
    match c.lastUpdated with
    | none => { c with lastUpdated := some now }
    | some _ => c

/-! ## Concrete documents and document families used by the claims -/

/-- A test-result container holding exactly one Input/Output/Expected
header triple (the shape of a single visible test case with no collapsed
second Input section). -/
def singleTripleDom : Dom :=
  [⟨[], .elemNode "body" "" []⟩,
   ⟨[0], .elemNode "div" "flex-1 overflow-y-auto" []⟩,
   ⟨[0, 0], .elemNode "div" "mb-2" []⟩, ⟨[0, 0, 0], .textNode "Input"⟩,
   ⟨[0, 1], .elemNode "div" "space-y-2" []⟩,
   ⟨[0, 1, 0], .elemNode "div" "group relative" []⟩,
   ⟨[0, 1, 0, 0], .elemNode "div" "mx-3 mb-2" []⟩, ⟨[0, 1, 0, 0, 0], .textNode "x ="⟩,
   ⟨[0, 1, 0, 1], .elemNode "div" "font-menlo mx-3" []⟩, ⟨[0, 1, 0, 1, 0], .textNode "5"⟩,
   ⟨[0, 2], .elemNode "div" "mb-2" []⟩, ⟨[0, 2, 0], .textNode "Output"⟩,
   ⟨[0, 3], .elemNode "div" "px-4" []⟩,
   ⟨[0, 3, 0], .elemNode "div" "font-menlo" []⟩, ⟨[0, 3, 0, 0], .textNode "5"⟩,
   ⟨[0, 4], .elemNode "div" "mb-2" []⟩, ⟨[0, 4, 0], .textNode "Expected"⟩,
   ⟨[0, 5], .elemNode "div" "px-4" []⟩,
   ⟨[0, 5, 0], .elemNode "div" "font-menlo" []⟩, ⟨[0, 5, 0, 0], .textNode "5"⟩]

/-- A page whose console-result indicator reads `Compile Error`
(error mode: the parser is called on `document.body`). -/
def compileErrorDom : Dom :=
  [⟨[], .elemNode "body" "" []⟩,
   ⟨[0], .elemNode "div" "" [("data-e2e-locator", "console-result")]⟩,
   ⟨[0, 0], .textNode "Compile Error"⟩,
   ⟨[1], .elemNode "div"
     "font-menlo whitespace-pre-wrap break-all text-xs text-red-60 dark:text-red-60" []⟩,
   ⟨[1, 0], .textNode "Line 3: unexpected token"⟩]

/-- A page whose console-result indicator reads `Runtime Error`, with one
"Last Executed Input" group. -/
def runtimeErrorDom : Dom :=
  [⟨[], .elemNode "body" "" []⟩,
   ⟨[0], .elemNode "div" "" [("data-e2e-locator", "console-result")]⟩,
   ⟨[0, 0], .textNode "Runtime Error"⟩,
   ⟨[1], .elemNode "div"
     "font-menlo whitespace-pre-wrap break-all text-xs text-red-60 dark:text-red-60" []⟩,
   ⟨[1, 0], .textNode "index out of range"⟩,
   ⟨[2], .elemNode "div" "group relative rounded-lg bg-fill-4 dark:bg-dark-fill-4" []⟩,
   ⟨[2, 0], .elemNode "div" "mx-3 mb-2 text-xs text-label-3 dark:text-dark-label-3" []⟩,
   ⟨[2, 0, 0], .textNode "nums ="⟩,
   ⟨[2, 1], .elemNode "div"
     "font-menlo mx-3 whitespace-pre-wrap break-all leading-5 text-label-1 dark:text-dark-label-1" []⟩,
   ⟨[2, 1, 0], .textNode "[1,2]"⟩]

/-- A test-result container (not `document.body`) whose own console-result
indicator reads `Compile Error`. -/
def elCompileDom : Dom :=
  [⟨[], .elemNode "body" "" []⟩,
   ⟨[0], .elemNode "div" "flex-1 overflow-y-auto" []⟩,
   ⟨[0, 0], .elemNode "div" "" [("data-e2e-locator", "console-result")]⟩,
   ⟨[0, 0, 0], .textNode "Compile Error"⟩]

/-- A test-result container (not `document.body`) whose console-result
indicator reads `Runtime Error`: the runtime-error branch of the parser
is only reachable when the container is `document.body`, so this falls
through to the normal parse. -/
def elRuntimeDom : Dom :=
  [⟨[], .elemNode "body" "" []⟩,
   ⟨[0], .elemNode "div" "flex-1 overflow-y-auto" []⟩,
   ⟨[0, 0], .elemNode "div" "" [("data-e2e-locator", "console-result")]⟩,
   ⟨[0, 0, 0], .textNode "Runtime Error"⟩]

/-- The representation of a collapsed Output/Expected block: line-based
(CodeMirror) or a single plain `.font-menlo` text node. -/
inductive OutRep where
  | lineRep (ls : List String)
  | plainRep (s : String)

/-- The `.cm-line` elements of a CodeMirror block at `base`, as flat DOM
nodes: line `i` is the element `base ++ [i]` with its text child. -/
def linesSeg (base : List Nat) : Nat → List String → Dom
  | _, [] => []
  | i, s :: rest =>
    ⟨base ++ [i], .elemNode "div" "cm-line" []⟩ ::
    ⟨base ++ [i, 0], .textNode s⟩ :: linesSeg base (i + 1) rest

/-- An Input/Output/Expected header element at `[0, i]`. -/
def headerSeg (i : Nat) (t : String) : Dom :=
  [⟨[0, i], .elemNode "div" "mb-2" []⟩, ⟨[0, i, 0], .textNode t⟩]

/-- A content block at `base` holding either a CodeMirror line list or a
single plain `.font-menlo` text. -/
def repBlock (base : List Nat) (r : OutRep) (className : String) : Dom :=
  match r with
  | .lineRep ls =>
    ⟨base, .elemNode "div" className []⟩ ::
    ⟨base ++ [0], .elemNode "div" "cm-content" []⟩ :: linesSeg (base ++ [0]) 0 ls
  | .plainRep s =>
    [⟨base, .elemNode "div" className []⟩,
     ⟨base ++ [0], .elemNode "div" "font-menlo" []⟩,
     ⟨base ++ [0, 0], .textNode s⟩]

/-- The family of "visible + collapsed" test-result documents: a first
Input block whose CodeMirror lines are `key=0` for each key, plain first
Output/Expected blocks, a collapsed Input block with lines `ls`, and
collapsed Output/Expected blocks of the given representations.  The
container is the element at path `[0]`. -/
def c2Dom (keys ls : List String) (oRep eRep : OutRep) : Dom :=
  [⟨[], .elemNode "body" "" []⟩, ⟨[0], .elemNode "div" "flex-1 overflow-y-auto" []⟩]
  ++ headerSeg 0 "Input"
  ++ (⟨[0, 1], .elemNode "div" "space-y-2" []⟩ ::
      ⟨[0, 1, 0], .elemNode "div" "cm-content" []⟩ ::
      linesSeg [0, 1, 0] 0 (keys.map (· ++ "=0")))
  ++ headerSeg 2 "Output" ++ repBlock [0, 3] (.plainRep "0") "px-4"
  ++ headerSeg 4 "Expected" ++ repBlock [0, 5] (.plainRep "0") "px-4"
  ++ headerSeg 6 "Input"
  ++ (⟨[0, 7], .elemNode "div" "group" []⟩ ::
      ⟨[0, 7, 0], .elemNode "div" "cm-content" []⟩ :: linesSeg [0, 7, 0] 0 ls)
  ++ headerSeg 8 "Output" ++ repBlock [0, 9] oRep "relative"
  ++ headerSeg 10 "Expected" ++ repBlock [0, 11] eRep "relative"

/-- A key string as it is discovered by `parseInput` from a `key=value`
CodeMirror line: non-empty, trim-invariant, and without `=`. -/
def GoodKey (k : String) : Prop :=
  k ≠ "" ∧ jsTrim k = k ∧ strHas k "=" = false

/-- What `parseValue` returns for a collapsed block of the given
representation at chunk index `j`. -/
def repValueAt (r : OutRep) (j : Nat) : String :=
  match r with
  | .lineRep ls =>
    let l := ls.map jsTrim
    if j < l.length then l.getD j "" else ""
  | .plainRep s => jsTrim s

/-- The `j`-th test case the collapsed parse of `c2Dom` produces. -/
def c2Case (keys lines : List String) (oRep eRep : OutRep) (j : Nat) : TestCase :=
  let tcl := (lines.drop (j * keys.length)).take keys.length
  ⟨(List.range keys.length).foldl
      (fun acc k => setKey acc (keys.getD k "") (decodeVal (tcl.getD k ""))) [],
   repValueAt oRep j, some (repValueAt eRep j)⟩

/-- The full test-case list the parse of `c2Dom` produces. -/
def c2Expected (keys ls : List String) (oRep eRep : OutRep) : List TestCase :=
  let lines := ls.map jsTrim
  if 0 < lines.length ∧ lines.length % keys.length = 0 then
    (List.range (lines.length / keys.length)).map (c2Case keys lines oRep eRep)
  else []

/-! ## Stream-event shape predicates -/

/-- A text event with no timing fields. -/
def isPlainText (e : StreamEvent) : Prop :=
  e.text.isSome ∧ e.thought = none ∧ e.thinkingStartTime = none ∧ e.thinkingEndTime = none

/-- A thought event with no timing fields. -/
def isPlainThought (e : StreamEvent) : Prop :=
  e.text = none ∧ e.thought.isSome ∧ e.thinkingStartTime = none ∧ e.thinkingEndTime = none

/-- The unique thought event carrying `thinkingStartTime`. -/
def isStartThought (e : StreamEvent) : Prop :=
  e.text = none ∧ e.thought.isSome ∧ e.thinkingStartTime.isSome ∧ e.thinkingEndTime = none

/-- The unique text event carrying `thinkingEndTime`. -/
def isEndText (e : StreamEvent) : Prop :=
  e.text.isSome ∧ e.thought = none ∧ e.thinkingStartTime = none ∧ e.thinkingEndTime.isSome

/-- No thought has been seen: every event is a plain text event. -/
def PhaseA (evs : List StreamEvent) : Prop := ∀ e ∈ evs, isPlainText e

/-- Thinking has started but no text has followed it: plain texts, then
the start-marked first thought, then plain thoughts. -/
def PhaseB (evs : List StreamEvent) : Prop :=
  ∃ xs y zs, evs = xs ++ y :: zs ∧ PhaseA xs ∧ isStartThought y ∧
    ∀ e ∈ zs, isPlainThought e

/-- Thinking has started and ended: plain texts, the start-marked first
thought, plain thoughts, the end-marked first following text, then plain
events. -/
def PhaseC (evs : List StreamEvent) : Prop :=
  ∃ xs y zs w vs, evs = xs ++ y :: (zs ++ w :: vs) ∧ PhaseA xs ∧
    isStartThought y ∧ (∀ e ∈ zs, isPlainThought e) ∧ isEndText w ∧
    ∀ e ∈ vs, isPlainText e ∨ isPlainThought e

/-- Every yielded event sequence is in one of the three phases. -/
def StreamShape (evs : List StreamEvent) : Prop :=
  PhaseA evs ∨ PhaseB evs ∨ PhaseC evs

/-- The loop invariant tying the generator state to the emitted prefix. -/
def StreamInv (s : GenState) (evs : List StreamEvent) : Prop :=
  (s.hasThinking = false ∧ s.endT = none ∧ PhaseA evs)
  ∨ (s.hasThinking = true ∧ s.endT = none ∧ PhaseB evs)
  ∨ (s.hasThinking = true ∧ s.endT.isSome ∧ PhaseC evs)

/-! ## Concrete coalescer fixtures -/

/-- The problem known before a navigation. -/
def oldProblem : ProblemDetails := ⟨"1. Two Sum", "<p>d1</p>", ["e1"], "<li>c1</li>"⟩

/-- The problem parsed after navigating. -/
def newProblem : ProblemDetails := ⟨"2. Add Two Numbers", "<p>d2</p>", ["e2"], "<li>c2</li>"⟩

/-- A coalescer state in which code was already received and sent, and a
test result is remembered. -/
def navState : CSState :=
  ⟨some oldProblem, some "class Solution {}", some [⟨[("x", .jnum 1 0)], "1", some "1"⟩], none⟩

/-- A coalescer state whose last-sent code and test result already match
the next candidate update. -/
def steadyState : CSState := ⟨some oldProblem, some "class Solution {}", none, none⟩

/-! ## Claim C1 -/

/-- **C1** (refuted: code bug).  The spec claims the parser functions
never throw for any input DOM, in particular that
`parseLeetCodetestResult` returns a (possibly empty) list for a container
holding exactly one Input/Output/Expected header triple and no second
collapsed Input section.  On exactly that container the source reads
`inputs[1].content` under the vacuous guard `inputs.length > 0`
(`parser.ts:179-185`), so `inputs[1]` is `undefined` and the returned
promise rejects with a `TypeError` instead of resolving to `[]`. -/
theorem parseTestResult_throws_on_single_triple :
    parseLeetCodetestResult singleTripleDom (some [0]) =
      Except.error "TypeError: Cannot read properties of undefined (reading 'content')" := rfl

/-! ## Claim C3 -/

/-- **C3** (refuted: code bug).  On navigating to a new problem with code
already known, `handleProblemChange` does reset the test-result memory,
but the promised immediate `UnifiedUpdate` is never emitted: it calls
`sendUnifiedUpdate(lastSentCode)`, which compares the code with itself
and the two just-reset test-result slots with each other, finds no
change, and suppresses (`content-script.tsx:106-109` contradicts its own
comment "send the first unified update"). -/
theorem handleProblemChange_resets_but_never_reemits :
    handleProblemChange "/problems/add-two-numbers/description"
        "2026-01-01T00:00:00Z" (.ok newProblem) navState =
      (⟨some newProblem, some "class Solution {}", none, none⟩,
       none, some (some "add-two-numbers")) := rfl

/-! ## Claim C6 -/

/-- **C6** (amended).  The coalescer's emit decision is idempotent in the
following sense: for any state with a parsed problem and a resolvable
slug, the second of two successive calls with an identical code string
and an unchanged test-result snapshot is always suppressed, and the pair
emits exactly one update provided the first call observes a change
(code differing from the last-sent code, or the stringified test result
differing from the last-sent one).  Without that proviso the pair can
emit zero updates (see the counterexample). -/
theorem sendUnifiedUpdate_second_call_suppressed
    (pathname ts ts' code : String) (st : CSState)
    (hpd : st.problemDetails.isSome)
    (hslug : (jsSplit '/' pathname).getD 2 "" ≠ "") :
    (sendUnifiedUpdate pathname ts' code (sendUnifiedUpdate pathname ts code st).1).2 = none ∧
    ((some code ≠ st.lastSentCode ∨
        stringifyTR st.lastTestResult ≠ stringifyTR st.lastSentTestResult) →
      (sendUnifiedUpdate pathname ts code st).2.isSome) := by
  obtain ⟨pd, hpd⟩ := Option.isSome_iff_exists.mp hpd
  constructor
  · by_cases hch : ¬some code ≠ st.lastSentCode ∧
        ¬stringifyTR st.lastTestResult ≠ stringifyTR st.lastSentTestResult
    · simp only [sendUnifiedUpdate, hpd, if_neg hslug, if_pos hch]
    · simp only [sendUnifiedUpdate, hpd, if_neg hslug, if_neg hch]
      simp [sendUnifiedUpdate, hpd, if_neg hslug]
  · intro h
    have hch : ¬(¬some code ≠ st.lastSentCode ∧
        ¬stringifyTR st.lastTestResult ≠ stringifyTR st.lastSentTestResult) := by tauto
    simp only [sendUnifiedUpdate, hpd]
    rw [if_neg hslug, if_neg hch]
    rfl

/-- Witness for C6's amended theorem at a concrete state: the first call
(code not sent before) emits, the second is suppressed. -/
theorem sendUnifiedUpdate_second_call_suppressed_witness :
    (sendUnifiedUpdate "/problems/two-sum" "t1" "code0"
        (sendUnifiedUpdate "/problems/two-sum" "t0" "code0"
          ⟨some oldProblem, none, none, none⟩).1).2 = none ∧
    (sendUnifiedUpdate "/problems/two-sum" "t0" "code0"
        ⟨some oldProblem, none, none, none⟩).2.isSome := by
  have h := sendUnifiedUpdate_second_call_suppressed "/problems/two-sum" "t0" "t1"
    "code0" ⟨some oldProblem, none, none, none⟩ rfl (by decide)
  exact ⟨h.1, h.2 (Or.inl (by simp))⟩

/-- **C6** (counterexample to the claim as stated).  From a state whose
last-sent code and test result already match the candidate update, two
successive identical calls emit zero updates, not exactly one. -/
theorem sendUnifiedUpdate_twice_can_emit_zero :
    steadyState.problemDetails.isSome = true ∧
    (sendUnifiedUpdate "/problems/two-sum" "t0" "class Solution {}" steadyState).2 = none ∧
    (sendUnifiedUpdate "/problems/two-sum" "t1" "class Solution {}"
        (sendUnifiedUpdate "/problems/two-sum" "t0" "class Solution {}" steadyState).1).2 =
      none := ⟨rfl, rfl, rfl⟩

/-! ## Claim C7 -/

/-- **C7** (amended).  Every error raised while making or iterating the
provider call is re-raised mapped by substring checks on the error text,
and never silently swallowed; but the checks are applied in source order
(400, 401, 403, 404, 429, 500/503), so the first matching rule wins: a
message containing several codes maps by the earliest rule, not by each
of them (see the counterexample). -/
theorem callGeminiApi_error_mapping
    (apiKey msg : String) (chunks : List GChunk) (t0 : Nat)
    (hkey : apiKey ≠ "") :
    (callGeminiApi apiKey chunks (some msg) t0).2 = some (mapApiError msg) ∧
    (strHas msg "400" = true →
      mapApiError msg = "Invalid request. Please check your prompt and try again.") ∧
    (strHas msg "400" = false → strHas msg "401" = true →
      mapApiError msg = "Authentication failed. Please check your API key.") ∧
    (strHas msg "400" = false → strHas msg "401" = false → strHas msg "403" = true →
      mapApiError msg = "Permission denied. You do not have permission to call the API.") ∧
    (strHas msg "400" = false → strHas msg "401" = false → strHas msg "403" = false →
      strHas msg "404" = true →
      mapApiError msg = "The requested resource was not found.") ∧
    (strHas msg "400" = false → strHas msg "401" = false → strHas msg "403" = false →
      strHas msg "404" = false → strHas msg "429" = true →
      mapApiError msg = "Rate limit exceeded. Please try again later.") ∧
    (strHas msg "400" = false → strHas msg "401" = false → strHas msg "403" = false →
      strHas msg "404" = false → strHas msg "429" = false →
      (strHas msg "500" = true ∨ strHas msg "503" = true) →
      mapApiError msg = "The service is temporarily unavailable. Please try again later.") ∧
    (strHas msg "400" = false → strHas msg "401" = false → strHas msg "403" = false →
      strHas msg "404" = false → strHas msg "429" = false → strHas msg "500" = false →
      strHas msg "503" = false →
      mapApiError msg = "An unexpected error occurred: " ++ msg) := by
  refine ⟨by simp [callGeminiApi, hkey], ?_, ?_, ?_, ?_, ?_, ?_, ?_⟩ <;>
    intros <;> simp_all [mapApiError]

/-- Witness for C7's amended theorem: a rate-limit message containing no
earlier code maps to the rate-limit error, and the call re-raises it. -/
theorem callGeminiApi_error_mapping_witness :
    (callGeminiApi "key" [] (some "quota exhausted (429)") 0).2 =
      some (mapApiError "quota exhausted (429)") ∧
    mapApiError "quota exhausted (429)" = "Rate limit exceeded. Please try again later." := by
  have h := callGeminiApi_error_mapping "key" "quota exhausted (429)" [] 0 (by decide)
  exact ⟨h.1, h.2.2.2.2.2.1 (by decide) (by decide) (by decide) (by decide) (by decide)⟩

/-- **C7** (counterexample to the claim as stated).  A provider message
containing both "401" and "400" maps to the bad-request error, not to the
authentication error the claim assigns to every message containing
"401". -/
theorem mapApiError_order_counterexample :
    (callGeminiApi "key" [] (some "HTTP 401, retried as 400") 0).2 =
      some "Invalid request. Please check your prompt and try again." ∧
    "Invalid request. Please check your prompt and try again." ≠
      "Authentication failed. Please check your API key." := ⟨rfl, by decide⟩

/-! ## Claim C9 -/

/-- **C9** (confirmed; `src/utils/db.ts` modelled from the spec).  For
every stored chat list, `loadChats` returns a list of the same length in
which every entry lacking a `lastUpdated` field is assigned the current
time and every entry that already has one is returned entirely
unchanged. -/
theorem loadChats_backfills_only_missing (stored : List StoredChat) (now : Nat) :
    (loadChats (some stored) now).length = stored.length ∧
    (∀ i c, stored.get? i = some c → c.lastUpdated.isSome →
      (loadChats (some stored) now).get? i = some c) ∧
    (∀ i c, stored.get? i = some c → c.lastUpdated = none →
      (loadChats (some stored) now).get? i =
        some { c with lastUpdated := some now }) := by
  refine ⟨by simp [loadChats], ?_, ?_⟩
  · intro i c hi hs
    obtain ⟨t, ht⟩ := Option.isSome_iff_exists.mp hs
    simp only [loadChats, Option.getD_some, List.get?_map, hi, Option.map_some']
    simp [ht]
  · intro i c hi hn
    simp only [loadChats, Option.getD_some, List.get?_map, hi, Option.map_some']
    simp [hn]

/-- Witness for C9 at a concrete stored list: the entry missing
`lastUpdated` is backfilled with the current time, the timestamped entry
is unchanged. -/
theorem loadChats_backfills_only_missing_witness :
    (loadChats (some [⟨"chat1", [], none⟩, ⟨"chat2", [], some 5⟩]) 9).get? 0 =
      some ⟨"chat1", [], some 9⟩ ∧
    (loadChats (some [⟨"chat1", [], none⟩, ⟨"chat2", [], some 5⟩]) 9).get? 1 =
      some ⟨"chat2", [], some 5⟩ := by
  have h := loadChats_backfills_only_missing [⟨"chat1", [], none⟩, ⟨"chat2", [], some 5⟩] 9
  exact ⟨h.2.2 0 ⟨"chat1", [], none⟩ rfl rfl, h.2.1 1 ⟨"chat2", [], some 5⟩ rfl rfl⟩

/-! ## Claim C10 -/

/-- Parts with absent or empty text are skipped: no event, no state (and
hence no timing) transition. -/
theorem stepPart_skips_empty (s : GenState) (b : Bool) :
    stepPart s ⟨none, b⟩ = (s, []) ∧ stepPart s ⟨some "", b⟩ = (s, []) :=
  ⟨rfl, by simp [stepPart]⟩

/-- Every event emitted for one part carries a non-empty string in
whichever of its `text`/`thought` fields is present. -/
theorem stepPart_events_nonempty (s : GenState) (p : GPart) :
    ∀ e ∈ (stepPart s p).2,
      (∀ t, e.text = some t → t ≠ "") ∧ (∀ t, e.thought = some t → t ≠ "") ∧
      (e.text.isSome ∨ e.thought.isSome) := by
  intro e he
  rcases hp : p.text with _ | t
  · simp [stepPart, hp] at he
  · by_cases ht : t = ""
    · simp [stepPart, hp, ht] at he
    · simp only [stepPart, hp] at he
      rw [if_neg ht] at he
      by_cases hb : p.thought <;> by_cases hh : s.hasThinking <;>
        by_cases hend : s.endT = none <;>
        simp [hb, hh, hend] at he <;>
        subst he <;>
        simp_all

/-- Lift to a part list. -/
theorem stepParts_events_nonempty (ps : List GPart) :
    ∀ s, ∀ e ∈ (stepParts s ps).2,
      (∀ t, e.text = some t → t ≠ "") ∧ (∀ t, e.thought = some t → t ≠ "") ∧
      (e.text.isSome ∨ e.thought.isSome) := by
  induction ps with
  | nil => intro s e he; simp [stepParts] at he
  | cons p ps ih =>
    intro s e he
    simp only [stepParts, List.mem_append] at he
    rcases he with he | he
    · exact stepPart_events_nonempty s p e he
    · exact ih (stepPart s p).1 e he

/-- Lift to a chunk list. -/
theorem stepChunks_events_nonempty (cs : List GChunk) :
    ∀ s, ∀ e ∈ (stepChunks s cs).2,
      (∀ t, e.text = some t → t ≠ "") ∧ (∀ t, e.thought = some t → t ≠ "") ∧
      (e.text.isSome ∨ e.thought.isSome) := by
  induction cs with
  | nil => intro s e he; simp [stepChunks] at he
  | cons c cs ih =>
    intro s e he
    simp only [stepChunks, List.mem_append] at he
    rcases he with he | he
    · rcases c with _ | ps
      · simp [stepChunk] at he
      · exact stepParts_events_nonempty ps s e he
    · exact ih (stepChunk s c).1 e he

/-- **C10** (confirmed).  Every `StreamEvent` yielded by `callGeminiApi`
carries a non-empty string in whichever of its `text`/`thought` fields is
present, and provider parts whose text is absent or the empty string are
skipped entirely: they produce no event and cause no state transition (in
particular, an empty first text part after a thought run does not record
`thinkingEndTime`). -/
theorem callGeminiApi_events_nonempty (apiKey : String) (chunks : List GChunk)
    (streamErr : Option String) (t0 : Nat) :
    (∀ e ∈ (callGeminiApi apiKey chunks streamErr t0).1,
      (∀ t, e.text = some t → t ≠ "") ∧ (∀ t, e.thought = some t → t ≠ "") ∧
      (e.text.isSome ∨ e.thought.isSome)) ∧
    (∀ s b, stepPart s ⟨none, b⟩ = (s, []) ∧ stepPart s ⟨some "", b⟩ = (s, [])) := by
  constructor
  · intro e he
    by_cases hk : apiKey = ""
    · simp [callGeminiApi, hk] at he
    · simp only [callGeminiApi, if_neg hk] at he
      exact stepChunks_events_nonempty chunks ⟨false, none, none, t0⟩ e he
  · intro s b
    exact stepPart_skips_empty s b

/-- Witness for C10 at a concrete stream: the empty text part between the
thought and the text is skipped without ending the thinking run. -/
theorem callGeminiApi_events_nonempty_witness :
    ((callGeminiApi "key"
        [some [⟨some "th", true⟩, ⟨some "", false⟩, ⟨some "ok", false⟩]] none 7).1.length = 2) ∧
    (stepPart ⟨true, some 7, none, 8⟩ ⟨some "", false⟩ = (⟨true, some 7, none, 8⟩, [])) := by
  have h := callGeminiApi_events_nonempty "key"
    [some [⟨some "th", true⟩, ⟨some "", false⟩, ⟨some "ok", false⟩]] none 7
  exact ⟨rfl, (h.2 ⟨true, some 7, none, 8⟩ false).2⟩

/-! ## Claim C4 -/

/-- Appending a plain text event preserves phase A. -/
theorem phaseA_append {xs : List StreamEvent} {e : StreamEvent}
    (h : PhaseA xs) (he : isPlainText e) : PhaseA (xs ++ [e]) := by
  intro x hx
  rcases List.mem_append.mp hx with hx | hx
  · exact h x hx
  · simp at hx; subst hx; exact he

/-- The start-marked first thought moves phase A to phase B. -/
theorem phaseB_of_A {xs : List StreamEvent} {e : StreamEvent}
    (h : PhaseA xs) (he : isStartThought e) : PhaseB (xs ++ [e]) :=
  ⟨xs, e, [], rfl, h, he, by simp⟩

/-- Appending a plain thought event preserves phase B. -/
theorem phaseB_append {evs : List StreamEvent} {e : StreamEvent}
    (h : PhaseB evs) (he : isPlainThought e) : PhaseB (evs ++ [e]) := by
  obtain ⟨xs, y, zs, rfl, hxs, hy, hzs⟩ := h
  refine ⟨xs, y, zs ++ [e], by simp, hxs, hy, ?_⟩
  intro x hx
  rcases List.mem_append.mp hx with hx | hx
  · exact hzs x hx
  · simp at hx; subst hx; exact he

/-- The end-marked first text after the thought run moves phase B to
phase C. -/
theorem phaseC_of_B {evs : List StreamEvent} {e : StreamEvent}
    (h : PhaseB evs) (he : isEndText e) : PhaseC (evs ++ [e]) := by
  obtain ⟨xs, y, zs, rfl, hxs, hy, hzs⟩ := h
  exact ⟨xs, y, zs, e, [], by simp, hxs, hy, hzs, he, by simp⟩

/-- Appending any plain event preserves phase C. -/
theorem phaseC_append {evs : List StreamEvent} {e : StreamEvent}
    (h : PhaseC evs) (he : isPlainText e ∨ isPlainThought e) :
    PhaseC (evs ++ [e]) := by
  obtain ⟨xs, y, zs, w, vs, rfl, hxs, hy, hzs, hw, hvs⟩ := h
  refine ⟨xs, y, zs, w, vs ++ [e], by simp, hxs, hy, hzs, hw, ?_⟩
  intro x hx
  rcases List.mem_append.mp hx with hx | hx
  · exact hvs x hx
  · simp at hx; subst hx; exact he

/-- One part step preserves the stream invariant. -/
theorem stepPart_inv {s : GenState} {acc : List StreamEvent} (p : GPart)
    (h : StreamInv s acc) :
    StreamInv (stepPart s p).1 (acc ++ (stepPart s p).2) := by
  rcases hp : p.text with _ | t
  · simpa [stepPart, hp] using h
  · by_cases ht : t = ""
    · simpa [stepPart, hp, ht] using h
    · simp only [stepPart, hp]
      rw [if_neg ht]
      rcases hb : p.thought
      · -- text part
        rw [if_neg (by simp [hb])]
        by_cases hcond : s.hasThinking = true ∧ s.endT = none
        · rw [if_pos hcond]
          rcases h with ⟨hT, _, _⟩ | ⟨_, _, hB⟩ | ⟨_, hend, _⟩
          · rw [hT] at hcond; simp at hcond
          · exact Or.inr (Or.inr ⟨hcond.1, rfl, phaseC_of_B hB ⟨rfl, rfl, rfl, rfl⟩⟩)
          · rw [hcond.2] at hend; simp at hend
        · rw [if_neg hcond]
          rcases h with ⟨hT, hend, hA⟩ | ⟨hT, hend, _⟩ | ⟨hT, hend, hC⟩
          · exact Or.inl ⟨hT, hend, phaseA_append hA ⟨rfl, rfl, rfl, rfl⟩⟩
          · exact absurd ⟨hT, hend⟩ hcond
          · exact Or.inr (Or.inr ⟨hT, hend,
              phaseC_append hC (Or.inl ⟨rfl, rfl, rfl, rfl⟩)⟩)
      · -- thought part
        rw [if_pos (by simp [hb])]
        rcases hh : s.hasThinking
        · -- first thought: A moves to B
          rw [if_neg (by simp)]
          rcases h with ⟨_, hend, hA⟩ | ⟨hT, _, _⟩ | ⟨hT, _, _⟩
          · exact Or.inr (Or.inl ⟨rfl, hend, phaseB_of_A hA ⟨rfl, rfl, rfl, rfl⟩⟩)
          · rw [hT] at hh; exact absurd hh (by simp)
          · rw [hT] at hh; exact absurd hh (by simp)
        · -- later thought: B stays B, C stays C
          rw [if_pos rfl]
          rcases h with ⟨hT, _, _⟩ | ⟨_, hend, hB⟩ | ⟨_, hend, hC⟩
          · rw [hT] at hh; exact absurd hh (by simp)
          · exact Or.inr (Or.inl ⟨hh, hend, phaseB_append hB ⟨rfl, rfl, rfl, rfl⟩⟩)
          · exact Or.inr (Or.inr ⟨hh, hend,
              phaseC_append hC (Or.inr ⟨rfl, rfl, rfl, rfl⟩)⟩)

/-- One part-list step preserves the stream invariant. -/
theorem stepParts_inv (ps : List GPart) :
    ∀ s acc, StreamInv s acc →
      StreamInv (stepParts s ps).1 (acc ++ (stepParts s ps).2) := by
  induction ps with
  | nil => intro s acc h; simpa [stepParts] using h
  | cons p ps ih =>
    intro s acc h
    have h1 := stepPart_inv p h
    have h2 := ih (stepPart s p).1 (acc ++ (stepPart s p).2) h1
    simpa [stepParts, List.append_assoc] using h2

/-- One chunk step preserves the stream invariant. -/
theorem stepChunk_inv (c : GChunk) {s : GenState} {acc : List StreamEvent}
    (h : StreamInv s acc) :
    StreamInv (stepChunk s c).1 (acc ++ (stepChunk s c).2) := by
  rcases c with _ | ps
  · simpa [stepChunk] using h
  · exact stepParts_inv ps s acc h

/-- The whole chunk loop preserves the stream invariant. -/
theorem stepChunks_inv (cs : List GChunk) :
    ∀ s acc, StreamInv s acc →
      StreamInv (stepChunks s cs).1 (acc ++ (stepChunks s cs).2) := by
  induction cs with
  | nil => intro s acc h; simpa [stepChunks] using h
  | cons c cs ih =>
    intro s acc h
    have h1 := stepChunk_inv c h
    have h2 := ih (stepChunk s c).1 (acc ++ (stepChunk s c).2) h1
    simpa [stepChunks, List.append_assoc] using h2

/-- The events of one stream are in one of the three phases. -/
theorem streamEvents_shape (chunks : List GChunk) (t0 : Nat) :
    StreamShape (streamEvents chunks t0) := by
  have h := stepChunks_inv chunks ⟨false, none, none, t0⟩ []
    (Or.inl ⟨rfl, rfl, by intro e he; simp at he⟩)
  simp only [List.nil_append] at h
  rcases h with ⟨_, _, hA⟩ | ⟨_, _, hB⟩ | ⟨_, _, hC⟩
  · exact Or.inl hA
  · exact Or.inr (Or.inl hB)
  · exact Or.inr (Or.inr hC)

/-- Phase A events carry no timing fields and no thoughts. -/
theorem phaseA_count_start {evs : List StreamEvent} (h : PhaseA evs) :
    evs.countP (fun e => e.thinkingStartTime.isSome) = 0 ∧
    evs.countP (fun e => e.thinkingEndTime.isSome) = 0 := by
  constructor
  · rw [List.countP_eq_zero]
    intro e he
    obtain ⟨-, -, h3, -⟩ := h e he
    simp [h3]
  · rw [List.countP_eq_zero]
    intro e he
    obtain ⟨-, -, -, h4⟩ := h e he
    simp [h4]

/-- Counting the timing fields across any shaped event list. -/
theorem shape_counts {evs : List StreamEvent} (h : StreamShape evs) :
    evs.countP (fun e => e.thinkingStartTime.isSome) ≤ 1 ∧
    evs.countP (fun e => e.thinkingEndTime.isSome) ≤ 1 := by
  rcases h with hA | ⟨xs, y, zs, rfl, hxs, hy, hzs⟩ | ⟨xs, y, zs, w, vs, rfl, hxs, hy, hzs, hw, hvs⟩
  · have := phaseA_count_start hA
    omega
  · obtain ⟨hxs1, hxs2⟩ := phaseA_count_start hxs
    have hzs1 : zs.countP (fun e => e.thinkingStartTime.isSome) = 0 := by
      rw [List.countP_eq_zero]; intro e he; have := hzs e he
      simp [isPlainThought] at this; simp [this]
    have hzs2 : zs.countP (fun e => e.thinkingEndTime.isSome) = 0 := by
      rw [List.countP_eq_zero]; intro e he; have := hzs e he
      simp [isPlainThought] at this; simp [this]
    obtain ⟨-, -, -, hy4⟩ := hy
    simp only [List.countP_append, List.countP_cons, hxs1, hxs2, hzs1, hzs2, hy4]
    constructor <;> simp <;> split_ifs <;> omega
  · obtain ⟨hxs1, hxs2⟩ := phaseA_count_start hxs
    have hzs1 : zs.countP (fun e => e.thinkingStartTime.isSome) = 0 := by
      rw [List.countP_eq_zero]; intro e he; have := hzs e he
      simp [isPlainThought] at this; simp [this]
    have hzs2 : zs.countP (fun e => e.thinkingEndTime.isSome) = 0 := by
      rw [List.countP_eq_zero]; intro e he; have := hzs e he
      simp [isPlainThought] at this; simp [this]
    have hvs1 : vs.countP (fun e => e.thinkingStartTime.isSome) = 0 := by
      rw [List.countP_eq_zero]; intro e he
      rcases hvs e he with h' | h' <;> (simp [isPlainText, isPlainThought] at h'; simp [h'])
    have hvs2 : vs.countP (fun e => e.thinkingEndTime.isSome) = 0 := by
      rw [List.countP_eq_zero]; intro e he
      rcases hvs e he with h' | h' <;> (simp [isPlainText, isPlainThought] at h'; simp [h'])
    obtain ⟨-, -, -, hy4⟩ := hy
    obtain ⟨-, -, hw3, -⟩ := hw
    simp only [List.countP_append, List.countP_cons, hxs1, hxs2, hzs1, hzs2,
      hvs1, hvs2, hy4, hw3]
    constructor <;> simp <;> split_ifs <;> omega

/-- Field constraints of the shaped events, member by member. -/
theorem shape_member_facts {evs : List StreamEvent} (h : StreamShape evs) :
    (∀ e ∈ evs, e.thinkingStartTime.isSome → e.thought.isSome) ∧
    (∀ e ∈ evs, e.thinkingEndTime.isSome → e.text.isSome) := by
  constructor <;> intro e he hsome <;>
  · rcases h with hA | ⟨xs, y, zs, hsplit, hxs, hy, hzs⟩ |
      ⟨xs, y, zs, w, vs, hsplit, hxs, hy, hzs, hw, hvs⟩
    · have := hA e he; simp_all [isPlainText]
    · subst hsplit
      rcases List.mem_append.mp he with h' | h'
      · have := hxs e h'; simp_all [isPlainText]
      · rcases List.mem_cons.mp h' with h' | h'
        · subst h'
          obtain ⟨h1, h2, h3, h4⟩ := hy
          simp_all [isStartThought]
        · have := hzs e h'; simp_all [isPlainThought]
    · subst hsplit
      rcases List.mem_append.mp he with h' | h'
      · have := hxs e h'; simp_all [isPlainText]
      · rcases List.mem_cons.mp h' with h' | h'
        · subst h'; obtain ⟨h1, h2, h3, h4⟩ := hy; simp_all [isStartThought]
        · rcases List.mem_append.mp h' with h' | h'
          · have := hzs e h'; simp_all [isPlainThought]
          · rcases List.mem_cons.mp h' with h' | h'
            · subst h'; obtain ⟨h1, h2, h3, h4⟩ := hw; simp_all [isEndText]
            · rcases hvs e h' with h'' | h'' <;> simp_all [isPlainText, isPlainThought]

/-- **C4** (confirmed).  Across all `StreamEvent`s one `callGeminiApi`
invocation yields: the sequence decomposes as plain texts, then (if any
thought occurs) the start-marked first thought, plain thoughts, the
end-marked first following text and plain events (`StreamShape`), so
`thinkingStartTime` appears on at most one event and only on a thought
event preceded by no thought, `thinkingEndTime` appears on at most one
event and only on a text event that is the first text after the first
thought, and if no thought ever occurs no event carries either timing
field. -/
theorem callGeminiApi_timing_fields (apiKey : String) (chunks : List GChunk)
    (streamErr : Option String) (t0 : Nat) :
    StreamShape (callGeminiApi apiKey chunks streamErr t0).1 ∧
    (callGeminiApi apiKey chunks streamErr t0).1.countP
        (fun e => e.thinkingStartTime.isSome) ≤ 1 ∧
    (callGeminiApi apiKey chunks streamErr t0).1.countP
        (fun e => e.thinkingEndTime.isSome) ≤ 1 ∧
    (∀ e ∈ (callGeminiApi apiKey chunks streamErr t0).1,
      e.thinkingStartTime.isSome → e.thought.isSome) ∧
    (∀ e ∈ (callGeminiApi apiKey chunks streamErr t0).1,
      e.thinkingEndTime.isSome → e.text.isSome) ∧
    ((∀ e ∈ (callGeminiApi apiKey chunks streamErr t0).1, e.thought = none) →
      ∀ e ∈ (callGeminiApi apiKey chunks streamErr t0).1,
        e.thinkingStartTime = none ∧ e.thinkingEndTime = none) := by
  have hshape : StreamShape (callGeminiApi apiKey chunks streamErr t0).1 := by
    by_cases hk : apiKey = ""
    · simp only [callGeminiApi, if_pos hk]
      exact Or.inl (by intro e he; simp at he)
    · simp only [callGeminiApi, if_neg hk]
      exact streamEvents_shape chunks t0
  obtain ⟨hc1, hc2⟩ := shape_counts hshape
  obtain ⟨hm1, hm2⟩ := shape_member_facts hshape
  refine ⟨hshape, hc1, hc2, hm1, hm2, ?_⟩
  intro hnoth e he
  rcases hshape with hA | ⟨xs, y, zs, hsplit, hxs, hy, hzs⟩ |
      ⟨xs, y, zs, w, vs, hsplit, hxs, hy, hzs, hw, hvs⟩
  · have := hA e he; simp_all [isPlainText]
  · exfalso
    have hymem : y ∈ (callGeminiApi apiKey chunks streamErr t0).1 := by
      rw [hsplit]; simp
    have := hnoth y hymem
    obtain ⟨-, hy2, -, -⟩ := hy
    simp_all
  · exfalso
    have hymem : y ∈ (callGeminiApi apiKey chunks streamErr t0).1 := by
      rw [hsplit]; simp
    have := hnoth y hymem
    obtain ⟨-, hy2, -, -⟩ := hy
    simp_all

/-- Witness for C4 at the spec's example stream
`{thought:"a"}, {text:"b"}, {text:"c"}`: the emitted sequence is
`{thought:"a", start}, {text:"b", end}, {text:"c"}`, and the no-thought
consequence of the theorem applies to a thought-free stream. -/
theorem callGeminiApi_timing_fields_witness :
    streamEvents [some [⟨some "a", true⟩, ⟨some "b", false⟩, ⟨some "c", false⟩]] 5 =
      [{ thought := some "a", thinkingStartTime := some 5 },
       { text := some "b", thinkingEndTime := some 6 },
       { text := some "c" }] ∧
    (∀ e ∈ (callGeminiApi "key" [some [⟨some "x", false⟩]] none 0).1,
      e.thinkingStartTime = none ∧ e.thinkingEndTime = none) := by
  refine ⟨rfl, ?_⟩
  have h := callGeminiApi_timing_fields "key" [some [⟨some "x", false⟩]] none 0
  exact h.2.2.2.2.2 (by intro e he; simp [callGeminiApi, streamEvents, stepChunks,
    stepChunk, stepParts, stepPart] at he; rw [he])

/-! ## Claim C5 -/

/-- **C5** (amended).  The error-branch shapes of
`parseLeetCodetestResult`, for every DOM:
(a) whenever the parser is called on the whole-page root and the
document's console-result indicator contains `Compile Error`, it returns
exactly the one-element compile sentinel
(`input = {"NA (compile error)": "NA (compile error)"}`,
`expected = "NA (compile error)"`);
(b) the runtime-error sentinel (`expected = null`, input holding the
last-executed-input pairs) is returned exactly when the parser is called
on the whole-page root and the indicator contains `Runtime Error` but not
`Compile Error` — not, as the claim states, for every DOM whose
indicator contains a runtime-error marker (see the counterexample);
(c) for any other container, an indicator inside it containing
`Compile Error` still yields the compile sentinel (scoped to the
container). -/
theorem parseTestResult_error_sentinels :
    (∀ (d : Dom) (r : DomNode), docQs d selConsole = some r →
      strHas (textContentAt d r.path) "Compile Error" = true →
      parseLeetCodetestResult d (some []) = .ok [compileCaseDoc d]) ∧
    (∀ (d : Dom) (r : DomNode), docQs d selConsole = some r →
      strHas (textContentAt d r.path) "Compile Error" = false →
      strHas (textContentAt d r.path) "Runtime Error" = true →
      parseLeetCodetestResult d (some []) = .ok [runtimeCaseDoc d]) ∧
    (∀ (d : Dom) (c : Option (List Nat)) (tc : List Nat) (r : DomNode),
      c ≠ some [] → trcOf d c = some tc →
      qsFrom d tc selConsole = some r →
      strHas (textContentAt d r.path) "Compile Error" = true →
      parseLeetCodetestResult d c = .ok [compileCaseEl d tc]) := by
  refine ⟨?_, ?_, ?_⟩
  · intro d r hq ht
    simp [parseLeetCodetestResult, trcOf, hq, ht]
  · intro d r hq ht1 ht2
    simp [parseLeetCodetestResult, trcOf, hq, ht1, ht2]
  · intro d c tc r hc htc hq ht
    simp only [parseLeetCodetestResult, htc]
    rw [if_neg hc]
    simp [hq, ht]

/-- Witness for C5's amended theorem at three concrete documents:
a compile-error page parsed from the body, a runtime-error page parsed
from the body (with one last-executed-input group), and a compile-error
indicator inside a non-body container. -/
theorem parseTestResult_error_sentinels_witness :
    parseLeetCodetestResult compileErrorDom (some []) =
      .ok [compileCaseDoc compileErrorDom] ∧
    parseLeetCodetestResult runtimeErrorDom (some []) =
      .ok [runtimeCaseDoc runtimeErrorDom] ∧
    parseLeetCodetestResult elCompileDom (some [0]) =
      .ok [compileCaseEl elCompileDom [0]] ∧
    runtimeCaseDoc runtimeErrorDom =
      ⟨[("nums", .jarr [.jnum 1 0, .jnum 2 0])],
       "Runtime Error: index out of range", none⟩ := by
  have h := parseTestResult_error_sentinels
  exact ⟨h.1 compileErrorDom ⟨[0], .elemNode "div" "" [("data-e2e-locator", "console-result")]⟩
           rfl rfl,
         h.2.1 runtimeErrorDom ⟨[0], .elemNode "div" "" [("data-e2e-locator", "console-result")]⟩
           rfl rfl rfl,
         h.2.2 elCompileDom (some [0]) [0]
           ⟨[0, 0], .elemNode "div" "" [("data-e2e-locator", "console-result")]⟩
           (by simp) rfl rfl rfl,
         rfl⟩

/-- **C5** (counterexample to the claim as stated).  A DOM whose
console-result indicator contains `Runtime Error` but whose container is
not the whole-page root: the runtime-error branch is unreachable there,
the parse falls through to the normal mode and returns the empty list,
not a one-element list with `expected = null`. -/
theorem parse_runtime_in_container_not_sentinel :
    parseLeetCodetestResult elRuntimeDom (some [0]) = Except.ok [] ∧
    ∀ tc : TestCase, parseLeetCodetestResult elRuntimeDom (some [0]) ≠ Except.ok [tc] := by
  refine ⟨rfl, ?_⟩
  intro tc h
  rw [show parseLeetCodetestResult elRuntimeDom (some [0]) = Except.ok [] from rfl] at h
  simp at h

/-! ## Infrastructure for the collapsed-parse family (claims C2 and C8) -/

/-- `pathPre` over a shared prefix. -/
theorem pathPre_append_same (b : List Nat) :
    ∀ t1 t2, pathPre (b ++ t1) (b ++ t2) = pathPre t1 t2 := by
  induction b with
  | nil => intro t1 t2; rfl
  | cons a b ih => intro t1 t2; simp [pathPre, ih]

/-- A path is a prefix of its extensions. -/
theorem pathPre_self_append (b t : List Nat) : pathPre b (b ++ t) = true := by
  induction b with
  | nil => rfl
  | cons a b ih => simp [pathPre, ih]

/-- `pathPre` on `nil` right. -/
theorem pathPre_nil_right (a : Nat) (l : List Nat) : pathPre (a :: l) [] = false := rfl

/-- Every member of a `linesSeg` is a `.cm-line` div at `base ++ [k]` or a
text node at `base ++ [k, 0]`, with `k` at least the starting index. -/
theorem linesSeg_mem {base : List Nat} :
    ∀ {i : Nat} {ls : List String} {n : DomNode}, n ∈ linesSeg base i ls →
      (∃ k, i ≤ k ∧ n = ⟨base ++ [k], .elemNode "div" "cm-line" []⟩) ∨
      (∃ k s, i ≤ k ∧ n = ⟨base ++ [k, 0], .textNode s⟩) := by
  intro i ls
  induction ls generalizing i with
  | nil => intro n h; simp [linesSeg] at h
  | cons s rest ih =>
    intro n h
    simp only [linesSeg, List.mem_cons] at h
    rcases h with rfl | rfl | h
    · exact Or.inl ⟨i, le_refl i, rfl⟩
    · exact Or.inr ⟨i, s, le_refl i, rfl⟩
    · rcases ih h with ⟨k, hk, hn⟩ | ⟨k, s', hk, hn⟩
      · exact Or.inl ⟨k, by omega, hn⟩
      · exact Or.inr ⟨k, s', by omega, hn⟩

/-- A filter whose predicate rejects both node forms of a `linesSeg` is
empty on it. -/
theorem linesSeg_filter_eq_nil {base : List Nat} {i : Nat} {ls : List String}
    {P : DomNode → Bool}
    (hdiv : ∀ k, P ⟨base ++ [k], .elemNode "div" "cm-line" []⟩ = false)
    (htxt : ∀ k s, P ⟨base ++ [k, 0], .textNode s⟩ = false) :
    (linesSeg base i ls).filter P = [] := by
  rw [List.filter_eq_nil_iff]
  intro n hn
  rcases linesSeg_mem hn with ⟨k, -, rfl⟩ | ⟨k, s, -, rfl⟩
  · simp [hdiv k]
  · simp [htxt k s]

/-- The `.cm-line` filter of a `linesSeg` keeps exactly its div records,
in order. -/
theorem linesSeg_filter_cmDivs (base : List Nat) :
    ∀ (i : Nat) (ls : List String),
      (linesSeg base i ls).filter
        (fun n => n.isElem && pathPre base n.path && !(n.path = base)
          && nodeSelMatch n selCmLine) =
      (List.range ls.length).map (fun k => ⟨base ++ [i + k], .elemNode "div" "cm-line" []⟩) := by
  intro i ls
  induction ls generalizing i with
  | nil => simp [linesSeg]
  | cons s rest ih =>
    simp only [linesSeg, List.filter_cons]
    have h1 : ((⟨base ++ [i], .elemNode "div" "cm-line" []⟩ : DomNode).isElem
        && pathPre base (base ++ [i]) && !(base ++ [i] = base)
        && nodeSelMatch ⟨base ++ [i], .elemNode "div" "cm-line" []⟩ selCmLine) = true := by
      have hne : ¬(base ++ [i] = base) := by simp
      simp [DomNode.isElem, pathPre_self_append, hne, nodeSelMatch, kindMatches,
        selCmLine, classTokens, jsSplit, splitCharL]
    have h2 : ((⟨base ++ [i, 0], .textNode s⟩ : DomNode).isElem
        && pathPre base (base ++ [i, 0]) && !(base ++ [i, 0] = base)
        && nodeSelMatch ⟨base ++ [i, 0], .textNode s⟩ selCmLine) = false := by
      simp [DomNode.isElem]
    rw [if_pos h1, if_neg (by rw [h2]; simp), ih (i + 1)]
    simp only [List.length_cons, List.range_succ_eq_map, List.map_cons, List.map_map]
    rw [List.cons_eq_cons]
    refine ⟨by simp, ?_⟩
    apply List.map_congr_left
    intro k _
    simp only [Function.comp]
    have h : i + 1 + k = i + Nat.succ k := by omega
    rw [h]

/-- The text-content filter of a `linesSeg` at its own line `k` keeps
exactly that line's text node. -/
theorem linesSeg_textFilter (base : List Nat) :
    ∀ (i : Nat) (ls : List String) (k : Nat), k < ls.length →
      (linesSeg base i ls).filter
        (fun n => pathPre (base ++ [i + k]) n.path && !n.isElem) =
      [⟨base ++ [i + k, 0], .textNode (ls.getD k "")⟩] := by
  intro i ls
  induction ls generalizing i with
  | nil => intro k hk; simp at hk
  | cons s rest ih =>
    intro k hk
    rcases k with _ | k
    · simp only [linesSeg, List.filter_cons]
      have h1 : (pathPre (base ++ [i + 0]) (base ++ [i]) &&
          !(⟨base ++ [i], .elemNode "div" "cm-line" []⟩ : DomNode).isElem) = false := by
        simp [DomNode.isElem]
      have h2 : (pathPre (base ++ [i + 0]) (base ++ [i, 0]) &&
          !(⟨base ++ [i, 0], .textNode s⟩ : DomNode).isElem) = true := by
        have e1 : base ++ [i + 0] = base ++ [i] := by simp
        have e2 : base ++ [i, 0] = (base ++ [i]) ++ [0] := by simp
        rw [e1, e2, pathPre_self_append]
        simp [DomNode.isElem]
      rw [if_neg (by rw [h1]; simp), if_pos h2]
      have h3 : (linesSeg base (i + 1) rest).filter
          (fun n => pathPre (base ++ [i + 0]) n.path && !n.isElem) = [] := by
        rw [List.filter_eq_nil_iff]
        intro n hn
        rcases linesSeg_mem hn with ⟨k', hk', rfl⟩ | ⟨k', s', hk', rfl⟩ <;>
        · simp only [Bool.and_eq_true, Bool.not_eq_true']
          intro hpre
          rw [show base ++ [i + 0] = base ++ [i] by simp] at hpre
          first
          | (rw [show (base ++ [k', 0] : List Nat) = base ++ ([k', 0] : List Nat) from rfl,
              pathPre_append_same] at hpre
             simp [pathPre] at hpre
             omega)
          | (rw [pathPre_append_same] at hpre
             simp [pathPre] at hpre
             omega)
      rw [h3]
      simp
    · simp only [linesSeg, List.filter_cons]
      have h1 : (pathPre (base ++ [i + (k + 1)]) (base ++ [i]) &&
          !(⟨base ++ [i], .elemNode "div" "cm-line" []⟩ : DomNode).isElem) = false := by
        simp [DomNode.isElem]
      have h2 : (pathPre (base ++ [i + (k + 1)]) (base ++ [i, 0]) &&
          !(⟨base ++ [i, 0], .textNode s⟩ : DomNode).isElem) = false := by
        rw [show (base ++ [i, 0] : List Nat) = base ++ ([i, 0] : List Nat) from rfl,
          pathPre_append_same]
        have hp : pathPre [i + (k + 1)] [i, 0] = false := by
          simp only [pathPre]
          have : ¬(i + (k + 1) = i) := by omega
          simp [this]
        simp [hp]
      rw [if_neg (by rw [h1]; simp), if_neg (by rw [h2]; simp)]
      have harith : base ++ [i + (k + 1)] = base ++ [(i + 1) + k] := by
        congr 2
        omega
      have harith2 : base ++ [i + (k + 1), 0] = base ++ [(i + 1) + k, 0] := by
        congr 2
        omega
      rw [harith, harith2, ih (i + 1) k (by simpa using hk)]
      simp

/-- `dropWhile` never lengthens a list. -/
theorem dropWhile_length_le (p : Char → Bool) :
    ∀ l : List Char, (l.dropWhile p).length ≤ l.length := by
  intro l
  induction l with
  | nil => simp
  | cons a l ih =>
    cases hp : p a
    · simp [List.dropWhile_cons, hp]
    · rw [List.dropWhile_cons_of_pos hp]
      simp
      omega

/-- A `dropWhile` that keeps the length keeps the list. -/
theorem dropWhile_eq_self_of_length {p : Char → Bool} :
    ∀ {l : List Char}, (l.dropWhile p).length = l.length → l.dropWhile p = l := by
  intro l
  induction l with
  | nil => intro _; rfl
  | cons a l ih =>
    intro h
    cases hp : p a
    · simp [List.dropWhile_cons, hp]
    · rw [List.dropWhile_cons_of_pos hp] at h
      have := dropWhile_length_le p l
      simp at h
      omega

/-- A trim-invariant character list is `dropWhile`-invariant on the left. -/
theorem dropWhile_eq_self_of_trim {l : List Char} (h : jsTrimL l = l) :
    l.dropWhile isJsWs = l := by
  apply dropWhile_eq_self_of_length
  have h1 := dropWhile_length_le isJsWs l
  have h2 := dropWhile_length_le isJsWs (l.dropWhile isJsWs).reverse
  have h3 : (jsTrimL l).length = l.length := by rw [h]
  simp only [jsTrimL, List.length_reverse] at h3 h2 ⊢
  omega

/-- The head of a non-empty trim-invariant list is not whitespace. -/
theorem head_not_ws_of_trim {c : Char} {rest : List Char}
    (h : jsTrimL (c :: rest) = c :: rest) : isJsWs c = false := by
  have hd := dropWhile_eq_self_of_trim h
  cases hp : isJsWs c
  · rfl
  · rw [List.dropWhile_cons_of_pos hp] at hd
    have h1 := dropWhile_length_le isJsWs rest
    have hlen : (rest.dropWhile isJsWs).length = rest.length + 1 := by rw [hd]; simp
    omega

/-- Appending `=0` to a non-empty trim-invariant key gives a
trim-invariant string. -/
theorem jsTrim_key_append {k : String} (hne : k ≠ "") (ht : jsTrim k = k) :
    jsTrim (k ++ "=0") = k ++ "=0" := by
  have hdata : jsTrimL k.data = k.data := by
    have : (jsTrim k).data = k.data := by rw [ht]
    simpa [jsTrim] using this
  rcases hl : k.data with _ | ⟨c, rest⟩
  · exfalso
    apply hne
    cases k with
    | mk data => simp at hl; simp [hl]
  · have hc : isJsWs c = false := head_not_ws_of_trim (hl ▸ hdata)
    have hstep1 : (k ++ "=0").data = c :: (rest ++ ['=', '0']) := by
      simp [hl]
    have hmain : jsTrimL ((k ++ "=0").data) = (k ++ "=0").data := by
      rw [hstep1]
      simp only [jsTrimL]
      rw [List.dropWhile_cons_of_neg (by simp [hc])]
      have hrev : (c :: (rest ++ ['=', '0'])).reverse = '0' :: '=' :: (rest.reverse ++ [c]) := by
        simp
      rw [hrev, List.dropWhile_cons_of_neg (by simp [isJsWs])]
      simp
    cases hk2 : (k ++ "=0") with
    | mk data2 =>
      rw [hk2] at hmain
      simp only [jsTrim]
      exact congrArg String.mk (by simpa using hmain)

/-- `hasInfixCL` with a one-character pattern is membership. -/
theorem hasInfix_single_iff (c : Char) :
    ∀ l : List Char, hasInfixCL [c] l = true ↔ c ∈ l := by
  intro l
  induction l with
  | nil => simp [hasInfixCL, List.isEmpty]
  | cons x rest ih => simp [hasInfixCL, hasPrefixCL, ih]

/-- `splitCharL` never returns the empty list. -/
theorem splitCharL_ne_nil (c : Char) : ∀ l, splitCharL c l ≠ [] := by
  intro l
  induction l with
  | nil => simp [splitCharL]
  | cons x xs ih =>
    simp only [splitCharL]
    rcases h : splitCharL c xs with _ | ⟨y, ys⟩
    · exact absurd h ih
    · split
      · simp
      · split <;> simp

/-- Splitting at the first separator after a separator-free prefix. -/
theorem splitCharL_append_sep (c : Char) :
    ∀ (l t : List Char), c ∉ l →
      splitCharL c (l ++ c :: t) = l :: splitCharL c t := by
  intro l
  induction l with
  | nil =>
    intro t _
    simp only [List.nil_append, splitCharL]
    rcases h : splitCharL c t with _ | ⟨y, ys⟩
    · exact absurd h (splitCharL_ne_nil c t)
    · simp
  | cons x xs ih =>
    intro t hmem
    have hx : ¬(x = c) := by
      intro h; exact hmem (by simp [h])
    have hxs : c ∉ xs := fun h => hmem (List.mem_cons_of_mem x h)
    simp only [List.cons_append, splitCharL, List.append_eq]
    rw [ih t hxs]
    simp [hx]

/-- `jsSplit` of `key=0` for a good key. -/
theorem jsSplit_key_append {k : String} (hgood : GoodKey k) :
    jsSplit '=' (k ++ "=0") = [k, "0"] := by
  obtain ⟨-, -, hnoeq⟩ := hgood
  have hmem : '=' ∉ k.data := by
    intro h
    have h2 := (hasInfix_single_iff '=' k.data).mpr h
    rw [show hasInfixCL ['='] k.data = strHas k "=" from rfl] at h2
    rw [hnoeq] at h2
    exact absurd h2 (by simp)
  have hdata : (k ++ "=0").data = k.data ++ '=' :: ['0'] := by simp
  simp only [jsSplit, hdata, splitCharL_append_sep '=' k.data ['0'] hmem]
  rfl

/-- `strHas "=" = true` on `key=0`. -/
theorem strHas_key_append (k : String) : strHas (k ++ "=0") "=" = true := by
  have : '=' ∈ (k ++ "=0").data := by simp
  exact (hasInfix_single_iff '=' _).mpr this

/-- Mapping an indexed `getD` over the index range is mapping over the
list. -/
theorem range_map_getD {α β : Type} (f : α → β) (dflt : α) :
    ∀ l : List α, (List.range l.length).map (fun k => f (l.getD k dflt)) = l.map f := by
  intro l
  induction l with
  | nil => simp
  | cons a l ih =>
    simp only [List.length_cons, List.range_succ_eq_map, List.map_cons, List.map_map]
    rw [List.cons_eq_cons]
    refine ⟨by simp, ?_⟩
    rw [show ((fun k => f ((a :: l).getD k dflt)) ∘ Nat.succ) =
        (fun k => f (l.getD k dflt)) from ?_]
    · exact ih
    · funext k
      simp [Function.comp, List.getD_cons_succ]

/-- Assigning a fresh key appends it. -/
theorem setKey_append_of_not_mem (k : String) (v : JVal) :
    ∀ obj : List (String × JVal), (∀ p ∈ obj, p.1 ≠ k) →
      setKey obj k v = obj ++ [(k, v)] := by
  intro obj
  induction obj with
  | nil => intro _; rfl
  | cons p rest ih =>
    intro h
    obtain ⟨k', v'⟩ := p
    simp only [setKey]
    rw [if_neg (h (k', v') (by simp))]
    rw [ih (fun q hq => h q (by simp [hq]))]
    simp

/-- The indexed `setKey` fold over distinct keys zips keys with decoded
values. -/
theorem foldRange_setKey (dVal : String → JVal) :
    ∀ (keys tcl : List String) (acc : List (String × JVal)),
      tcl.length = keys.length → keys.Nodup →
      (∀ q ∈ acc, q.1 ∉ keys) →
      (List.range keys.length).foldl
        (fun a k => setKey a (keys.getD k "") (dVal (tcl.getD k ""))) acc
      = acc ++ keys.zip (tcl.map dVal) := by
  intro keys
  induction keys with
  | nil => intro tcl acc _ _ _; simp
  | cons k krest ih =>
    intro tcl acc hlen hnodup hacc
    rcases tcl with _ | ⟨t, trest⟩
    · simp at hlen
    · simp only [List.length_cons, List.range_succ_eq_map, List.foldl_cons,
        List.foldl_map, List.getD_cons_zero, List.getD_cons_succ]
      rw [setKey_append_of_not_mem k (dVal t) acc
        (fun q hq => fun h => hacc q hq (h ▸ List.mem_cons_self k krest))]
      have ihr := ih trest (acc ++ [(k, dVal t)]) (by simpa using hlen)
        (List.Nodup.of_cons hnodup) ?_
      · rw [ihr]
        simp
      · intro q hq
        rcases List.mem_append.mp hq with hq | hq
        · exact fun h => hacc q hq (List.mem_cons_of_mem k h)
        · simp at hq
          rw [hq]
          exact (List.nodup_cons.mp hnodup).1

/-- Every member of a `repBlock` takes one of six forms. -/
theorem repBlock_mem {base : List Nat} {r : OutRep} {className : String} {n : DomNode}
    (h : n ∈ repBlock base r className) :
    n = ⟨base, .elemNode "div" className []⟩ ∨
    n = ⟨base ++ [0], .elemNode "div" "cm-content" []⟩ ∨
    n = ⟨base ++ [0], .elemNode "div" "font-menlo" []⟩ ∨
    (∃ s, n = ⟨base ++ [0, 0], .textNode s⟩) ∨
    (∃ k, n = ⟨(base ++ [0]) ++ [k], .elemNode "div" "cm-line" []⟩) ∨
    (∃ k s, n = ⟨(base ++ [0]) ++ [k, 0], .textNode s⟩) := by
  rcases r with ls | s
  · simp only [repBlock, List.mem_cons] at h
    rcases h with rfl | rfl | h
    · exact Or.inl rfl
    · exact Or.inr (Or.inl rfl)
    · rcases linesSeg_mem h with ⟨k, -, rfl⟩ | ⟨k, s', -, rfl⟩
      · exact Or.inr (Or.inr (Or.inr (Or.inr (Or.inl ⟨k, rfl⟩))))
      · exact Or.inr (Or.inr (Or.inr (Or.inr (Or.inr ⟨k, s', rfl⟩))))
  · simp only [repBlock, List.mem_cons] at h
    rcases h with rfl | rfl | rfl | h
    · exact Or.inl rfl
    · exact Or.inr (Or.inr (Or.inl rfl))
    · exact Or.inr (Or.inr (Or.inr (Or.inl ⟨s, rfl⟩)))
    · simp at h

/-- A filter rejecting all six node forms of a `repBlock` is empty on it. -/
theorem repBlock_filter_eq_nil {base : List Nat} {r : OutRep} {className : String}
    {P : DomNode → Bool}
    (h1 : P ⟨base, .elemNode "div" className []⟩ = false)
    (h2 : P ⟨base ++ [0], .elemNode "div" "cm-content" []⟩ = false)
    (h3 : P ⟨base ++ [0], .elemNode "div" "font-menlo" []⟩ = false)
    (h4 : ∀ s, P ⟨base ++ [0, 0], .textNode s⟩ = false)
    (h5 : ∀ k, P ⟨(base ++ [0]) ++ [k], .elemNode "div" "cm-line" []⟩ = false)
    (h6 : ∀ k s, P ⟨(base ++ [0]) ++ [k, 0], .textNode s⟩ = false) :
    (repBlock base r className).filter P = [] := by
  rw [List.filter_eq_nil_iff]
  intro n hn
  rcases repBlock_mem hn with rfl | rfl | rfl | ⟨s, rfl⟩ | ⟨k, rfl⟩ | ⟨k, s, rfl⟩
  · simp only [h1]; simp
  · simp only [h2]; simp
  · simp only [h3]; simp
  · simp only [h4]; simp
  · simp only [h5 k]; simp
  · simp only [h6 k s]; simp

/-- A filter keeping only the root of a `repBlock` keeps exactly it. -/
theorem repBlock_filter_root {base : List Nat} {r : OutRep} {className : String}
    {P : DomNode → Bool}
    (h1 : P ⟨base, .elemNode "div" className []⟩ = true)
    (h2 : P ⟨base ++ [0], .elemNode "div" "cm-content" []⟩ = false)
    (h3 : P ⟨base ++ [0], .elemNode "div" "font-menlo" []⟩ = false)
    (h4 : ∀ s, P ⟨base ++ [0, 0], .textNode s⟩ = false)
    (h5 : ∀ k, P ⟨(base ++ [0]) ++ [k], .elemNode "div" "cm-line" []⟩ = false)
    (h6 : ∀ k s, P ⟨(base ++ [0]) ++ [k, 0], .textNode s⟩ = false) :
    (repBlock base r className).filter P = [⟨base, .elemNode "div" className []⟩] := by
  rcases r with ls | s
  · have hseg : (linesSeg (base ++ [0]) 0 ls).filter P = [] :=
      linesSeg_filter_eq_nil h5 h6
    simp [repBlock, List.filter_cons, h1, h2, hseg]
  · simp [repBlock, List.filter_cons, h1, h2, h3, h4]

/-- The trimmed text of each header of the `c2Dom` family. -/
theorem c2Dom_headerText (keys ls : List String) (o e : OutRep) :
    textContentAt (c2Dom keys ls o e) [0, 0] = "Input" ∧
    textContentAt (c2Dom keys ls o e) [0, 2] = "Output" ∧
    textContentAt (c2Dom keys ls o e) [0, 4] = "Expected" ∧
    textContentAt (c2Dom keys ls o e) [0, 6] = "Input" ∧
    textContentAt (c2Dom keys ls o e) [0, 8] = "Output" ∧
    textContentAt (c2Dom keys ls o e) [0, 10] = "Expected" := by
  refine ⟨?_, ?_, ?_, ?_, ?_, ?_⟩
  · have hs1 : (linesSeg [0, 1, 0] 0 (keys.map (fun k => k ++ "=0"))).filter
        (fun n => pathPre [0, 0] n.path && !n.isElem) = [] :=
      linesSeg_filter_eq_nil (fun k => rfl) (fun k s => rfl)
    have hs2 : (linesSeg [0, 7, 0] 0 ls).filter
        (fun n => pathPre [0, 0] n.path && !n.isElem) = [] :=
      linesSeg_filter_eq_nil (fun k => rfl) (fun k s => rfl)
    have ho : (repBlock [0, 9] o "relative").filter
        (fun n => pathPre [0, 0] n.path && !n.isElem) = [] :=
      repBlock_filter_eq_nil rfl rfl rfl (fun s => rfl) (fun k => rfl) (fun k s => rfl)
    have he : (repBlock [0, 11] e "relative").filter
        (fun n => pathPre [0, 0] n.path && !n.isElem) = [] :=
      repBlock_filter_eq_nil rfl rfl rfl (fun s => rfl) (fun k => rfl) (fun k s => rfl)
    have h03 : (repBlock [0, 3] (.plainRep "0") "px-4").filter
        (fun n => pathPre [0, 0] n.path && !n.isElem) = [] :=
      repBlock_filter_eq_nil rfl rfl rfl (fun s => rfl) (fun k => rfl) (fun k s => rfl)
    have h05 : (repBlock [0, 5] (.plainRep "0") "px-4").filter
        (fun n => pathPre [0, 0] n.path && !n.isElem) = [] :=
      repBlock_filter_eq_nil rfl rfl rfl (fun s => rfl) (fun k => rfl) (fun k s => rfl)
    simp only [c2Dom, headerSeg, textContentAt, List.cons_append, List.nil_append,
      List.append_assoc]
    simp only [List.filter_append, List.filter_cons, hs1, hs2, ho, he, h03, h05]
    simp +decide [joinWith]
  · have hs1 : (linesSeg [0, 1, 0] 0 (keys.map (fun k => k ++ "=0"))).filter
        (fun n => pathPre [0, 2] n.path && !n.isElem) = [] :=
      linesSeg_filter_eq_nil (fun k => rfl) (fun k s => rfl)
    have hs2 : (linesSeg [0, 7, 0] 0 ls).filter
        (fun n => pathPre [0, 2] n.path && !n.isElem) = [] :=
      linesSeg_filter_eq_nil (fun k => rfl) (fun k s => rfl)
    have ho : (repBlock [0, 9] o "relative").filter
        (fun n => pathPre [0, 2] n.path && !n.isElem) = [] :=
      repBlock_filter_eq_nil rfl rfl rfl (fun s => rfl) (fun k => rfl) (fun k s => rfl)
    have he : (repBlock [0, 11] e "relative").filter
        (fun n => pathPre [0, 2] n.path && !n.isElem) = [] :=
      repBlock_filter_eq_nil rfl rfl rfl (fun s => rfl) (fun k => rfl) (fun k s => rfl)
    have h03 : (repBlock [0, 3] (.plainRep "0") "px-4").filter
        (fun n => pathPre [0, 2] n.path && !n.isElem) = [] :=
      repBlock_filter_eq_nil rfl rfl rfl (fun s => rfl) (fun k => rfl) (fun k s => rfl)
    have h05 : (repBlock [0, 5] (.plainRep "0") "px-4").filter
        (fun n => pathPre [0, 2] n.path && !n.isElem) = [] :=
      repBlock_filter_eq_nil rfl rfl rfl (fun s => rfl) (fun k => rfl) (fun k s => rfl)
    simp only [c2Dom, headerSeg, textContentAt, List.cons_append, List.nil_append,
      List.append_assoc]
    simp only [List.filter_append, List.filter_cons, hs1, hs2, ho, he, h03, h05]
    simp +decide [joinWith]
  · have hs1 : (linesSeg [0, 1, 0] 0 (keys.map (fun k => k ++ "=0"))).filter
        (fun n => pathPre [0, 4] n.path && !n.isElem) = [] :=
      linesSeg_filter_eq_nil (fun k => rfl) (fun k s => rfl)
    have hs2 : (linesSeg [0, 7, 0] 0 ls).filter
        (fun n => pathPre [0, 4] n.path && !n.isElem) = [] :=
      linesSeg_filter_eq_nil (fun k => rfl) (fun k s => rfl)
    have ho : (repBlock [0, 9] o "relative").filter
        (fun n => pathPre [0, 4] n.path && !n.isElem) = [] :=
      repBlock_filter_eq_nil rfl rfl rfl (fun s => rfl) (fun k => rfl) (fun k s => rfl)
    have he : (repBlock [0, 11] e "relative").filter
        (fun n => pathPre [0, 4] n.path && !n.isElem) = [] :=
      repBlock_filter_eq_nil rfl rfl rfl (fun s => rfl) (fun k => rfl) (fun k s => rfl)
    have h03 : (repBlock [0, 3] (.plainRep "0") "px-4").filter
        (fun n => pathPre [0, 4] n.path && !n.isElem) = [] :=
      repBlock_filter_eq_nil rfl rfl rfl (fun s => rfl) (fun k => rfl) (fun k s => rfl)
    have h05 : (repBlock [0, 5] (.plainRep "0") "px-4").filter
        (fun n => pathPre [0, 4] n.path && !n.isElem) = [] :=
      repBlock_filter_eq_nil rfl rfl rfl (fun s => rfl) (fun k => rfl) (fun k s => rfl)
    simp only [c2Dom, headerSeg, textContentAt, List.cons_append, List.nil_append,
      List.append_assoc]
    simp only [List.filter_append, List.filter_cons, hs1, hs2, ho, he, h03, h05]
    simp +decide [joinWith]
  · have hs1 : (linesSeg [0, 1, 0] 0 (keys.map (fun k => k ++ "=0"))).filter
        (fun n => pathPre [0, 6] n.path && !n.isElem) = [] :=
      linesSeg_filter_eq_nil (fun k => rfl) (fun k s => rfl)
    have hs2 : (linesSeg [0, 7, 0] 0 ls).filter
        (fun n => pathPre [0, 6] n.path && !n.isElem) = [] :=
      linesSeg_filter_eq_nil (fun k => rfl) (fun k s => rfl)
    have ho : (repBlock [0, 9] o "relative").filter
        (fun n => pathPre [0, 6] n.path && !n.isElem) = [] :=
      repBlock_filter_eq_nil rfl rfl rfl (fun s => rfl) (fun k => rfl) (fun k s => rfl)
    have he : (repBlock [0, 11] e "relative").filter
        (fun n => pathPre [0, 6] n.path && !n.isElem) = [] :=
      repBlock_filter_eq_nil rfl rfl rfl (fun s => rfl) (fun k => rfl) (fun k s => rfl)
    have h03 : (repBlock [0, 3] (.plainRep "0") "px-4").filter
        (fun n => pathPre [0, 6] n.path && !n.isElem) = [] :=
      repBlock_filter_eq_nil rfl rfl rfl (fun s => rfl) (fun k => rfl) (fun k s => rfl)
    have h05 : (repBlock [0, 5] (.plainRep "0") "px-4").filter
        (fun n => pathPre [0, 6] n.path && !n.isElem) = [] :=
      repBlock_filter_eq_nil rfl rfl rfl (fun s => rfl) (fun k => rfl) (fun k s => rfl)
    simp only [c2Dom, headerSeg, textContentAt, List.cons_append, List.nil_append,
      List.append_assoc]
    simp only [List.filter_append, List.filter_cons, hs1, hs2, ho, he, h03, h05]
    simp +decide [joinWith]
  · have hs1 : (linesSeg [0, 1, 0] 0 (keys.map (fun k => k ++ "=0"))).filter
        (fun n => pathPre [0, 8] n.path && !n.isElem) = [] :=
      linesSeg_filter_eq_nil (fun k => rfl) (fun k s => rfl)
    have hs2 : (linesSeg [0, 7, 0] 0 ls).filter
        (fun n => pathPre [0, 8] n.path && !n.isElem) = [] :=
      linesSeg_filter_eq_nil (fun k => rfl) (fun k s => rfl)
    have ho : (repBlock [0, 9] o "relative").filter
        (fun n => pathPre [0, 8] n.path && !n.isElem) = [] :=
      repBlock_filter_eq_nil rfl rfl rfl (fun s => rfl) (fun k => rfl) (fun k s => rfl)
    have he : (repBlock [0, 11] e "relative").filter
        (fun n => pathPre [0, 8] n.path && !n.isElem) = [] :=
      repBlock_filter_eq_nil rfl rfl rfl (fun s => rfl) (fun k => rfl) (fun k s => rfl)
    have h03 : (repBlock [0, 3] (.plainRep "0") "px-4").filter
        (fun n => pathPre [0, 8] n.path && !n.isElem) = [] :=
      repBlock_filter_eq_nil rfl rfl rfl (fun s => rfl) (fun k => rfl) (fun k s => rfl)
    have h05 : (repBlock [0, 5] (.plainRep "0") "px-4").filter
        (fun n => pathPre [0, 8] n.path && !n.isElem) = [] :=
      repBlock_filter_eq_nil rfl rfl rfl (fun s => rfl) (fun k => rfl) (fun k s => rfl)
    simp only [c2Dom, headerSeg, textContentAt, List.cons_append, List.nil_append,
      List.append_assoc]
    simp only [List.filter_append, List.filter_cons, hs1, hs2, ho, he, h03, h05]
    simp +decide [joinWith]
  · have hs1 : (linesSeg [0, 1, 0] 0 (keys.map (fun k => k ++ "=0"))).filter
        (fun n => pathPre [0, 10] n.path && !n.isElem) = [] :=
      linesSeg_filter_eq_nil (fun k => rfl) (fun k s => rfl)
    have hs2 : (linesSeg [0, 7, 0] 0 ls).filter
        (fun n => pathPre [0, 10] n.path && !n.isElem) = [] :=
      linesSeg_filter_eq_nil (fun k => rfl) (fun k s => rfl)
    have ho : (repBlock [0, 9] o "relative").filter
        (fun n => pathPre [0, 10] n.path && !n.isElem) = [] :=
      repBlock_filter_eq_nil rfl rfl rfl (fun s => rfl) (fun k => rfl) (fun k s => rfl)
    have he : (repBlock [0, 11] e "relative").filter
        (fun n => pathPre [0, 10] n.path && !n.isElem) = [] :=
      repBlock_filter_eq_nil rfl rfl rfl (fun s => rfl) (fun k => rfl) (fun k s => rfl)
    have h03 : (repBlock [0, 3] (.plainRep "0") "px-4").filter
        (fun n => pathPre [0, 10] n.path && !n.isElem) = [] :=
      repBlock_filter_eq_nil rfl rfl rfl (fun s => rfl) (fun k => rfl) (fun k s => rfl)
    have h05 : (repBlock [0, 5] (.plainRep "0") "px-4").filter
        (fun n => pathPre [0, 10] n.path && !n.isElem) = [] :=
      repBlock_filter_eq_nil rfl rfl rfl (fun s => rfl) (fun k => rfl) (fun k s => rfl)
    simp only [c2Dom, headerSeg, textContentAt, List.cons_append, List.nil_append,
      List.append_assoc]
    simp only [List.filter_append, List.filter_cons, hs1, hs2, ho, he, h03, h05]
    simp +decide [joinWith]

/-- The `c2Dom` family has no console-result indicator. -/
theorem c2Dom_console (keys ls : List String) (o e : OutRep) :
    qsFrom (c2Dom keys ls o e) [0] selConsole = none := by
  have hs1 : (linesSeg [0, 1, 0] 0 (keys.map (fun k => k ++ "=0"))).filter
      (fun n => n.isElem && pathPre [0] n.path && !(n.path = [0]) && nodeSelMatch n selConsole) = [] :=
    linesSeg_filter_eq_nil (fun k => rfl) (fun k s => rfl)
  have hs2 : (linesSeg [0, 7, 0] 0 ls).filter
      (fun n => n.isElem && pathPre [0] n.path && !(n.path = [0]) && nodeSelMatch n selConsole) = [] :=
    linesSeg_filter_eq_nil (fun k => rfl) (fun k s => rfl)
  have ho : (repBlock [0, 9] o "relative").filter
      (fun n => n.isElem && pathPre [0] n.path && !(n.path = [0]) && nodeSelMatch n selConsole) = [] :=
    repBlock_filter_eq_nil rfl rfl rfl (fun s => rfl) (fun k => rfl) (fun k s => rfl)
  have he : (repBlock [0, 11] e "relative").filter
      (fun n => n.isElem && pathPre [0] n.path && !(n.path = [0]) && nodeSelMatch n selConsole) = [] :=
    repBlock_filter_eq_nil rfl rfl rfl (fun s => rfl) (fun k => rfl) (fun k s => rfl)
  have h03 : (repBlock [0, 3] (.plainRep "0") "px-4").filter
      (fun n => n.isElem && pathPre [0] n.path && !(n.path = [0]) && nodeSelMatch n selConsole) = [] :=
    repBlock_filter_eq_nil rfl rfl rfl (fun s => rfl) (fun k => rfl) (fun k s => rfl)
  have h05 : (repBlock [0, 5] (.plainRep "0") "px-4").filter
      (fun n => n.isElem && pathPre [0] n.path && !(n.path = [0]) && nodeSelMatch n selConsole) = [] :=
    repBlock_filter_eq_nil rfl rfl rfl (fun s => rfl) (fun k => rfl) (fun k s => rfl)
  simp only [qsFrom, qsaFrom, c2Dom, headerSeg, List.cons_append, List.nil_append,
    List.append_assoc]
  simp only [List.filter_append, List.filter_cons, hs1, hs2, ho, he, h03, h05]
  simp +decide

/-- The header query of the `c2Dom` family finds the six headers. -/
theorem c2Dom_allDivs (keys ls : List String) (o e : OutRep) :
    qsaFrom (c2Dom keys ls o e) [0] selHeader =
      [⟨[0, 0], .elemNode "div" "mb-2" []⟩, ⟨[0, 2], .elemNode "div" "mb-2" []⟩,
       ⟨[0, 4], .elemNode "div" "mb-2" []⟩, ⟨[0, 6], .elemNode "div" "mb-2" []⟩,
       ⟨[0, 8], .elemNode "div" "mb-2" []⟩, ⟨[0, 10], .elemNode "div" "mb-2" []⟩] := by
  have hs1 : (linesSeg [0, 1, 0] 0 (keys.map (fun k => k ++ "=0"))).filter
      (fun n => n.isElem && pathPre [0] n.path && !(n.path = [0]) && nodeSelMatch n selHeader) = [] :=
    linesSeg_filter_eq_nil (fun k => rfl) (fun k s => rfl)
  have hs2 : (linesSeg [0, 7, 0] 0 ls).filter
      (fun n => n.isElem && pathPre [0] n.path && !(n.path = [0]) && nodeSelMatch n selHeader) = [] :=
    linesSeg_filter_eq_nil (fun k => rfl) (fun k s => rfl)
  have ho : (repBlock [0, 9] o "relative").filter
      (fun n => n.isElem && pathPre [0] n.path && !(n.path = [0]) && nodeSelMatch n selHeader) = [] :=
    repBlock_filter_eq_nil rfl rfl rfl (fun s => rfl) (fun k => rfl) (fun k s => rfl)
  have he : (repBlock [0, 11] e "relative").filter
      (fun n => n.isElem && pathPre [0] n.path && !(n.path = [0]) && nodeSelMatch n selHeader) = [] :=
    repBlock_filter_eq_nil rfl rfl rfl (fun s => rfl) (fun k => rfl) (fun k s => rfl)
  have h03 : (repBlock [0, 3] (.plainRep "0") "px-4").filter
      (fun n => n.isElem && pathPre [0] n.path && !(n.path = [0]) && nodeSelMatch n selHeader) = [] :=
    repBlock_filter_eq_nil rfl rfl rfl (fun s => rfl) (fun k => rfl) (fun k s => rfl)
  have h05 : (repBlock [0, 5] (.plainRep "0") "px-4").filter
      (fun n => n.isElem && pathPre [0] n.path && !(n.path = [0]) && nodeSelMatch n selHeader) = [] :=
    repBlock_filter_eq_nil rfl rfl rfl (fun s => rfl) (fun k => rfl) (fun k s => rfl)
  simp only [c2Dom, headerSeg, qsaFrom, List.cons_append, List.nil_append, List.append_assoc]
  simp only [List.filter_append, List.filter_cons, hs1, hs2, ho, he, h03, h05]
  simp +decide

/-- The next element sibling of each header of the `c2Dom` family is its
content block. -/
theorem c2Dom_nextSib (keys ls : List String) (o e : OutRep) :
    nextElemSib (c2Dom keys ls o e) [0, 0] =
      some ⟨[0, 1], .elemNode "div" "space-y-2" []⟩ ∧    nextElemSib (c2Dom keys ls o e) [0, 2] =
      some ⟨[0, 3], .elemNode "div" "px-4" []⟩ ∧    nextElemSib (c2Dom keys ls o e) [0, 4] =
      some ⟨[0, 5], .elemNode "div" "px-4" []⟩ ∧    nextElemSib (c2Dom keys ls o e) [0, 6] =
      some ⟨[0, 7], .elemNode "div" "group" []⟩ ∧    nextElemSib (c2Dom keys ls o e) [0, 8] =
      some ⟨[0, 9], .elemNode "div" "relative" []⟩ ∧    nextElemSib (c2Dom keys ls o e) [0, 10] =
      some ⟨[0, 11], .elemNode "div" "relative" []⟩ := by
  refine ⟨?_, ?_, ?_, ?_, ?_, ?_⟩
  · rw [show nextElemSib (c2Dom keys ls o e) [0, 0] =
        ((c2Dom keys ls o e).filter
          (fun n => n.isElem && n.path.dropLast = ([0] : List Nat) && (match n.path.getLast? with | some j => decide (0 < j) | none => false))).head? from rfl]
    have hs1 : (linesSeg [0, 1, 0] 0 (keys.map (fun k => k ++ "=0"))).filter
        (fun n => n.isElem && n.path.dropLast = ([0] : List Nat) && (match n.path.getLast? with | some j => decide (0 < j) | none => false)) = [] :=
      linesSeg_filter_eq_nil (fun k => rfl) (fun k s => rfl)
    have hs2 : (linesSeg [0, 7, 0] 0 ls).filter
        (fun n => n.isElem && n.path.dropLast = ([0] : List Nat) && (match n.path.getLast? with | some j => decide (0 < j) | none => false)) = [] :=
      linesSeg_filter_eq_nil (fun k => rfl) (fun k s => rfl)
    have ho : (repBlock [0, 9] o "relative").filter
        (fun n => n.isElem && n.path.dropLast = ([0] : List Nat) && (match n.path.getLast? with | some j => decide (0 < j) | none => false)) =
        [⟨[0, 9], .elemNode "div" "relative" []⟩] :=
      repBlock_filter_root rfl rfl rfl (fun s => rfl) (fun k => rfl) (fun k s => rfl)
    have he : (repBlock [0, 11] e "relative").filter
        (fun n => n.isElem && n.path.dropLast = ([0] : List Nat) && (match n.path.getLast? with | some j => decide (0 < j) | none => false)) =
        [⟨[0, 11], .elemNode "div" "relative" []⟩] :=
      repBlock_filter_root rfl rfl rfl (fun s => rfl) (fun k => rfl) (fun k s => rfl)
    have h03 : (repBlock [0, 3] (.plainRep "0") "px-4").filter
        (fun n => n.isElem && n.path.dropLast = ([0] : List Nat) && (match n.path.getLast? with | some j => decide (0 < j) | none => false)) =
        [⟨[0, 3], .elemNode "div" "px-4" []⟩] :=
      repBlock_filter_root rfl rfl rfl (fun s => rfl) (fun k => rfl) (fun k s => rfl)
    have h05 : (repBlock [0, 5] (.plainRep "0") "px-4").filter
        (fun n => n.isElem && n.path.dropLast = ([0] : List Nat) && (match n.path.getLast? with | some j => decide (0 < j) | none => false)) =
        [⟨[0, 5], .elemNode "div" "px-4" []⟩] :=
      repBlock_filter_root rfl rfl rfl (fun s => rfl) (fun k => rfl) (fun k s => rfl)
    simp only [c2Dom, headerSeg, List.cons_append, List.nil_append, List.append_assoc]
    simp only [List.filter_append, List.filter_cons, hs1, hs2, ho, he, h03, h05]
    simp +decide
  · rw [show nextElemSib (c2Dom keys ls o e) [0, 2] =
        ((c2Dom keys ls o e).filter
          (fun n => n.isElem && n.path.dropLast = ([0] : List Nat) && (match n.path.getLast? with | some j => decide (2 < j) | none => false))).head? from rfl]
    have hs1 : (linesSeg [0, 1, 0] 0 (keys.map (fun k => k ++ "=0"))).filter
        (fun n => n.isElem && n.path.dropLast = ([0] : List Nat) && (match n.path.getLast? with | some j => decide (2 < j) | none => false)) = [] :=
      linesSeg_filter_eq_nil (fun k => rfl) (fun k s => rfl)
    have hs2 : (linesSeg [0, 7, 0] 0 ls).filter
        (fun n => n.isElem && n.path.dropLast = ([0] : List Nat) && (match n.path.getLast? with | some j => decide (2 < j) | none => false)) = [] :=
      linesSeg_filter_eq_nil (fun k => rfl) (fun k s => rfl)
    have ho : (repBlock [0, 9] o "relative").filter
        (fun n => n.isElem && n.path.dropLast = ([0] : List Nat) && (match n.path.getLast? with | some j => decide (2 < j) | none => false)) =
        [⟨[0, 9], .elemNode "div" "relative" []⟩] :=
      repBlock_filter_root rfl rfl rfl (fun s => rfl) (fun k => rfl) (fun k s => rfl)
    have he : (repBlock [0, 11] e "relative").filter
        (fun n => n.isElem && n.path.dropLast = ([0] : List Nat) && (match n.path.getLast? with | some j => decide (2 < j) | none => false)) =
        [⟨[0, 11], .elemNode "div" "relative" []⟩] :=
      repBlock_filter_root rfl rfl rfl (fun s => rfl) (fun k => rfl) (fun k s => rfl)
    have h03 : (repBlock [0, 3] (.plainRep "0") "px-4").filter
        (fun n => n.isElem && n.path.dropLast = ([0] : List Nat) && (match n.path.getLast? with | some j => decide (2 < j) | none => false)) =
        [⟨[0, 3], .elemNode "div" "px-4" []⟩] :=
      repBlock_filter_root rfl rfl rfl (fun s => rfl) (fun k => rfl) (fun k s => rfl)
    have h05 : (repBlock [0, 5] (.plainRep "0") "px-4").filter
        (fun n => n.isElem && n.path.dropLast = ([0] : List Nat) && (match n.path.getLast? with | some j => decide (2 < j) | none => false)) =
        [⟨[0, 5], .elemNode "div" "px-4" []⟩] :=
      repBlock_filter_root rfl rfl rfl (fun s => rfl) (fun k => rfl) (fun k s => rfl)
    simp only [c2Dom, headerSeg, List.cons_append, List.nil_append, List.append_assoc]
    simp only [List.filter_append, List.filter_cons, hs1, hs2, ho, he, h03, h05]
    simp +decide
  · rw [show nextElemSib (c2Dom keys ls o e) [0, 4] =
        ((c2Dom keys ls o e).filter
          (fun n => n.isElem && n.path.dropLast = ([0] : List Nat) && (match n.path.getLast? with | some j => decide (4 < j) | none => false))).head? from rfl]
    have hs1 : (linesSeg [0, 1, 0] 0 (keys.map (fun k => k ++ "=0"))).filter
        (fun n => n.isElem && n.path.dropLast = ([0] : List Nat) && (match n.path.getLast? with | some j => decide (4 < j) | none => false)) = [] :=
      linesSeg_filter_eq_nil (fun k => rfl) (fun k s => rfl)
    have hs2 : (linesSeg [0, 7, 0] 0 ls).filter
        (fun n => n.isElem && n.path.dropLast = ([0] : List Nat) && (match n.path.getLast? with | some j => decide (4 < j) | none => false)) = [] :=
      linesSeg_filter_eq_nil (fun k => rfl) (fun k s => rfl)
    have ho : (repBlock [0, 9] o "relative").filter
        (fun n => n.isElem && n.path.dropLast = ([0] : List Nat) && (match n.path.getLast? with | some j => decide (4 < j) | none => false)) =
        [⟨[0, 9], .elemNode "div" "relative" []⟩] :=
      repBlock_filter_root rfl rfl rfl (fun s => rfl) (fun k => rfl) (fun k s => rfl)
    have he : (repBlock [0, 11] e "relative").filter
        (fun n => n.isElem && n.path.dropLast = ([0] : List Nat) && (match n.path.getLast? with | some j => decide (4 < j) | none => false)) =
        [⟨[0, 11], .elemNode "div" "relative" []⟩] :=
      repBlock_filter_root rfl rfl rfl (fun s => rfl) (fun k => rfl) (fun k s => rfl)
    have h03 : (repBlock [0, 3] (.plainRep "0") "px-4").filter
        (fun n => n.isElem && n.path.dropLast = ([0] : List Nat) && (match n.path.getLast? with | some j => decide (4 < j) | none => false)) = [] :=
      repBlock_filter_eq_nil rfl rfl rfl (fun s => rfl) (fun k => rfl) (fun k s => rfl)
    have h05 : (repBlock [0, 5] (.plainRep "0") "px-4").filter
        (fun n => n.isElem && n.path.dropLast = ([0] : List Nat) && (match n.path.getLast? with | some j => decide (4 < j) | none => false)) =
        [⟨[0, 5], .elemNode "div" "px-4" []⟩] :=
      repBlock_filter_root rfl rfl rfl (fun s => rfl) (fun k => rfl) (fun k s => rfl)
    simp only [c2Dom, headerSeg, List.cons_append, List.nil_append, List.append_assoc]
    simp only [List.filter_append, List.filter_cons, hs1, hs2, ho, he, h03, h05]
    simp +decide
  · rw [show nextElemSib (c2Dom keys ls o e) [0, 6] =
        ((c2Dom keys ls o e).filter
          (fun n => n.isElem && n.path.dropLast = ([0] : List Nat) && (match n.path.getLast? with | some j => decide (6 < j) | none => false))).head? from rfl]
    have hs1 : (linesSeg [0, 1, 0] 0 (keys.map (fun k => k ++ "=0"))).filter
        (fun n => n.isElem && n.path.dropLast = ([0] : List Nat) && (match n.path.getLast? with | some j => decide (6 < j) | none => false)) = [] :=
      linesSeg_filter_eq_nil (fun k => rfl) (fun k s => rfl)
    have hs2 : (linesSeg [0, 7, 0] 0 ls).filter
        (fun n => n.isElem && n.path.dropLast = ([0] : List Nat) && (match n.path.getLast? with | some j => decide (6 < j) | none => false)) = [] :=
      linesSeg_filter_eq_nil (fun k => rfl) (fun k s => rfl)
    have ho : (repBlock [0, 9] o "relative").filter
        (fun n => n.isElem && n.path.dropLast = ([0] : List Nat) && (match n.path.getLast? with | some j => decide (6 < j) | none => false)) =
        [⟨[0, 9], .elemNode "div" "relative" []⟩] :=
      repBlock_filter_root rfl rfl rfl (fun s => rfl) (fun k => rfl) (fun k s => rfl)
    have he : (repBlock [0, 11] e "relative").filter
        (fun n => n.isElem && n.path.dropLast = ([0] : List Nat) && (match n.path.getLast? with | some j => decide (6 < j) | none => false)) =
        [⟨[0, 11], .elemNode "div" "relative" []⟩] :=
      repBlock_filter_root rfl rfl rfl (fun s => rfl) (fun k => rfl) (fun k s => rfl)
    have h03 : (repBlock [0, 3] (.plainRep "0") "px-4").filter
        (fun n => n.isElem && n.path.dropLast = ([0] : List Nat) && (match n.path.getLast? with | some j => decide (6 < j) | none => false)) = [] :=
      repBlock_filter_eq_nil rfl rfl rfl (fun s => rfl) (fun k => rfl) (fun k s => rfl)
    have h05 : (repBlock [0, 5] (.plainRep "0") "px-4").filter
        (fun n => n.isElem && n.path.dropLast = ([0] : List Nat) && (match n.path.getLast? with | some j => decide (6 < j) | none => false)) = [] :=
      repBlock_filter_eq_nil rfl rfl rfl (fun s => rfl) (fun k => rfl) (fun k s => rfl)
    simp only [c2Dom, headerSeg, List.cons_append, List.nil_append, List.append_assoc]
    simp only [List.filter_append, List.filter_cons, hs1, hs2, ho, he, h03, h05]
    simp +decide
  · rw [show nextElemSib (c2Dom keys ls o e) [0, 8] =
        ((c2Dom keys ls o e).filter
          (fun n => n.isElem && n.path.dropLast = ([0] : List Nat) && (match n.path.getLast? with | some j => decide (8 < j) | none => false))).head? from rfl]
    have hs1 : (linesSeg [0, 1, 0] 0 (keys.map (fun k => k ++ "=0"))).filter
        (fun n => n.isElem && n.path.dropLast = ([0] : List Nat) && (match n.path.getLast? with | some j => decide (8 < j) | none => false)) = [] :=
      linesSeg_filter_eq_nil (fun k => rfl) (fun k s => rfl)
    have hs2 : (linesSeg [0, 7, 0] 0 ls).filter
        (fun n => n.isElem && n.path.dropLast = ([0] : List Nat) && (match n.path.getLast? with | some j => decide (8 < j) | none => false)) = [] :=
      linesSeg_filter_eq_nil (fun k => rfl) (fun k s => rfl)
    have ho : (repBlock [0, 9] o "relative").filter
        (fun n => n.isElem && n.path.dropLast = ([0] : List Nat) && (match n.path.getLast? with | some j => decide (8 < j) | none => false)) =
        [⟨[0, 9], .elemNode "div" "relative" []⟩] :=
      repBlock_filter_root rfl rfl rfl (fun s => rfl) (fun k => rfl) (fun k s => rfl)
    have he : (repBlock [0, 11] e "relative").filter
        (fun n => n.isElem && n.path.dropLast = ([0] : List Nat) && (match n.path.getLast? with | some j => decide (8 < j) | none => false)) =
        [⟨[0, 11], .elemNode "div" "relative" []⟩] :=
      repBlock_filter_root rfl rfl rfl (fun s => rfl) (fun k => rfl) (fun k s => rfl)
    have h03 : (repBlock [0, 3] (.plainRep "0") "px-4").filter
        (fun n => n.isElem && n.path.dropLast = ([0] : List Nat) && (match n.path.getLast? with | some j => decide (8 < j) | none => false)) = [] :=
      repBlock_filter_eq_nil rfl rfl rfl (fun s => rfl) (fun k => rfl) (fun k s => rfl)
    have h05 : (repBlock [0, 5] (.plainRep "0") "px-4").filter
        (fun n => n.isElem && n.path.dropLast = ([0] : List Nat) && (match n.path.getLast? with | some j => decide (8 < j) | none => false)) = [] :=
      repBlock_filter_eq_nil rfl rfl rfl (fun s => rfl) (fun k => rfl) (fun k s => rfl)
    simp only [c2Dom, headerSeg, List.cons_append, List.nil_append, List.append_assoc]
    simp only [List.filter_append, List.filter_cons, hs1, hs2, ho, he, h03, h05]
    simp +decide
  · rw [show nextElemSib (c2Dom keys ls o e) [0, 10] =
        ((c2Dom keys ls o e).filter
          (fun n => n.isElem && n.path.dropLast = ([0] : List Nat) && (match n.path.getLast? with | some j => decide (10 < j) | none => false))).head? from rfl]
    have hs1 : (linesSeg [0, 1, 0] 0 (keys.map (fun k => k ++ "=0"))).filter
        (fun n => n.isElem && n.path.dropLast = ([0] : List Nat) && (match n.path.getLast? with | some j => decide (10 < j) | none => false)) = [] :=
      linesSeg_filter_eq_nil (fun k => rfl) (fun k s => rfl)
    have hs2 : (linesSeg [0, 7, 0] 0 ls).filter
        (fun n => n.isElem && n.path.dropLast = ([0] : List Nat) && (match n.path.getLast? with | some j => decide (10 < j) | none => false)) = [] :=
      linesSeg_filter_eq_nil (fun k => rfl) (fun k s => rfl)
    have ho : (repBlock [0, 9] o "relative").filter
        (fun n => n.isElem && n.path.dropLast = ([0] : List Nat) && (match n.path.getLast? with | some j => decide (10 < j) | none => false)) = [] :=
      repBlock_filter_eq_nil rfl rfl rfl (fun s => rfl) (fun k => rfl) (fun k s => rfl)
    have he : (repBlock [0, 11] e "relative").filter
        (fun n => n.isElem && n.path.dropLast = ([0] : List Nat) && (match n.path.getLast? with | some j => decide (10 < j) | none => false)) =
        [⟨[0, 11], .elemNode "div" "relative" []⟩] :=
      repBlock_filter_root rfl rfl rfl (fun s => rfl) (fun k => rfl) (fun k s => rfl)
    have h03 : (repBlock [0, 3] (.plainRep "0") "px-4").filter
        (fun n => n.isElem && n.path.dropLast = ([0] : List Nat) && (match n.path.getLast? with | some j => decide (10 < j) | none => false)) = [] :=
      repBlock_filter_eq_nil rfl rfl rfl (fun s => rfl) (fun k => rfl) (fun k s => rfl)
    have h05 : (repBlock [0, 5] (.plainRep "0") "px-4").filter
        (fun n => n.isElem && n.path.dropLast = ([0] : List Nat) && (match n.path.getLast? with | some j => decide (10 < j) | none => false)) = [] :=
      repBlock_filter_eq_nil rfl rfl rfl (fun s => rfl) (fun k => rfl) (fun k s => rfl)
    simp only [c2Dom, headerSeg, List.cons_append, List.nil_append, List.append_assoc]
    simp only [List.filter_append, List.filter_cons, hs1, hs2, ho, he, h03, h05]
    simp +decide

/-- The sections of the `c2Dom` family: each header paired with its
content block. -/
theorem c2Dom_sections (keys ls : List String) (o e : OutRep) :
    parsedSections (c2Dom keys ls o e) [0] =
      [("Input", ⟨[0, 1], .elemNode "div" "space-y-2" []⟩),
       ("Output", ⟨[0, 3], .elemNode "div" "px-4" []⟩),
       ("Expected", ⟨[0, 5], .elemNode "div" "px-4" []⟩),
       ("Input", ⟨[0, 7], .elemNode "div" "group" []⟩),
       ("Output", ⟨[0, 9], .elemNode "div" "relative" []⟩),
       ("Expected", ⟨[0, 11], .elemNode "div" "relative" []⟩)] := by
  obtain ⟨t0, t2, t4, t6, t8, t10⟩ := c2Dom_headerText keys ls o e
  obtain ⟨n0, n2, n4, n6, n8, n10⟩ := c2Dom_nextSib keys ls o e
  simp only [parsedSections, c2Dom_allDivs, List.filter_cons, List.filter_nil,
    t0, t2, t4, t6, t8, t10]
  simp only [show (jsTrim "Input" = "Input" || jsTrim "Input" = "Output"
      || jsTrim "Input" = "Expected") = true from rfl,
    show (jsTrim "Output" = "Input" || jsTrim "Output" = "Output"
      || jsTrim "Output" = "Expected") = true from rfl,
    show (jsTrim "Expected" = "Input" || jsTrim "Expected" = "Output"
      || jsTrim "Expected" = "Expected") = true from rfl, if_true]
  simp only [List.filterMap_cons, sectionContent, parentPathOf, n0, n2, n4, n6, n8, n10]
  simp +decide [t0, t2, t4, t6, t8, t10]

/-- The first Input block's CodeMirror content query. -/
theorem c2Dom_cm1 (keys ls : List String) (o e : OutRep) :
    qsFrom (c2Dom keys ls o e) [0, 1] selCm =
      some ⟨[0, 1, 0], .elemNode "div" "cm-content" []⟩ := by
  have hs1 : (linesSeg [0, 1, 0] 0 (keys.map (fun k => k ++ "=0"))).filter
      (fun n => n.isElem && pathPre [0, 1] n.path && !(n.path = [0, 1]) && nodeSelMatch n selCm) = [] :=
    linesSeg_filter_eq_nil (fun k => rfl) (fun k s => rfl)
  have hs2 : (linesSeg [0, 7, 0] 0 ls).filter
      (fun n => n.isElem && pathPre [0, 1] n.path && !(n.path = [0, 1]) && nodeSelMatch n selCm) = [] :=
    linesSeg_filter_eq_nil (fun k => rfl) (fun k s => rfl)
  have ho : (repBlock [0, 9] o "relative").filter
      (fun n => n.isElem && pathPre [0, 1] n.path && !(n.path = [0, 1]) && nodeSelMatch n selCm) = [] :=
    repBlock_filter_eq_nil rfl rfl rfl (fun s => rfl) (fun k => rfl) (fun k s => rfl)
  have he : (repBlock [0, 11] e "relative").filter
      (fun n => n.isElem && pathPre [0, 1] n.path && !(n.path = [0, 1]) && nodeSelMatch n selCm) = [] :=
    repBlock_filter_eq_nil rfl rfl rfl (fun s => rfl) (fun k => rfl) (fun k s => rfl)
  have h03 : (repBlock [0, 3] (.plainRep "0") "px-4").filter
      (fun n => n.isElem && pathPre [0, 1] n.path && !(n.path = [0, 1]) && nodeSelMatch n selCm) = [] :=
    repBlock_filter_eq_nil rfl rfl rfl (fun s => rfl) (fun k => rfl) (fun k s => rfl)
  have h05 : (repBlock [0, 5] (.plainRep "0") "px-4").filter
      (fun n => n.isElem && pathPre [0, 1] n.path && !(n.path = [0, 1]) && nodeSelMatch n selCm) = [] :=
    repBlock_filter_eq_nil rfl rfl rfl (fun s => rfl) (fun k => rfl) (fun k s => rfl)
  simp only [qsFrom, qsaFrom, c2Dom, headerSeg, List.cons_append, List.nil_append,
    List.append_assoc]
  simp only [List.filter_append, List.filter_cons, hs1, hs2, ho, he, h03, h05]
  simp +decide

/-- The `.cm-line` element records of the first Input block, in order. -/
theorem c2Dom_cmDivs1 (keys ls : List String) (o e : OutRep) :
    qsaFrom (c2Dom keys ls o e) [0, 1, 0] selCmLine =
      (List.range (keys.map (fun k => k ++ "=0")).length).map
        (fun k => ⟨[0, 1, 0] ++ [k], .elemNode "div" "cm-line" []⟩) := by
  have hs1 := linesSeg_filter_cmDivs [0, 1, 0] 0 (keys.map (fun k => k ++ "=0"))
  simp only [Nat.zero_add] at hs1
  have hs2 : (linesSeg [0, 7, 0] 0 ls).filter
      (fun n => n.isElem && pathPre [0, 1, 0] n.path && !(n.path = [0, 1, 0]) && nodeSelMatch n selCmLine) = [] :=
    linesSeg_filter_eq_nil (fun k => rfl) (fun k s => rfl)
  have ho : (repBlock [0, 9] o "relative").filter
      (fun n => n.isElem && pathPre [0, 1, 0] n.path && !(n.path = [0, 1, 0]) && nodeSelMatch n selCmLine) = [] :=
    repBlock_filter_eq_nil rfl rfl rfl (fun s => rfl) (fun k => rfl) (fun k s => rfl)
  have he : (repBlock [0, 11] e "relative").filter
      (fun n => n.isElem && pathPre [0, 1, 0] n.path && !(n.path = [0, 1, 0]) && nodeSelMatch n selCmLine) = [] :=
    repBlock_filter_eq_nil rfl rfl rfl (fun s => rfl) (fun k => rfl) (fun k s => rfl)
  have h03 : (repBlock [0, 3] (.plainRep "0") "px-4").filter
      (fun n => n.isElem && pathPre [0, 1, 0] n.path && !(n.path = [0, 1, 0]) && nodeSelMatch n selCmLine) = [] :=
    repBlock_filter_eq_nil rfl rfl rfl (fun s => rfl) (fun k => rfl) (fun k s => rfl)
  have h05 : (repBlock [0, 5] (.plainRep "0") "px-4").filter
      (fun n => n.isElem && pathPre [0, 1, 0] n.path && !(n.path = [0, 1, 0]) && nodeSelMatch n selCmLine) = [] :=
    repBlock_filter_eq_nil rfl rfl rfl (fun s => rfl) (fun k => rfl) (fun k s => rfl)
  simp only [qsaFrom, c2Dom, headerSeg, List.cons_append, List.nil_append,
    List.append_assoc]
  simp only [List.filter_append, List.filter_cons, hs1, hs2, ho, he, h03, h05]
  simp +decide

/-- The text of line `k` of the first Input block. -/
theorem c2Dom_lineText1 (keys ls : List String) (o e : OutRep) (k : Nat)
    (hk : k < (keys.map (fun k => k ++ "=0")).length) :
    textContentAt (c2Dom keys ls o e) ([0, 1, 0] ++ [k]) =
      (keys.map (fun k => k ++ "=0")).getD k "" := by
  have hown := linesSeg_textFilter [0, 1, 0] 0 (keys.map (fun k => k ++ "=0")) k hk
  simp only [Nat.zero_add] at hown
  have hs2 : (linesSeg [0, 7, 0] 0 ls).filter
      (fun n => pathPre ([0, 1, 0] ++ [k]) n.path && !n.isElem) = [] :=
    linesSeg_filter_eq_nil (fun j => rfl) (fun j s => rfl)
  have ho : (repBlock [0, 9] o "relative").filter
      (fun n => pathPre ([0, 1, 0] ++ [k]) n.path && !n.isElem) = [] :=
    repBlock_filter_eq_nil rfl rfl rfl (fun s => rfl) (fun j => rfl) (fun j s => rfl)
  have he : (repBlock [0, 11] e "relative").filter
      (fun n => pathPre ([0, 1, 0] ++ [k]) n.path && !n.isElem) = [] :=
    repBlock_filter_eq_nil rfl rfl rfl (fun s => rfl) (fun j => rfl) (fun j s => rfl)
  have h03 : (repBlock [0, 3] (.plainRep "0") "px-4").filter
      (fun n => pathPre ([0, 1, 0] ++ [k]) n.path && !n.isElem) = [] :=
    repBlock_filter_eq_nil rfl rfl rfl (fun s => rfl) (fun j => rfl) (fun j s => rfl)
  have h05 : (repBlock [0, 5] (.plainRep "0") "px-4").filter
      (fun n => pathPre ([0, 1, 0] ++ [k]) n.path && !n.isElem) = [] :=
    repBlock_filter_eq_nil rfl rfl rfl (fun s => rfl) (fun j => rfl) (fun j s => rfl)
  simp only [textContentAt, c2Dom, headerSeg, List.cons_append, List.nil_append,
    List.append_assoc]
  simp only [List.cons_append, List.nil_append] at hown hs2 ho he h03 h05
  simp only [List.filter_append, List.filter_cons, hown, hs2, ho, he, h03, h05]
  simp +decide [pathPre, DomNode.isElem, DomNode.textData, joinWith]

/-- The trimmed lines of the first Input block. -/
theorem c2Dom_cmLines1 (keys ls : List String) (o e : OutRep) :
    cmLines (c2Dom keys ls o e) [0, 1, 0] = (keys.map (fun k => k ++ "=0")).map jsTrim := by
  rw [cmLines, c2Dom_cmDivs1, List.map_map]
  rw [show ((fun n => jsTrim (textContentAt (c2Dom keys ls o e) n.path)) ∘
      (fun k => (⟨[0, 1, 0] ++ [k], .elemNode "div" "cm-line" []⟩ : DomNode))) =
      (fun k => jsTrim (textContentAt (c2Dom keys ls o e) ([0, 1, 0] ++ [k]))) from rfl]
  rw [List.map_congr_left (fun k hk =>
    congrArg jsTrim (c2Dom_lineText1 keys ls o e k (List.mem_range.mp hk)))]
  exact range_map_getD jsTrim "" (keys.map (fun k => k ++ "=0"))

/-- The collapsed Input block's CodeMirror content query. -/
theorem c2Dom_cm7 (keys ls : List String) (o e : OutRep) :
    qsFrom (c2Dom keys ls o e) [0, 7] selCm =
      some ⟨[0, 7, 0], .elemNode "div" "cm-content" []⟩ := by
  have hs1 : (linesSeg [0, 7, 0] 0 ls).filter
      (fun n => n.isElem && pathPre [0, 7] n.path && !(n.path = [0, 7]) && nodeSelMatch n selCm) = [] :=
    linesSeg_filter_eq_nil (fun k => rfl) (fun k s => rfl)
  have hs2 : (linesSeg [0, 1, 0] 0 (keys.map (fun k => k ++ "=0"))).filter
      (fun n => n.isElem && pathPre [0, 7] n.path && !(n.path = [0, 7]) && nodeSelMatch n selCm) = [] :=
    linesSeg_filter_eq_nil (fun k => rfl) (fun k s => rfl)
  have ho : (repBlock [0, 9] o "relative").filter
      (fun n => n.isElem && pathPre [0, 7] n.path && !(n.path = [0, 7]) && nodeSelMatch n selCm) = [] :=
    repBlock_filter_eq_nil rfl rfl rfl (fun s => rfl) (fun k => rfl) (fun k s => rfl)
  have he : (repBlock [0, 11] e "relative").filter
      (fun n => n.isElem && pathPre [0, 7] n.path && !(n.path = [0, 7]) && nodeSelMatch n selCm) = [] :=
    repBlock_filter_eq_nil rfl rfl rfl (fun s => rfl) (fun k => rfl) (fun k s => rfl)
  have h03 : (repBlock [0, 3] (.plainRep "0") "px-4").filter
      (fun n => n.isElem && pathPre [0, 7] n.path && !(n.path = [0, 7]) && nodeSelMatch n selCm) = [] :=
    repBlock_filter_eq_nil rfl rfl rfl (fun s => rfl) (fun k => rfl) (fun k s => rfl)
  have h05 : (repBlock [0, 5] (.plainRep "0") "px-4").filter
      (fun n => n.isElem && pathPre [0, 7] n.path && !(n.path = [0, 7]) && nodeSelMatch n selCm) = [] :=
    repBlock_filter_eq_nil rfl rfl rfl (fun s => rfl) (fun k => rfl) (fun k s => rfl)
  simp only [qsFrom, qsaFrom, c2Dom, headerSeg, List.cons_append, List.nil_append,
    List.append_assoc]
  simp only [List.filter_append, List.filter_cons, hs1, hs2, ho, he, h03, h05]
  simp +decide

/-- The `.cm-line` element records of the collapsed Input block, in order. -/
theorem c2Dom_cmDivs7 (keys ls : List String) (o e : OutRep) :
    qsaFrom (c2Dom keys ls o e) [0, 7, 0] selCmLine =
      (List.range ls.length).map
        (fun k => ⟨[0, 7, 0] ++ [k], .elemNode "div" "cm-line" []⟩) := by
  have hs1 := linesSeg_filter_cmDivs [0, 7, 0] 0 ls
  simp only [Nat.zero_add] at hs1
  have hs2 : (linesSeg [0, 1, 0] 0 (keys.map (fun k => k ++ "=0"))).filter
      (fun n => n.isElem && pathPre [0, 7, 0] n.path && !(n.path = [0, 7, 0]) && nodeSelMatch n selCmLine) = [] :=
    linesSeg_filter_eq_nil (fun k => rfl) (fun k s => rfl)
  have ho : (repBlock [0, 9] o "relative").filter
      (fun n => n.isElem && pathPre [0, 7, 0] n.path && !(n.path = [0, 7, 0]) && nodeSelMatch n selCmLine) = [] :=
    repBlock_filter_eq_nil rfl rfl rfl (fun s => rfl) (fun k => rfl) (fun k s => rfl)
  have he : (repBlock [0, 11] e "relative").filter
      (fun n => n.isElem && pathPre [0, 7, 0] n.path && !(n.path = [0, 7, 0]) && nodeSelMatch n selCmLine) = [] :=
    repBlock_filter_eq_nil rfl rfl rfl (fun s => rfl) (fun k => rfl) (fun k s => rfl)
  have h03 : (repBlock [0, 3] (.plainRep "0") "px-4").filter
      (fun n => n.isElem && pathPre [0, 7, 0] n.path && !(n.path = [0, 7, 0]) && nodeSelMatch n selCmLine) = [] :=
    repBlock_filter_eq_nil rfl rfl rfl (fun s => rfl) (fun k => rfl) (fun k s => rfl)
  have h05 : (repBlock [0, 5] (.plainRep "0") "px-4").filter
      (fun n => n.isElem && pathPre [0, 7, 0] n.path && !(n.path = [0, 7, 0]) && nodeSelMatch n selCmLine) = [] :=
    repBlock_filter_eq_nil rfl rfl rfl (fun s => rfl) (fun k => rfl) (fun k s => rfl)
  simp only [qsaFrom, c2Dom, headerSeg, List.cons_append, List.nil_append,
    List.append_assoc]
  simp only [List.filter_append, List.filter_cons, hs1, hs2, ho, he, h03, h05]
  simp +decide

/-- The text of line `k` of the collapsed Input block. -/
theorem c2Dom_lineText7 (keys ls : List String) (o e : OutRep) (k : Nat)
    (hk : k < ls.length) :
    textContentAt (c2Dom keys ls o e) ([0, 7, 0] ++ [k]) = ls.getD k "" := by
  have hown := linesSeg_textFilter [0, 7, 0] 0 ls k hk
  simp only [Nat.zero_add] at hown
  have hs2 : (linesSeg [0, 1, 0] 0 (keys.map (fun k => k ++ "=0"))).filter
      (fun n => pathPre ([0, 7, 0] ++ [k]) n.path && !n.isElem) = [] :=
    linesSeg_filter_eq_nil (fun j => rfl) (fun j s => rfl)
  have ho : (repBlock [0, 9] o "relative").filter
      (fun n => pathPre ([0, 7, 0] ++ [k]) n.path && !n.isElem) = [] :=
    repBlock_filter_eq_nil rfl rfl rfl (fun s => rfl) (fun j => rfl) (fun j s => rfl)
  have he : (repBlock [0, 11] e "relative").filter
      (fun n => pathPre ([0, 7, 0] ++ [k]) n.path && !n.isElem) = [] :=
    repBlock_filter_eq_nil rfl rfl rfl (fun s => rfl) (fun j => rfl) (fun j s => rfl)
  have h03 : (repBlock [0, 3] (.plainRep "0") "px-4").filter
      (fun n => pathPre ([0, 7, 0] ++ [k]) n.path && !n.isElem) = [] :=
    repBlock_filter_eq_nil rfl rfl rfl (fun s => rfl) (fun j => rfl) (fun j s => rfl)
  have h05 : (repBlock [0, 5] (.plainRep "0") "px-4").filter
      (fun n => pathPre ([0, 7, 0] ++ [k]) n.path && !n.isElem) = [] :=
    repBlock_filter_eq_nil rfl rfl rfl (fun s => rfl) (fun j => rfl) (fun j s => rfl)
  simp only [textContentAt, c2Dom, headerSeg, List.cons_append, List.nil_append,
    List.append_assoc]
  simp only [List.cons_append, List.nil_append] at hown hs2 ho he h03 h05
  simp only [List.filter_append, List.filter_cons, hown, hs2, ho, he, h03, h05]
  simp +decide [pathPre, DomNode.isElem, DomNode.textData, joinWith]

/-- The trimmed lines of the collapsed Input block. -/
theorem c2Dom_cmLines7 (keys ls : List String) (o e : OutRep) :
    cmLines (c2Dom keys ls o e) [0, 7, 0] = ls.map jsTrim := by
  rw [cmLines, c2Dom_cmDivs7, List.map_map]
  rw [show ((fun n => jsTrim (textContentAt (c2Dom keys ls o e) n.path)) ∘
      (fun k => (⟨[0, 7, 0] ++ [k], .elemNode "div" "cm-line" []⟩ : DomNode))) =
      (fun k => jsTrim (textContentAt (c2Dom keys ls o e) ([0, 7, 0] ++ [k]))) from rfl]
  rw [List.map_congr_left (fun k hk =>
    congrArg jsTrim (c2Dom_lineText7 keys ls o e k (List.mem_range.mp hk)))]
  exact range_map_getD jsTrim "" ls

/-- The collapsed Output block's CodeMirror query, line-based case. -/
theorem c2Dom_cm9_lines (keys ls ols : List String) (e : OutRep) :
    qsFrom (c2Dom keys ls (.lineRep ols) e) [0, 9] selCm =
      some ⟨[0, 9, 0], .elemNode "div" "cm-content" []⟩ := by
  have hs1 : (linesSeg [0, 1, 0] 0 (keys.map (fun k => k ++ "=0"))).filter
      (fun n => n.isElem && pathPre [0, 9] n.path && !(n.path = [0, 9]) && nodeSelMatch n selCm) = [] :=
    linesSeg_filter_eq_nil (fun k => rfl) (fun k s => rfl)
  have hs2 : (linesSeg [0, 7, 0] 0 ls).filter
      (fun n => n.isElem && pathPre [0, 9] n.path && !(n.path = [0, 9]) && nodeSelMatch n selCm) = [] :=
    linesSeg_filter_eq_nil (fun k => rfl) (fun k s => rfl)
  have he : (repBlock [0, 11] e "relative").filter
      (fun n => n.isElem && pathPre [0, 9] n.path && !(n.path = [0, 9]) && nodeSelMatch n selCm) = [] :=
    repBlock_filter_eq_nil rfl rfl rfl (fun s => rfl) (fun k => rfl) (fun k s => rfl)
  have h03 : (repBlock [0, 3] (.plainRep "0") "px-4").filter
      (fun n => n.isElem && pathPre [0, 9] n.path && !(n.path = [0, 9]) && nodeSelMatch n selCm) = [] :=
    repBlock_filter_eq_nil rfl rfl rfl (fun s => rfl) (fun k => rfl) (fun k s => rfl)
  have h05 : (repBlock [0, 5] (.plainRep "0") "px-4").filter
      (fun n => n.isElem && pathPre [0, 9] n.path && !(n.path = [0, 9]) && nodeSelMatch n selCm) = [] :=
    repBlock_filter_eq_nil rfl rfl rfl (fun s => rfl) (fun k => rfl) (fun k s => rfl)
  have hob : (repBlock [0, 9] (OutRep.lineRep ols) "relative").filter
      (fun n => n.isElem && pathPre [0, 9] n.path && !(n.path = [0, 9]) && nodeSelMatch n selCm) =
      [⟨[0, 9, 0], .elemNode "div" "cm-content" []⟩] := by
    rw [show repBlock [0, 9] (OutRep.lineRep ols) "relative" =
        ⟨[0, 9], .elemNode "div" "relative" []⟩ ::
        ⟨[0, 9, 0], .elemNode "div" "cm-content" []⟩ :: linesSeg [0, 9, 0] 0 ols from rfl]
    rw [List.filter_cons, List.filter_cons, if_neg (by decide), if_pos (by decide)]
    rw [linesSeg_filter_eq_nil (fun k => rfl) (fun k s => rfl)]
  simp only [qsFrom, qsaFrom, c2Dom, headerSeg, List.cons_append, List.nil_append,
    List.append_assoc]
  simp only [List.filter_append, List.filter_cons, hs1, hs2, hob, he, h03, h05]
  simp +decide

/-- The `.cm-line` element records of the line-based collapsed Output
block, in order. -/
theorem c2Dom_cmDivs9 (keys ls ols : List String) (e : OutRep) :
    qsaFrom (c2Dom keys ls (.lineRep ols) e) [0, 9, 0] selCmLine =
      (List.range ols.length).map
        (fun k => ⟨[0, 9, 0] ++ [k], .elemNode "div" "cm-line" []⟩) := by
  have hs1 : (linesSeg [0, 1, 0] 0 (keys.map (fun k => k ++ "=0"))).filter
      (fun n => n.isElem && pathPre [0, 9, 0] n.path && !(n.path = [0, 9, 0]) && nodeSelMatch n selCmLine) = [] :=
    linesSeg_filter_eq_nil (fun k => rfl) (fun k s => rfl)
  have hs2 : (linesSeg [0, 7, 0] 0 ls).filter
      (fun n => n.isElem && pathPre [0, 9, 0] n.path && !(n.path = [0, 9, 0]) && nodeSelMatch n selCmLine) = [] :=
    linesSeg_filter_eq_nil (fun k => rfl) (fun k s => rfl)
  have he : (repBlock [0, 11] e "relative").filter
      (fun n => n.isElem && pathPre [0, 9, 0] n.path && !(n.path = [0, 9, 0]) && nodeSelMatch n selCmLine) = [] :=
    repBlock_filter_eq_nil rfl rfl rfl (fun s => rfl) (fun k => rfl) (fun k s => rfl)
  have h03 : (repBlock [0, 3] (.plainRep "0") "px-4").filter
      (fun n => n.isElem && pathPre [0, 9, 0] n.path && !(n.path = [0, 9, 0]) && nodeSelMatch n selCmLine) = [] :=
    repBlock_filter_eq_nil rfl rfl rfl (fun s => rfl) (fun k => rfl) (fun k s => rfl)
  have h05 : (repBlock [0, 5] (.plainRep "0") "px-4").filter
      (fun n => n.isElem && pathPre [0, 9, 0] n.path && !(n.path = [0, 9, 0]) && nodeSelMatch n selCmLine) = [] :=
    repBlock_filter_eq_nil rfl rfl rfl (fun s => rfl) (fun k => rfl) (fun k s => rfl)
  have hob : (repBlock [0, 9] (OutRep.lineRep ols) "relative").filter
      (fun n => n.isElem && pathPre [0, 9, 0] n.path && !(n.path = [0, 9, 0]) && nodeSelMatch n selCmLine) =
      (List.range ols.length).map
        (fun k => ⟨[0, 9, 0] ++ [k], .elemNode "div" "cm-line" []⟩) := by
    rw [show repBlock [0, 9] (OutRep.lineRep ols) "relative" =
        ⟨[0, 9], .elemNode "div" "relative" []⟩ ::
        ⟨[0, 9, 0], .elemNode "div" "cm-content" []⟩ :: linesSeg [0, 9, 0] 0 ols from rfl]
    rw [List.filter_cons, List.filter_cons, if_neg (by decide), if_neg (by decide)]
    have := linesSeg_filter_cmDivs [0, 9, 0] 0 ols
    simpa using this
  simp only [qsaFrom, c2Dom, headerSeg, List.cons_append, List.nil_append,
    List.append_assoc]
  simp only [List.filter_append, List.filter_cons, hs1, hs2, hob, he, h03, h05]
  simp +decide

/-- The text of line `k` of the line-based collapsed Output block. -/
theorem c2Dom_lineText9 (keys ls ols : List String) (e : OutRep) (k : Nat)
    (hk : k < ols.length) :
    textContentAt (c2Dom keys ls (.lineRep ols) e) ([0, 9, 0] ++ [k]) =
      ols.getD k "" := by
  have hs1 : (linesSeg [0, 1, 0] 0 (keys.map (fun k => k ++ "=0"))).filter
      (fun n => pathPre ([0, 9, 0] ++ [k]) n.path && !n.isElem) = [] :=
    linesSeg_filter_eq_nil (fun j => rfl) (fun j s => rfl)
  have hs2 : (linesSeg [0, 7, 0] 0 ls).filter
      (fun n => pathPre ([0, 9, 0] ++ [k]) n.path && !n.isElem) = [] :=
    linesSeg_filter_eq_nil (fun j => rfl) (fun j s => rfl)
  have he : (repBlock [0, 11] e "relative").filter
      (fun n => pathPre ([0, 9, 0] ++ [k]) n.path && !n.isElem) = [] :=
    repBlock_filter_eq_nil rfl rfl rfl (fun s => rfl) (fun j => rfl) (fun j s => rfl)
  have h03 : (repBlock [0, 3] (.plainRep "0") "px-4").filter
      (fun n => pathPre ([0, 9, 0] ++ [k]) n.path && !n.isElem) = [] :=
    repBlock_filter_eq_nil rfl rfl rfl (fun s => rfl) (fun j => rfl) (fun j s => rfl)
  have h05 : (repBlock [0, 5] (.plainRep "0") "px-4").filter
      (fun n => pathPre ([0, 9, 0] ++ [k]) n.path && !n.isElem) = [] :=
    repBlock_filter_eq_nil rfl rfl rfl (fun s => rfl) (fun j => rfl) (fun j s => rfl)
  have hob : (repBlock [0, 9] (OutRep.lineRep ols) "relative").filter
      (fun n => pathPre ([0, 9, 0] ++ [k]) n.path && !n.isElem) =
      [⟨[0, 9, 0] ++ [k, 0], .textNode (ols.getD k "")⟩] := by
    rw [show repBlock [0, 9] (OutRep.lineRep ols) "relative" =
        ⟨[0, 9], .elemNode "div" "relative" []⟩ ::
        ⟨[0, 9, 0], .elemNode "div" "cm-content" []⟩ :: linesSeg [0, 9, 0] 0 ols from rfl]
    rw [List.filter_cons, List.filter_cons,
      if_neg (by simp [pathPre, DomNode.isElem]),
      if_neg (by simp [pathPre, DomNode.isElem])]
    have := linesSeg_textFilter [0, 9, 0] 0 ols k hk
    simpa using this
  simp only [textContentAt, c2Dom, headerSeg, List.cons_append, List.nil_append,
    List.append_assoc]
  simp only [List.cons_append, List.nil_append] at hs1 hs2 hob he h03 h05
  simp only [List.filter_append, List.filter_cons, hs1, hs2, hob, he, h03, h05]
  simp +decide [pathPre, DomNode.isElem, DomNode.textData, joinWith]

/-- The trimmed lines of the line-based collapsed Output block. -/
theorem c2Dom_cmLines9 (keys ls ols : List String) (e : OutRep) :
    cmLines (c2Dom keys ls (.lineRep ols) e) [0, 9, 0] = ols.map jsTrim := by
  rw [cmLines, c2Dom_cmDivs9, List.map_map]
  rw [show ((fun n => jsTrim (textContentAt (c2Dom keys ls (.lineRep ols) e) n.path)) ∘
      (fun k => (⟨[0, 9, 0] ++ [k], .elemNode "div" "cm-line" []⟩ : DomNode))) =
      (fun k => jsTrim (textContentAt (c2Dom keys ls (.lineRep ols) e) ([0, 9, 0] ++ [k]))) from rfl]
  rw [List.map_congr_left (fun k hk =>
    congrArg jsTrim (c2Dom_lineText9 keys ls ols e k (List.mem_range.mp hk)))]
  exact range_map_getD jsTrim "" ols

/-- The plain collapsed Output block has no CodeMirror content. -/
theorem c2Dom_cm9_plain (keys ls : List String) (s : String) (e : OutRep) :
    qsFrom (c2Dom keys ls (.plainRep s) e) [0, 9] selCm = none := by
  have hs1 : (linesSeg [0, 1, 0] 0 (keys.map (fun k => k ++ "=0"))).filter
      (fun n => n.isElem && pathPre [0, 9] n.path && !(n.path = [0, 9]) && nodeSelMatch n selCm) = [] :=
    linesSeg_filter_eq_nil (fun k => rfl) (fun k s => rfl)
  have hs2 : (linesSeg [0, 7, 0] 0 ls).filter
      (fun n => n.isElem && pathPre [0, 9] n.path && !(n.path = [0, 9]) && nodeSelMatch n selCm) = [] :=
    linesSeg_filter_eq_nil (fun k => rfl) (fun k s => rfl)
  have he : (repBlock [0, 11] e "relative").filter
      (fun n => n.isElem && pathPre [0, 9] n.path && !(n.path = [0, 9]) && nodeSelMatch n selCm) = [] :=
    repBlock_filter_eq_nil rfl rfl rfl (fun s => rfl) (fun k => rfl) (fun k s => rfl)
  have h03 : (repBlock [0, 3] (.plainRep "0") "px-4").filter
      (fun n => n.isElem && pathPre [0, 9] n.path && !(n.path = [0, 9]) && nodeSelMatch n selCm) = [] :=
    repBlock_filter_eq_nil rfl rfl rfl (fun s => rfl) (fun k => rfl) (fun k s => rfl)
  have h05 : (repBlock [0, 5] (.plainRep "0") "px-4").filter
      (fun n => n.isElem && pathPre [0, 9] n.path && !(n.path = [0, 9]) && nodeSelMatch n selCm) = [] :=
    repBlock_filter_eq_nil rfl rfl rfl (fun s => rfl) (fun k => rfl) (fun k s => rfl)
  have hob : (repBlock [0, 9] (OutRep.plainRep s) "relative").filter
      (fun n => n.isElem && pathPre [0, 9] n.path && !(n.path = [0, 9]) && nodeSelMatch n selCm) = [] := by
    rw [show repBlock [0, 9] (OutRep.plainRep s) "relative" =
        [⟨[0, 9], .elemNode "div" "relative" []⟩,
         ⟨[0, 9, 0], .elemNode "div" "font-menlo" []⟩,
         ⟨[0, 9, 0, 0], .textNode s⟩] from rfl]
    rw [List.filter_cons, List.filter_cons, List.filter_cons,
      if_neg (by decide), if_neg (by decide),
      if_neg (by simp [DomNode.isElem])]
    rfl
  simp only [qsFrom, qsaFrom, c2Dom, headerSeg, List.cons_append, List.nil_append,
    List.append_assoc]
  simp only [List.filter_append, List.filter_cons, hs1, hs2, hob, he, h03, h05]
  simp +decide

/-- The plain collapsed Output block's `.font-menlo` query. -/
theorem c2Dom_fm9 (keys ls : List String) (s : String) (e : OutRep) :
    qsFrom (c2Dom keys ls (.plainRep s) e) [0, 9] selFontMenlo =
      some ⟨[0, 9, 0], .elemNode "div" "font-menlo" []⟩ := by
  have hs1 : (linesSeg [0, 1, 0] 0 (keys.map (fun k => k ++ "=0"))).filter
      (fun n => n.isElem && pathPre [0, 9] n.path && !(n.path = [0, 9]) && nodeSelMatch n selFontMenlo) = [] :=
    linesSeg_filter_eq_nil (fun k => rfl) (fun k s => rfl)
  have hs2 : (linesSeg [0, 7, 0] 0 ls).filter
      (fun n => n.isElem && pathPre [0, 9] n.path && !(n.path = [0, 9]) && nodeSelMatch n selFontMenlo) = [] :=
    linesSeg_filter_eq_nil (fun k => rfl) (fun k s => rfl)
  have he : (repBlock [0, 11] e "relative").filter
      (fun n => n.isElem && pathPre [0, 9] n.path && !(n.path = [0, 9]) && nodeSelMatch n selFontMenlo) = [] :=
    repBlock_filter_eq_nil rfl rfl rfl (fun s => rfl) (fun k => rfl) (fun k s => rfl)
  have h03 : (repBlock [0, 3] (.plainRep "0") "px-4").filter
      (fun n => n.isElem && pathPre [0, 9] n.path && !(n.path = [0, 9]) && nodeSelMatch n selFontMenlo) = [] :=
    repBlock_filter_eq_nil rfl rfl rfl (fun s => rfl) (fun k => rfl) (fun k s => rfl)
  have h05 : (repBlock [0, 5] (.plainRep "0") "px-4").filter
      (fun n => n.isElem && pathPre [0, 9] n.path && !(n.path = [0, 9]) && nodeSelMatch n selFontMenlo) = [] :=
    repBlock_filter_eq_nil rfl rfl rfl (fun s => rfl) (fun k => rfl) (fun k s => rfl)
  have hob : (repBlock [0, 9] (OutRep.plainRep s) "relative").filter
      (fun n => n.isElem && pathPre [0, 9] n.path && !(n.path = [0, 9]) && nodeSelMatch n selFontMenlo) =
      [⟨[0, 9, 0], .elemNode "div" "font-menlo" []⟩] := by
    rw [show repBlock [0, 9] (OutRep.plainRep s) "relative" =
        [⟨[0, 9], .elemNode "div" "relative" []⟩,
         ⟨[0, 9, 0], .elemNode "div" "font-menlo" []⟩,
         ⟨[0, 9, 0, 0], .textNode s⟩] from rfl]
    rw [List.filter_cons, List.filter_cons, List.filter_cons,
      if_neg (by decide), if_pos (by decide),
      if_neg (by simp [DomNode.isElem])]
    rfl
  simp only [qsFrom, qsaFrom, c2Dom, headerSeg, List.cons_append, List.nil_append,
    List.append_assoc]
  simp only [List.filter_append, List.filter_cons, hs1, hs2, hob, he, h03, h05]
  simp +decide

/-- The text of the plain collapsed Output block. -/
theorem c2Dom_fmText9 (keys ls : List String) (s : String) (e : OutRep) :
    textContentAt (c2Dom keys ls (.plainRep s) e) [0, 9, 0] = s := by
  have hs1 : (linesSeg [0, 1, 0] 0 (keys.map (fun k => k ++ "=0"))).filter
      (fun n => pathPre [0, 9, 0] n.path && !n.isElem) = [] :=
    linesSeg_filter_eq_nil (fun j => rfl) (fun j s => rfl)
  have hs2 : (linesSeg [0, 7, 0] 0 ls).filter
      (fun n => pathPre [0, 9, 0] n.path && !n.isElem) = [] :=
    linesSeg_filter_eq_nil (fun j => rfl) (fun j s => rfl)
  have he : (repBlock [0, 11] e "relative").filter
      (fun n => pathPre [0, 9, 0] n.path && !n.isElem) = [] :=
    repBlock_filter_eq_nil rfl rfl rfl (fun s => rfl) (fun j => rfl) (fun j s => rfl)
  have h03 : (repBlock [0, 3] (.plainRep "0") "px-4").filter
      (fun n => pathPre [0, 9, 0] n.path && !n.isElem) = [] :=
    repBlock_filter_eq_nil rfl rfl rfl (fun s => rfl) (fun j => rfl) (fun j s => rfl)
  have h05 : (repBlock [0, 5] (.plainRep "0") "px-4").filter
      (fun n => pathPre [0, 9, 0] n.path && !n.isElem) = [] :=
    repBlock_filter_eq_nil rfl rfl rfl (fun s => rfl) (fun j => rfl) (fun j s => rfl)
  have hob : (repBlock [0, 9] (OutRep.plainRep s) "relative").filter
      (fun n => pathPre [0, 9, 0] n.path && !n.isElem) =
      [⟨[0, 9, 0, 0], .textNode s⟩] := by
    rw [show repBlock [0, 9] (OutRep.plainRep s) "relative" =
        [⟨[0, 9], .elemNode "div" "relative" []⟩,
         ⟨[0, 9, 0], .elemNode "div" "font-menlo" []⟩,
         ⟨[0, 9, 0, 0], .textNode s⟩] from rfl]
    rw [List.filter_cons, List.filter_cons, List.filter_cons,
      if_neg (by decide), if_neg (by decide),
      if_pos (by simp [pathPre, DomNode.isElem])]
    rfl
  simp only [textContentAt, c2Dom, headerSeg, List.cons_append, List.nil_append,
    List.append_assoc]
  simp only [List.filter_append, List.filter_cons, hs1, hs2, hob, he, h03, h05]
  simp +decide [pathPre, DomNode.isElem, DomNode.textData, joinWith]

/-- `parseValue` on the collapsed Output block computes `repValueAt`. -/
theorem c2Dom_parseValue9 (keys ls : List String) (o e : OutRep) (j : Nat) :
    parseValue (c2Dom keys ls o e) [0, 9] j = repValueAt o j := by
  rcases o with ols | s
  · have h1 := c2Dom_cm9_lines keys ls ols e
    have h2 := c2Dom_cmLines9 keys ls ols e
    simp only [parseValue, h1, h2]
    rfl
  · have h1 := c2Dom_cm9_plain keys ls s e
    have h2 := c2Dom_fm9 keys ls s e
    have h3 := c2Dom_fmText9 keys ls s e
    simp only [parseValue, h1, h2, h3]
    rfl

/-- The collapsed Expected block's CodeMirror query, line-based case. -/
theorem c2Dom_cm11_lines (keys ls els : List String) (o : OutRep) :
    qsFrom (c2Dom keys ls o (.lineRep els)) [0, 11] selCm =
      some ⟨[0, 11, 0], .elemNode "div" "cm-content" []⟩ := by
  have hs1 : (linesSeg [0, 1, 0] 0 (keys.map (fun k => k ++ "=0"))).filter
      (fun n => n.isElem && pathPre [0, 11] n.path && !(n.path = [0, 11]) && nodeSelMatch n selCm) = [] :=
    linesSeg_filter_eq_nil (fun k => rfl) (fun k s => rfl)
  have hs2 : (linesSeg [0, 7, 0] 0 ls).filter
      (fun n => n.isElem && pathPre [0, 11] n.path && !(n.path = [0, 11]) && nodeSelMatch n selCm) = [] :=
    linesSeg_filter_eq_nil (fun k => rfl) (fun k s => rfl)
  have ho : (repBlock [0, 9] o "relative").filter
      (fun n => n.isElem && pathPre [0, 11] n.path && !(n.path = [0, 11]) && nodeSelMatch n selCm) = [] :=
    repBlock_filter_eq_nil rfl rfl rfl (fun s => rfl) (fun k => rfl) (fun k s => rfl)
  have h03 : (repBlock [0, 3] (.plainRep "0") "px-4").filter
      (fun n => n.isElem && pathPre [0, 11] n.path && !(n.path = [0, 11]) && nodeSelMatch n selCm) = [] :=
    repBlock_filter_eq_nil rfl rfl rfl (fun s => rfl) (fun k => rfl) (fun k s => rfl)
  have h05 : (repBlock [0, 5] (.plainRep "0") "px-4").filter
      (fun n => n.isElem && pathPre [0, 11] n.path && !(n.path = [0, 11]) && nodeSelMatch n selCm) = [] :=
    repBlock_filter_eq_nil rfl rfl rfl (fun s => rfl) (fun k => rfl) (fun k s => rfl)
  have hob : (repBlock [0, 11] (OutRep.lineRep els) "relative").filter
      (fun n => n.isElem && pathPre [0, 11] n.path && !(n.path = [0, 11]) && nodeSelMatch n selCm) =
      [⟨[0, 11, 0], .elemNode "div" "cm-content" []⟩] := by
    rw [show repBlock [0, 11] (OutRep.lineRep els) "relative" =
        ⟨[0, 11], .elemNode "div" "relative" []⟩ ::
        ⟨[0, 11, 0], .elemNode "div" "cm-content" []⟩ :: linesSeg [0, 11, 0] 0 els from rfl]
    rw [List.filter_cons, List.filter_cons, if_neg (by decide), if_pos (by decide)]
    rw [linesSeg_filter_eq_nil (fun k => rfl) (fun k s => rfl)]
  simp only [qsFrom, qsaFrom, c2Dom, headerSeg, List.cons_append, List.nil_append,
    List.append_assoc]
  simp only [List.filter_append, List.filter_cons, hs1, hs2, hob, ho, h03, h05]
  simp +decide

/-- The `.cm-line` element records of the line-based collapsed Output
block, in order. -/
theorem c2Dom_cmDivs11 (keys ls els : List String) (o : OutRep) :
    qsaFrom (c2Dom keys ls o (.lineRep els)) [0, 11, 0] selCmLine =
      (List.range els.length).map
        (fun k => ⟨[0, 11, 0] ++ [k], .elemNode "div" "cm-line" []⟩) := by
  have hs1 : (linesSeg [0, 1, 0] 0 (keys.map (fun k => k ++ "=0"))).filter
      (fun n => n.isElem && pathPre [0, 11, 0] n.path && !(n.path = [0, 11, 0]) && nodeSelMatch n selCmLine) = [] :=
    linesSeg_filter_eq_nil (fun k => rfl) (fun k s => rfl)
  have hs2 : (linesSeg [0, 7, 0] 0 ls).filter
      (fun n => n.isElem && pathPre [0, 11, 0] n.path && !(n.path = [0, 11, 0]) && nodeSelMatch n selCmLine) = [] :=
    linesSeg_filter_eq_nil (fun k => rfl) (fun k s => rfl)
  have ho : (repBlock [0, 9] o "relative").filter
      (fun n => n.isElem && pathPre [0, 11, 0] n.path && !(n.path = [0, 11, 0]) && nodeSelMatch n selCmLine) = [] :=
    repBlock_filter_eq_nil rfl rfl rfl (fun s => rfl) (fun k => rfl) (fun k s => rfl)
  have h03 : (repBlock [0, 3] (.plainRep "0") "px-4").filter
      (fun n => n.isElem && pathPre [0, 11, 0] n.path && !(n.path = [0, 11, 0]) && nodeSelMatch n selCmLine) = [] :=
    repBlock_filter_eq_nil rfl rfl rfl (fun s => rfl) (fun k => rfl) (fun k s => rfl)
  have h05 : (repBlock [0, 5] (.plainRep "0") "px-4").filter
      (fun n => n.isElem && pathPre [0, 11, 0] n.path && !(n.path = [0, 11, 0]) && nodeSelMatch n selCmLine) = [] :=
    repBlock_filter_eq_nil rfl rfl rfl (fun s => rfl) (fun k => rfl) (fun k s => rfl)
  have hob : (repBlock [0, 11] (OutRep.lineRep els) "relative").filter
      (fun n => n.isElem && pathPre [0, 11, 0] n.path && !(n.path = [0, 11, 0]) && nodeSelMatch n selCmLine) =
      (List.range els.length).map
        (fun k => ⟨[0, 11, 0] ++ [k], .elemNode "div" "cm-line" []⟩) := by
    rw [show repBlock [0, 11] (OutRep.lineRep els) "relative" =
        ⟨[0, 11], .elemNode "div" "relative" []⟩ ::
        ⟨[0, 11, 0], .elemNode "div" "cm-content" []⟩ :: linesSeg [0, 11, 0] 0 els from rfl]
    rw [List.filter_cons, List.filter_cons, if_neg (by decide), if_neg (by decide)]
    have := linesSeg_filter_cmDivs [0, 11, 0] 0 els
    simpa using this
  simp only [qsaFrom, c2Dom, headerSeg, List.cons_append, List.nil_append,
    List.append_assoc]
  simp only [List.filter_append, List.filter_cons, hs1, hs2, hob, ho, h03, h05]
  simp +decide

/-- The text of line `k` of the line-based collapsed Expected block. -/
theorem c2Dom_lineText11 (keys ls els : List String) (o : OutRep) (k : Nat)
    (hk : k < els.length) :
    textContentAt (c2Dom keys ls o (.lineRep els)) ([0, 11, 0] ++ [k]) =
      els.getD k "" := by
  have hs1 : (linesSeg [0, 1, 0] 0 (keys.map (fun k => k ++ "=0"))).filter
      (fun n => pathPre ([0, 11, 0] ++ [k]) n.path && !n.isElem) = [] :=
    linesSeg_filter_eq_nil (fun j => rfl) (fun j s => rfl)
  have hs2 : (linesSeg [0, 7, 0] 0 ls).filter
      (fun n => pathPre ([0, 11, 0] ++ [k]) n.path && !n.isElem) = [] :=
    linesSeg_filter_eq_nil (fun j => rfl) (fun j s => rfl)
  have ho : (repBlock [0, 9] o "relative").filter
      (fun n => pathPre ([0, 11, 0] ++ [k]) n.path && !n.isElem) = [] :=
    repBlock_filter_eq_nil rfl rfl rfl (fun s => rfl) (fun j => rfl) (fun j s => rfl)
  have h03 : (repBlock [0, 3] (.plainRep "0") "px-4").filter
      (fun n => pathPre ([0, 11, 0] ++ [k]) n.path && !n.isElem) = [] :=
    repBlock_filter_eq_nil rfl rfl rfl (fun s => rfl) (fun j => rfl) (fun j s => rfl)
  have h05 : (repBlock [0, 5] (.plainRep "0") "px-4").filter
      (fun n => pathPre ([0, 11, 0] ++ [k]) n.path && !n.isElem) = [] :=
    repBlock_filter_eq_nil rfl rfl rfl (fun s => rfl) (fun j => rfl) (fun j s => rfl)
  have hob : (repBlock [0, 11] (OutRep.lineRep els) "relative").filter
      (fun n => pathPre ([0, 11, 0] ++ [k]) n.path && !n.isElem) =
      [⟨[0, 11, 0] ++ [k, 0], .textNode (els.getD k "")⟩] := by
    rw [show repBlock [0, 11] (OutRep.lineRep els) "relative" =
        ⟨[0, 11], .elemNode "div" "relative" []⟩ ::
        ⟨[0, 11, 0], .elemNode "div" "cm-content" []⟩ :: linesSeg [0, 11, 0] 0 els from rfl]
    rw [List.filter_cons, List.filter_cons,
      if_neg (by simp [pathPre, DomNode.isElem]),
      if_neg (by simp [pathPre, DomNode.isElem])]
    have := linesSeg_textFilter [0, 11, 0] 0 els k hk
    simpa using this
  simp only [textContentAt, c2Dom, headerSeg, List.cons_append, List.nil_append,
    List.append_assoc]
  simp only [List.cons_append, List.nil_append] at hs1 hs2 hob ho h03 h05
  simp only [List.filter_append, List.filter_cons, hs1, hs2, hob, ho, h03, h05]
  simp +decide [pathPre, DomNode.isElem, DomNode.textData, joinWith]

/-- The trimmed lines of the line-based collapsed Expected block. -/
theorem c2Dom_cmLines11 (keys ls els : List String) (o : OutRep) :
    cmLines (c2Dom keys ls o (.lineRep els)) [0, 11, 0] = els.map jsTrim := by
  rw [cmLines, c2Dom_cmDivs11, List.map_map]
  rw [show ((fun n => jsTrim (textContentAt (c2Dom keys ls o (.lineRep els)) n.path)) ∘
      (fun k => (⟨[0, 11, 0] ++ [k], .elemNode "div" "cm-line" []⟩ : DomNode))) =
      (fun k => jsTrim (textContentAt (c2Dom keys ls o (.lineRep els)) ([0, 11, 0] ++ [k]))) from rfl]
  rw [List.map_congr_left (fun k hk =>
    congrArg jsTrim (c2Dom_lineText11 keys ls els o k (List.mem_range.mp hk)))]
  exact range_map_getD jsTrim "" els

/-- The plain collapsed Expected block has no CodeMirror content. -/
theorem c2Dom_cm11_plain (keys ls : List String) (s : String) (o : OutRep) :
    qsFrom (c2Dom keys ls o (.plainRep s)) [0, 11] selCm = none := by
  have hs1 : (linesSeg [0, 1, 0] 0 (keys.map (fun k => k ++ "=0"))).filter
      (fun n => n.isElem && pathPre [0, 11] n.path && !(n.path = [0, 11]) && nodeSelMatch n selCm) = [] :=
    linesSeg_filter_eq_nil (fun k => rfl) (fun k s => rfl)
  have hs2 : (linesSeg [0, 7, 0] 0 ls).filter
      (fun n => n.isElem && pathPre [0, 11] n.path && !(n.path = [0, 11]) && nodeSelMatch n selCm) = [] :=
    linesSeg_filter_eq_nil (fun k => rfl) (fun k s => rfl)
  have ho : (repBlock [0, 9] o "relative").filter
      (fun n => n.isElem && pathPre [0, 11] n.path && !(n.path = [0, 11]) && nodeSelMatch n selCm) = [] :=
    repBlock_filter_eq_nil rfl rfl rfl (fun s => rfl) (fun k => rfl) (fun k s => rfl)
  have h03 : (repBlock [0, 3] (.plainRep "0") "px-4").filter
      (fun n => n.isElem && pathPre [0, 11] n.path && !(n.path = [0, 11]) && nodeSelMatch n selCm) = [] :=
    repBlock_filter_eq_nil rfl rfl rfl (fun s => rfl) (fun k => rfl) (fun k s => rfl)
  have h05 : (repBlock [0, 5] (.plainRep "0") "px-4").filter
      (fun n => n.isElem && pathPre [0, 11] n.path && !(n.path = [0, 11]) && nodeSelMatch n selCm) = [] :=
    repBlock_filter_eq_nil rfl rfl rfl (fun s => rfl) (fun k => rfl) (fun k s => rfl)
  have hob : (repBlock [0, 11] (OutRep.plainRep s) "relative").filter
      (fun n => n.isElem && pathPre [0, 11] n.path && !(n.path = [0, 11]) && nodeSelMatch n selCm) = [] := by
    rw [show repBlock [0, 11] (OutRep.plainRep s) "relative" =
        [⟨[0, 11], .elemNode "div" "relative" []⟩,
         ⟨[0, 11, 0], .elemNode "div" "font-menlo" []⟩,
         ⟨[0, 11, 0, 0], .textNode s⟩] from rfl]
    rw [List.filter_cons, List.filter_cons, List.filter_cons,
      if_neg (by decide), if_neg (by decide),
      if_neg (by simp [DomNode.isElem])]
    rfl
  simp only [qsFrom, qsaFrom, c2Dom, headerSeg, List.cons_append, List.nil_append,
    List.append_assoc]
  simp only [List.filter_append, List.filter_cons, hs1, hs2, hob, ho, h03, h05]
  simp +decide

/-- The plain collapsed Expected block's `.font-menlo` query. -/
theorem c2Dom_fm11 (keys ls : List String) (s : String) (o : OutRep) :
    qsFrom (c2Dom keys ls o (.plainRep s)) [0, 11] selFontMenlo =
      some ⟨[0, 11, 0], .elemNode "div" "font-menlo" []⟩ := by
  have hs1 : (linesSeg [0, 1, 0] 0 (keys.map (fun k => k ++ "=0"))).filter
      (fun n => n.isElem && pathPre [0, 11] n.path && !(n.path = [0, 11]) && nodeSelMatch n selFontMenlo) = [] :=
    linesSeg_filter_eq_nil (fun k => rfl) (fun k s => rfl)
  have hs2 : (linesSeg [0, 7, 0] 0 ls).filter
      (fun n => n.isElem && pathPre [0, 11] n.path && !(n.path = [0, 11]) && nodeSelMatch n selFontMenlo) = [] :=
    linesSeg_filter_eq_nil (fun k => rfl) (fun k s => rfl)
  have ho : (repBlock [0, 9] o "relative").filter
      (fun n => n.isElem && pathPre [0, 11] n.path && !(n.path = [0, 11]) && nodeSelMatch n selFontMenlo) = [] :=
    repBlock_filter_eq_nil rfl rfl rfl (fun s => rfl) (fun k => rfl) (fun k s => rfl)
  have h03 : (repBlock [0, 3] (.plainRep "0") "px-4").filter
      (fun n => n.isElem && pathPre [0, 11] n.path && !(n.path = [0, 11]) && nodeSelMatch n selFontMenlo) = [] :=
    repBlock_filter_eq_nil rfl rfl rfl (fun s => rfl) (fun k => rfl) (fun k s => rfl)
  have h05 : (repBlock [0, 5] (.plainRep "0") "px-4").filter
      (fun n => n.isElem && pathPre [0, 11] n.path && !(n.path = [0, 11]) && nodeSelMatch n selFontMenlo) = [] :=
    repBlock_filter_eq_nil rfl rfl rfl (fun s => rfl) (fun k => rfl) (fun k s => rfl)
  have hob : (repBlock [0, 11] (OutRep.plainRep s) "relative").filter
      (fun n => n.isElem && pathPre [0, 11] n.path && !(n.path = [0, 11]) && nodeSelMatch n selFontMenlo) =
      [⟨[0, 11, 0], .elemNode "div" "font-menlo" []⟩] := by
    rw [show repBlock [0, 11] (OutRep.plainRep s) "relative" =
        [⟨[0, 11], .elemNode "div" "relative" []⟩,
         ⟨[0, 11, 0], .elemNode "div" "font-menlo" []⟩,
         ⟨[0, 11, 0, 0], .textNode s⟩] from rfl]
    rw [List.filter_cons, List.filter_cons, List.filter_cons,
      if_neg (by decide), if_pos (by decide),
      if_neg (by simp [DomNode.isElem])]
    rfl
  simp only [qsFrom, qsaFrom, c2Dom, headerSeg, List.cons_append, List.nil_append,
    List.append_assoc]
  simp only [List.filter_append, List.filter_cons, hs1, hs2, hob, ho, h03, h05]
  simp +decide

/-- The text of the plain collapsed Expected block. -/
theorem c2Dom_fmText11 (keys ls : List String) (s : String) (o : OutRep) :
    textContentAt (c2Dom keys ls o (.plainRep s)) [0, 11, 0] = s := by
  have hs1 : (linesSeg [0, 1, 0] 0 (keys.map (fun k => k ++ "=0"))).filter
      (fun n => pathPre [0, 11, 0] n.path && !n.isElem) = [] :=
    linesSeg_filter_eq_nil (fun j => rfl) (fun j s => rfl)
  have hs2 : (linesSeg [0, 7, 0] 0 ls).filter
      (fun n => pathPre [0, 11, 0] n.path && !n.isElem) = [] :=
    linesSeg_filter_eq_nil (fun j => rfl) (fun j s => rfl)
  have ho : (repBlock [0, 9] o "relative").filter
      (fun n => pathPre [0, 11, 0] n.path && !n.isElem) = [] :=
    repBlock_filter_eq_nil rfl rfl rfl (fun s => rfl) (fun j => rfl) (fun j s => rfl)
  have h03 : (repBlock [0, 3] (.plainRep "0") "px-4").filter
      (fun n => pathPre [0, 11, 0] n.path && !n.isElem) = [] :=
    repBlock_filter_eq_nil rfl rfl rfl (fun s => rfl) (fun j => rfl) (fun j s => rfl)
  have h05 : (repBlock [0, 5] (.plainRep "0") "px-4").filter
      (fun n => pathPre [0, 11, 0] n.path && !n.isElem) = [] :=
    repBlock_filter_eq_nil rfl rfl rfl (fun s => rfl) (fun j => rfl) (fun j s => rfl)
  have hob : (repBlock [0, 11] (OutRep.plainRep s) "relative").filter
      (fun n => pathPre [0, 11, 0] n.path && !n.isElem) =
      [⟨[0, 11, 0, 0], .textNode s⟩] := by
    rw [show repBlock [0, 11] (OutRep.plainRep s) "relative" =
        [⟨[0, 11], .elemNode "div" "relative" []⟩,
         ⟨[0, 11, 0], .elemNode "div" "font-menlo" []⟩,
         ⟨[0, 11, 0, 0], .textNode s⟩] from rfl]
    rw [List.filter_cons, List.filter_cons, List.filter_cons,
      if_neg (by decide), if_neg (by decide),
      if_pos (by simp [pathPre, DomNode.isElem])]
    rfl
  simp only [textContentAt, c2Dom, headerSeg, List.cons_append, List.nil_append,
    List.append_assoc]
  simp only [List.filter_append, List.filter_cons, hs1, hs2, hob, ho, h03, h05]
  simp +decide [pathPre, DomNode.isElem, DomNode.textData, joinWith]

/-- `parseValue` on the collapsed Expected block computes `repValueAt`. -/
theorem c2Dom_parseValue11 (keys ls : List String) (o e : OutRep) (j : Nat) :
    parseValue (c2Dom keys ls o e) [0, 11] j = repValueAt e j := by
  rcases e with els | s
  · have h1 := c2Dom_cm11_lines keys ls els o
    have h2 := c2Dom_cmLines11 keys ls els o
    simp only [parseValue, h1, h2]
    rfl
  · have h1 := c2Dom_cm11_plain keys ls s o
    have h2 := c2Dom_fm11 keys ls s o
    have h3 := c2Dom_fmText11 keys ls s o
    simp only [parseValue, h1, h2, h3]
    rfl

/-- The key-discovery fold of `parseInput` over `key=0` lines collects
exactly the keys, in order. -/
theorem parseInput_fold :
    ∀ keys : List String, (∀ k ∈ keys, GoodKey k) →
      ∀ acc : List (String × JVal) × List String,
        ((keys.map (fun k => k ++ "=0")).foldl
          (fun acc l =>
            if 2 ≤ (jsSplit '=' l).length then
              (setKey acc.1 (jsTrim ((jsSplit '=' l).headD ""))
                 (decodeVal (jsTrim (joinWith "=" (jsSplit '=' l).tail))),
               acc.2 ++ [jsTrim ((jsSplit '=' l).headD "")])
            else acc) acc).2 = acc.2 ++ keys := by
  intro keys
  induction keys with
  | nil => intro _ acc; simp
  | cons k krest ih =>
    intro hg acc
    have hgk := hg k (by simp)
    have hsplit := jsSplit_key_append hgk
    simp only [List.map_cons, List.foldl_cons, hsplit]
    rw [if_pos (by simp)]
    simp only [List.headD_cons, List.tail_cons, hgk.2.1]
    rw [ih (fun k' hk' => hg k' (List.mem_cons_of_mem _ hk'))]
    simp

/-- `parseInput` run on the first Input block of the family discovers
exactly the declared keys. -/
theorem c2Dom_parseInput (keys ls : List String) (o e : OutRep)
    (hK : keys ≠ []) (hg : ∀ k ∈ keys, GoodKey k) :
    (parseInput (c2Dom keys ls o e) [0, 1]).2 = keys := by
  have h1 := c2Dom_cm1 keys ls o e
  have h2 := c2Dom_cmLines1 keys ls o e
  have hlines : (keys.map (fun k => k ++ "=0")).map jsTrim =
      keys.map (fun k => k ++ "=0") := by
    rw [List.map_map]
    exact List.map_congr_left fun k hk =>
      jsTrim_key_append (hg k hk).1 (hg k hk).2.1
  have hany : (keys.map (fun k => k ++ "=0")).any (fun l => strHas l "=") = true := by
    rcases keys with _ | ⟨k0, krest⟩
    · exact absurd rfl hK
    · simp only [List.map_cons, List.any_cons, strHas_key_append, Bool.true_or]
  simp only [parseInput, h1, h2, hlines, hany, if_true]
  exact (parseInput_fold keys hg ([], [])).trans (List.nil_append keys)

/-- The collapsed-case loop over the family evaluates each Output/Expected
block to its representation value. -/
theorem c2Dom_buildCollapsed (keys ls : List String) (o e : OutRep) :
    buildCollapsedCases (c2Dom keys ls o e) keys (ls.map jsTrim) [0, 9] [0, 11] =
      (List.range ((ls.map jsTrim).length / keys.length)).map
        (c2Case keys (ls.map jsTrim) o e) := by
  simp only [buildCollapsedCases]
  exact List.map_congr_left fun j _ => by
    simp only [c2Case, c2Dom_parseValue9, c2Dom_parseValue11]

/-- The full parse of the family document: two Input sections, collapsed
lines, and per-index Output/Expected values. -/
theorem c2Dom_parse (keys ls : List String) (o e : OutRep)
    (hK : keys ≠ []) (hg : ∀ k ∈ keys, GoodKey k) :
    parseLeetCodetestResult (c2Dom keys ls o e) (some [0]) =
      .ok (c2Expected keys ls o e) := by
  have hcons := c2Dom_console keys ls o e
  have hsec := c2Dom_sections keys ls o e
  have hpi := c2Dom_parseInput keys ls o e hK hg
  have hcm7 := c2Dom_cm7 keys ls o e
  have hlines7 := c2Dom_cmLines7 keys ls o e
  have hkpos : 0 < keys.length := List.length_pos.mpr hK
  simp only [parseLeetCodetestResult, trcOf]
  rw [if_neg (by simp)]
  simp +decide only [hcons, normalParse, hsec, List.filter_cons, List.filter_nil,
    hpi, hcm7, hlines7, List.length_cons, List.length_nil, List.getD_cons_succ,
    List.getD_cons_zero, if_true, if_false]
  by_cases hc : 0 < (ls.map jsTrim).length ∧ (ls.map jsTrim).length % keys.length = 0
  · rw [if_pos ⟨hc.1, hkpos, hc.2⟩, c2Dom_buildCollapsed]
    simp only [c2Expected]
    rw [if_pos hc]
  · rw [if_neg (by rintro ⟨h1, -, h3⟩; exact hc ⟨h1, h3⟩)]
    simp only [c2Expected]
    rw [if_neg hc]

/-! ## Claims C2 and C8 -/

/-- **C2** (confirmed).  Over the collapsed two-Input family `c2Dom`
(arbitrary key list `K = keys.length > 0`, arbitrary collapsed line list
`L = ls.length`), `parseLeetCodetestResult` resolves with exactly
`L / K` test cases when `0 < L` and `L % K = 0`, and with zero test
cases otherwise; and the `j`-th emitted case's input zips the keys in
order with the `j`-th chunk of `K` trimmed lines, each line decoded by
`JSON.parse` with raw-string fallback (`decodeVal`). -/
theorem parseTestResult_collapsed_multicase (keys ls : List String) (o e : OutRep)
    (hK : keys ≠ []) (hg : ∀ k ∈ keys, GoodKey k) (hnd : keys.Nodup) :
    ∃ cases : List TestCase,
      parseLeetCodetestResult (c2Dom keys ls o e) (some [0]) = .ok cases ∧
      cases.length =
        (if 0 < ls.length ∧ ls.length % keys.length = 0
         then ls.length / keys.length else 0) ∧
      ∀ j < cases.length,
        cases[j]?.map TestCase.input =
          some (keys.zip
            ((((ls.map jsTrim).drop (j * keys.length)).take keys.length).map decodeVal)) := by
  have hKpos : 0 < keys.length := List.length_pos.mpr hK
  refine ⟨c2Expected keys ls o e, c2Dom_parse keys ls o e hK hg, ?_, ?_⟩
  · simp only [c2Expected, List.length_map]
    by_cases hc : 0 < ls.length ∧ ls.length % keys.length = 0
    · rw [if_pos hc, if_pos hc]
      simp
    · rw [if_neg hc, if_neg hc]
      rfl
  · intro j hj
    simp only [c2Expected, List.length_map] at hj ⊢
    by_cases hc : 0 < ls.length ∧ ls.length % keys.length = 0
    · rw [if_pos hc] at hj ⊢
      simp only [List.length_map, List.length_range] at hj
      rw [List.getElem?_map, List.getElem?_range hj]
      have hjk : j * keys.length + keys.length ≤ ls.length := by
        have h1 : (j + 1) * keys.length ≤ ls.length :=
          le_trans (Nat.mul_le_mul_right _ hj) (Nat.div_mul_le_self _ _)
        rw [Nat.add_mul, Nat.one_mul] at h1
        exact h1
      have htcl : (((ls.map jsTrim).drop (j * keys.length)).take keys.length).length
          = keys.length := by
        simp only [List.length_take, List.length_drop, List.length_map]
        omega
      simp only [Option.map_some', c2Case]
      rw [foldRange_setKey decodeVal keys _ [] htcl hnd (by simp)]
      rfl
    · rw [if_neg hc] at hj
      simp at hj

/-- Witness for C2 at the spec's collapsed example: keys `nums, target`
and four collapsed lines forming two chunks of two. -/
theorem parseTestResult_collapsed_multicase_witness :
    (["nums", "target"] : List String) ≠ [] ∧
    (∀ k ∈ (["nums", "target"] : List String), GoodKey k) ∧
    (["nums", "target"] : List String).Nodup ∧
    ∃ cases : List TestCase,
      parseLeetCodetestResult
        (c2Dom ["nums", "target"] ["[3,2,4]", "6", "[1,2,3]", "5"]
          (.plainRep "out") (.plainRep "exp")) (some [0]) = .ok cases ∧
      cases.length =
        (if 0 < (["[3,2,4]", "6", "[1,2,3]", "5"] : List String).length ∧
            (["[3,2,4]", "6", "[1,2,3]", "5"] : List String).length %
              (["nums", "target"] : List String).length = 0
         then (["[3,2,4]", "6", "[1,2,3]", "5"] : List String).length /
              (["nums", "target"] : List String).length else 0) ∧
      ∀ j < cases.length,
        cases[j]?.map TestCase.input =
          some ((["nums", "target"] : List String).zip
            (((((["[3,2,4]", "6", "[1,2,3]", "5"] : List String).map jsTrim).drop
                (j * (["nums", "target"] : List String).length)).take
                (["nums", "target"] : List String).length).map decodeVal)) :=
  ⟨by decide, by simp only [GoodKey]; decide, by decide,
   parseTestResult_collapsed_multicase ["nums", "target"]
     ["[3,2,4]", "6", "[1,2,3]", "5"] (.plainRep "out") (.plainRep "exp")
     (by decide) (by simp only [GoodKey]; decide) (by decide)⟩

/-- **C8** (confirmed).  In the collapsed multi-case parse over the
family: when the paired Output block is a single plain-text node
(`plainRep`), every emitted case's output is the same trimmed string
regardless of chunk index; when it is line-based (`lineRep`), case `j`
receives trimmed line `j`. -/
theorem collapsed_output_plain_vs_lines (keys ls lines : List String) (s : String)
    (e : OutRep) (hK : keys ≠ []) (hg : ∀ k ∈ keys, GoodKey k) :
    (∀ cases : List TestCase,
       parseLeetCodetestResult (c2Dom keys ls (.plainRep s) e) (some [0]) = .ok cases →
       ∀ c ∈ cases, c.output = jsTrim s) ∧
    (∀ cases : List TestCase,
       parseLeetCodetestResult (c2Dom keys ls (.lineRep lines) e) (some [0]) = .ok cases →
       ∀ j < cases.length, j < lines.length →
         cases[j]?.map TestCase.output = some ((lines.map jsTrim).getD j "")) := by
  constructor
  · intro cases hcases c hc
    rw [c2Dom_parse keys ls (.plainRep s) e hK hg] at hcases
    obtain rfl : c2Expected keys ls (.plainRep s) e = cases := by injection hcases
    simp only [c2Expected] at hc
    by_cases hcond : 0 < (ls.map jsTrim).length ∧
        (ls.map jsTrim).length % keys.length = 0
    · rw [if_pos hcond] at hc
      obtain ⟨j, hj, rfl⟩ := List.mem_map.mp hc
      rfl
    · rw [if_neg hcond] at hc
      simp at hc
  · intro cases hcases j hjlen hjlines
    rw [c2Dom_parse keys ls (.lineRep lines) e hK hg] at hcases
    obtain rfl : c2Expected keys ls (.lineRep lines) e = cases := by injection hcases
    simp only [c2Expected, List.length_map] at hjlen ⊢
    by_cases hcond : 0 < ls.length ∧ ls.length % keys.length = 0
    · rw [if_pos hcond] at hjlen ⊢
      simp only [List.length_map, List.length_range] at hjlen
      rw [List.getElem?_map, List.getElem?_range hjlen]
      simp only [Option.map_some', c2Case]
      simp [repValueAt, List.length_map, hjlines]
    · rw [if_neg hcond] at hjlen
      simp at hjlen

/-- Witness for C8 at a one-key two-line family, with a plain-text Output
block and with a line-based one. -/
theorem collapsed_output_plain_vs_lines_witness :
    (["k"] : List String) ≠ [] ∧ (∀ k ∈ (["k"] : List String), GoodKey k) ∧
    ((∀ cases : List TestCase,
       parseLeetCodetestResult (c2Dom ["k"] ["1", "2"] (.plainRep "out") (.plainRep "x"))
         (some [0]) = .ok cases →
       ∀ c ∈ cases, c.output = jsTrim "out") ∧
     (∀ cases : List TestCase,
       parseLeetCodetestResult (c2Dom ["k"] ["1", "2"] (.lineRep ["a", "b"]) (.plainRep "x"))
         (some [0]) = .ok cases →
       ∀ j < cases.length, j < (["a", "b"] : List String).length →
         cases[j]?.map TestCase.output =
           some (((["a", "b"] : List String).map jsTrim).getD j ""))) :=
  ⟨by decide, by simp only [GoodKey]; decide,
   collapsed_output_plain_vs_lines ["k"] ["1", "2"] ["a", "b"] "out" (.plainRep "x")
     (by decide) (by simp only [GoodKey]; decide)⟩
